import Mathlib

/-!
# Packer: packing and collision-detection engine

A shallow embedding of `src/main.c` (cyprus327/Packer) and the properties of its
geometry primitives, spatial grid and packing loop.

Modelling conventions.
* C `float` values are carried as the rationals they denote.  The session
  model (drawing, grid, packing loop) computes with them exactly; the
  properties proved about it rest on the control flow, on comparisons and on
  bounds that are monotone, not on the value of a rounded result.
* The geometry primitives whose results do depend on rounding (`poly_area`,
  `ensure_winding`, `do_lines_intersect`, `check_poly_collisions`,
  `get_poly_center` and the finishing step of `handle_drawing`) are also given
  as the program evaluates them, in IEEE-754 binary32 with every `+ - * /`
  rounded to nearest-even: the definitions with the suffix `_f32`.  The
  suffix-free definitions are the same expressions over exact rationals.
* The one place where IEEE special values decide a result, the division in
  `do_lines_intersect`, has an explicit result type `FloatDiv` (finite,
  infinite, NaN).
* A `Polygon` is the list of its first `vertexCount` vertices (`vertexCount`
  is the length of the list); the `isClosed` flag is written but never read by
  the engine and is left out.
* `realloc` is assumed to succeed, so a growable C buffer is a list.
* raylib / raymath / libm functions are not part of the repository sources;
  they are modelled from their documented behaviour and marked as such.
-/

namespace Packer

/-! ## Constants (`#define`s of main.c) -/

def MAX_VERTICES : Nat := 32
def MAX_PACKABLE_SHAPES : Nat := 20000
def SCREEN_WIDTH : Int := 1300
def SCREEN_HEIGHT : Int := 800
def UI_PANEL_WIDTH : Int := 340
def GRID_CELL_SIZE : Int := 40
def GRID_COLS : Int := SCREEN_WIDTH / GRID_CELL_SIZE + 1
def GRID_ROWS : Int := SCREEN_HEIGHT / GRID_CELL_SIZE + 1

/-! ## Data model -/

/-- raylib `Vector2` with exact coordinates. -/
abbrev Vector2 := ℚ × ℚ

/-- raylib `Rectangle`. -/
structure Rectangle where
  x : ℚ
  y : ℚ
  width : ℚ
  height : ℚ
deriving DecidableEq, Repr

/-- `struct poly`: the vertices `vertices[0 .. vertexCount-1]`. -/
abbrev Polygon := List Vector2

/-- `poly->vertices[i]` (reads outside the list give the zero vector). -/
def vtx (poly : Polygon) (i : Nat) : Vector2 := poly.getD i (0, 0)

/-- raymath `Vector2Add`. -/
def Vector2Add (a b : Vector2) : Vector2 := (a.1 + b.1, a.2 + b.2)

/-- raymath `Vector2Subtract`. -/
def Vector2Subtract (a b : Vector2) : Vector2 := (a.1 - b.1, a.2 - b.2)

/-- raymath `Vector2DotProduct`. -/
def Vector2DotProduct (a b : Vector2) : ℚ := a.1 * b.1 + a.2 * b.2

/-! ## Float division with IEEE special values -/

/-- The result of a `float` division of two finite values: a finite quotient,
an infinity (with its sign) when a non-zero value is divided by zero, or NaN
for `0/0`. -/
inductive FloatDiv where
  | fin (q : ℚ)
  | inf (negative : Bool)
  | nan
deriving DecidableEq, Repr

/-- IEEE-754 `n / d` for finite `n`, `d`.  The sign of an infinite result also
depends on the sign of the zero; both signs are outside `[0,1]`, so only the
sign of the numerator is recorded. -/
def fdiv (n d : ℚ) : FloatDiv :=
  if d = 0 then (if n = 0 then FloatDiv.nan else FloatDiv.inf (decide (n < 0)))
  else FloatDiv.fin (n / d)

/-- C comparison `v >= 0.f` (false for NaN). -/
def FloatDiv.geZero : FloatDiv → Bool
  | .fin q => decide (0 ≤ q)
  | .inf negative => !negative
  | .nan => false

/-- C comparison `v <= 1.f` (false for NaN). -/
def FloatDiv.leOne : FloatDiv → Bool
  | .fin q => decide (q ≤ 1)
  | .inf negative => negative
  | .nan => false

/-! ## Geometry -/

/-- The denominator `-s2x * s1y + s1x * s2y` of `do_lines_intersect`. -/
def lineDet (a b c d : Vector2) : ℚ :=
  -(d.1 - c.1) * (b.2 - a.2) + (b.1 - a.1) * (d.2 - c.2)

/-- The coefficient `s` of `do_lines_intersect`. -/
def coefS (a b c d : Vector2) : FloatDiv :=
  let s1x := b.1 - a.1; let s1y := b.2 - a.2
  let s2x := d.1 - c.1; let s2y := d.2 - c.2
  fdiv (-s1y * (a.1 - c.1) + s1x * (a.2 - c.2)) (-s2x * s1y + s1x * s2y)

/-- The coefficient `t` of `do_lines_intersect`. -/
def coefT (a b c d : Vector2) : FloatDiv :=
  let s1x := b.1 - a.1; let s1y := b.2 - a.2
  let s2x := d.1 - c.1; let s2y := d.2 - c.2
  fdiv (s2x * (a.2 - c.2) - s2y * (a.1 - c.1)) (-s2x * s1y + s1x * s2y)

/-- `do_lines_intersect` (main.c 586-592). -/
def do_lines_intersect (a b c d : Vector2) : Bool :=
  let s := coefS a b c d
  let t := coefT a b c d
  s.geZero && s.leOne && t.geZero && t.leOne

/-- `poly_area` (main.c 679-687): the shoelace sum times one half. -/
def poly_area (poly : Polygon) : ℚ :=
  (List.range poly.length).foldl
    (fun area i =>
      let a := vtx poly i
      let b := vtx poly ((i + 1) % poly.length)
      area + (a.1 * b.2 - b.1 * a.2))
    0 * (1 / 2)

/-- One iteration of the swap loop of `ensure_winding`. -/
def swapStep (poly : Polygon) (i : Nat) : Polygon :=
  let temp := vtx poly i
  (poly.set i (vtx poly (poly.length - 1 - i))).set (poly.length - 1 - i) temp

/-- `ensure_winding` (main.c 689-699). -/
def ensure_winding (poly : Polygon) : Polygon :=
  if poly_area poly < 0 then poly
  else (List.range (poly.length / 2)).foldl swapStep poly

/-- The loop body of `project_poly`, on the pair `(min, max)`. -/
def projectStep (axis : Vector2) (mm : ℚ × ℚ) (v : Vector2) : ℚ × ℚ :=
  let p := Vector2DotProduct v axis
  if p < mm.1 then (p, mm.2) else if p > mm.2 then (mm.1, p) else mm

/-- `project_poly` (main.c 639-651): returns `(min, max)`. -/
def project_poly (axis : Vector2) (vertices : List Vector2) : ℚ × ℚ :=
  let m0 := Vector2DotProduct (vtx vertices 0) axis
  (vertices.drop 1).foldl (projectStep axis) (m0, m0)

/-- The axis of edge `i` of `p`: the normal `(-edge.y, edge.x)`. -/
def edgeAxis (p : Polygon) (i : Nat) : Vector2 :=
  let edge := Vector2Subtract (vtx p ((i + 1) % p.length)) (vtx p i)
  (-edge.2, edge.1)

/-- The test `max1 < min2 || max2 < min1` of `check_poly_collisions` on one axis. -/
def axisSeparates (axis : Vector2) (p1 p2 : Polygon) : Bool :=
  let m1 := project_poly axis p1
  let m2 := project_poly axis p2
  decide (m1.2 < m2.1) || decide (m2.2 < m1.1)

/-- `check_poly_collisions` (main.c 614-637): `false` as soon as an edge normal
of `p1`, then of `p2`, separates the projections; `true` otherwise. -/
def check_poly_collisions (p1 p2 : Polygon) : Bool :=
  (List.range p1.length).all (fun i => !axisSeparates (edgeAxis p1 i) p1 p2) &&
  (List.range p2.length).all (fun i => !axisSeparates (edgeAxis p2 i) p1 p2)

/-- `get_poly_bounds` (main.c 653-667). -/
def get_poly_bounds (poly : Polygon) : Rectangle :=
  if poly.length = 0 then ⟨0, 0, 0, 0⟩
  else
    let v0 := vtx poly 0
    let mm := (poly.drop 1).foldl
      (fun (mm : Vector2 × Vector2) v =>
        ((min mm.1.1 v.1, min mm.1.2 v.2), (max mm.2.1 v.1, max mm.2.2 v.2)))
      (v0, v0)
    ⟨mm.1.1, mm.1.2, mm.2.1 - mm.1.1, mm.2.2 - mm.1.2⟩

/-- `get_poly_center` (main.c 503-510): the bounding-box center. -/
def get_poly_center (poly : Polygon) : Vector2 :=
  if poly.length = 0 then (0, 0)
  else
    let bounds := get_poly_bounds poly
    (bounds.x + bounds.width / 2, bounds.y + bounds.height / 2)

/-! ## raylib helpers -/

/-- Modelled from the spec: raylib's `CheckCollisionRecs` is not under src/; it
is the bounding-box test of the broad phase, true when the two rectangles
overlap in both axes, with raylib's strict comparisons. -/
def CheckCollisionRecs (rec1 rec2 : Rectangle) : Bool :=
  decide (rec1.x < rec2.x + rec2.width) && decide (rec1.x + rec1.width > rec2.x) &&
    decide (rec1.y < rec2.y + rec2.height) && decide (rec1.y + rec1.height > rec2.y)

/-- One edge `(points[j], points[i])` of the crossing-number test. -/
def crossingStep (point : Vector2) (points : List Vector2) (inside : Bool) (i : Nat) : Bool :=
  let j := if i = 0 then points.length - 1 else i - 1
  let pi := vtx points i
  let pj := vtx points j
  if (decide (pi.2 > point.2) != decide (pj.2 > point.2)) &&
      decide (point.1 < (pj.1 - pi.1) * (point.2 - pi.2) / (pj.2 - pi.2) + pi.1)
  then !inside else inside

/-- Modelled from the spec: raylib's `CheckCollisionPointPoly` is not under
src/; it is the standard crossing-number (ray-casting) point-in-polygon test,
false for fewer than 3 points. -/
def CheckCollisionPointPoly (point : Vector2) (points : List Vector2) : Bool :=
  if points.length > 2 then (List.range points.length).foldl (crossingStep point points) false
  else false

/-- Modelled from the spec: raylib's `CheckCollisionPointCircle` is not under
src/; true when the point is within `radius` of `center`. -/
def CheckCollisionPointCircle (point center : Vector2) (radius : ℚ) : Bool :=
  decide ((point.1 - center.1) * (point.1 - center.1) +
    (point.2 - center.2) * (point.2 - center.2) ≤ radius * radius)

/-- The libm functions `cosf` and `sinf` as used by the packing loop, as
functions of the angle in degrees: `cosDeg a` is `cosf(a * DEG2RAD)`.  They are
a parameter of the model. -/
structure Trig where
  cosDeg : ℚ → ℚ
  sinDeg : ℚ → ℚ

/-- Modelled from the spec: raymath's `Vector2Rotate(v, angle * DEG2RAD)` is
not under src/; the rotation of `v` about the origin by `angle` degrees. -/
def Vector2Rotate (trig : Trig) (v : Vector2) (angle : ℚ) : Vector2 :=
  (v.1 * trig.cosDeg angle - v.2 * trig.sinDeg angle,
    v.1 * trig.sinDeg angle + v.2 * trig.cosDeg angle)

/-! ## Containment -/

/-- `is_shape_inside_container` (main.c 594-612). -/
def is_shape_inside_container (shape container : Polygon) : Bool :=
  (List.range shape.length).all (fun i => CheckCollisionPointPoly (vtx shape i) container) &&
  (List.range shape.length).all (fun i =>
    let a := vtx shape i
    let b := vtx shape ((i + 1) % shape.length)
    (List.range container.length).all (fun j =>
      let c := vtx container j
      let d := vtx container ((j + 1) % container.length)
      !do_lines_intersect a b c d))

/-! ## Spatial grid -/

/-- The global `spatialGrid[GRID_ROWS][GRID_COLS]`: `grid y x` is the list
`shapeInds[0 .. count-1]` of cell `spatialGrid[y][x]`. -/
abbrev Grid := Int → Int → List Nat

/-- `grid_init` (main.c 298-306): every cell empty. -/
def grid_init : Grid := fun _ _ => []

/-- The values `lo, lo+1, ..., hi` of a loop `for (v = lo; v <= hi; v += 1)`. -/
def intRange (lo hi : Int) : List Int :=
  (List.range (hi + 1 - lo).toNat).map (fun (k : Nat) => lo + (k : Int))

/-- `MAX(0, (int)floorf(v / GRID_CELL_SIZE))`. -/
def cellLo (v : ℚ) : Int := max 0 ⌊v / (GRID_CELL_SIZE : ℚ)⌋

/-- `MIN(limit - 1, (int)floorf(v / GRID_CELL_SIZE))`. -/
def cellHi (limit : Int) (v : ℚ) : Int := min (limit - 1) ⌊v / (GRID_CELL_SIZE : ℚ)⌋

/-- The cells `(y, x)` visited by the nested loops over `minY..maxY`,
`minX..maxX` computed from a bounding box, in visiting order. -/
def cellRange (bounds : Rectangle) : List (Int × Int) :=
  let minX := cellLo bounds.x
  let minY := cellLo bounds.y
  let maxX := cellHi GRID_COLS (bounds.x + bounds.width)
  let maxY := cellHi GRID_ROWS (bounds.y + bounds.height)
  (intRange minY maxY).flatMap (fun y => (intRange minX maxX).map (fun x => (y, x)))

/-- The body of the insertion loop: append `shapeInd` to cell `(y, x)`. -/
def cellAppend (shapeInd : Nat) (grid : Grid) (c : Int × Int) : Grid :=
  fun y x => if y = c.1 ∧ x = c.2 then grid y x ++ [shapeInd] else grid y x

/-- `grid_add_shape` (main.c 318-338). -/
def grid_add_shape (grid : Grid) (shapeInd : Nat) (poly : Polygon) : Grid :=
  (cellRange (get_poly_bounds poly)).foldl (cellAppend shapeInd) grid

/-- `memset(checkedInds, 0, packedCount)`. -/
def clearChecked (checkedInds : Nat → Bool) (packedCount : Nat) : Nat → Bool :=
  fun i => if i < packedCount then false else checkedInds i

/-- `checkedInds[shapeInd] = 1`. -/
def markChecked (checkedInds : Nat → Bool) (shapeInd : Nat) : Nat → Bool :=
  fun i => if i = shapeInd then true else checkedInds i

/-- The loop over the entries of one cell in `does_shape_overlap_packed`.  The
first component is true when `return 1` was executed. -/
def scanInds (shape : Polygon) (candidateBox : Rectangle) (packedShapes : List Polygon) :
    List Nat → (Nat → Bool) → Bool × (Nat → Bool)
  | [], checked => (false, checked)
  | shapeInd :: rest, checked =>
    if checked shapeInd then scanInds shape candidateBox packedShapes rest checked
    else
      let checked1 := markChecked checked shapeInd
      let packedBox := get_poly_bounds (packedShapes.getD shapeInd [])
      if CheckCollisionRecs candidateBox packedBox &&
          check_poly_collisions shape (packedShapes.getD shapeInd []) then (true, checked1)
      else scanInds shape candidateBox packedShapes rest checked1

/-- The loops over the cells in `does_shape_overlap_packed`. -/
def scanCells (grid : Grid) (shape : Polygon) (candidateBox : Rectangle)
    (packedShapes : List Polygon) : List (Int × Int) → (Nat → Bool) → Bool × (Nat → Bool)
  | [], checked => (false, checked)
  | c :: rest, checked =>
    let r := scanInds shape candidateBox packedShapes (grid c.1 c.2) checked
    if r.1 then r else scanCells grid shape candidateBox packedShapes rest r.2

/-- `does_shape_overlap_packed` (main.c 340-377), with the globals
`spatialGrid` and `checkedInds` passed in; returns the result and the new
contents of `checkedInds`. -/
def does_shape_overlap_packed (grid : Grid) (checkedInds : Nat → Bool) (shape : Polygon)
    (packedShapes : List Polygon) (packedCount : Nat) : Bool × (Nat → Bool) :=
  if packedCount = 0 then (false, checkedInds)
  else if packedCount > MAX_PACKABLE_SHAPES then (true, checkedInds)
  else
    let candidateBox := get_poly_bounds shape
    scanCells grid shape candidateBox packedShapes (cellRange candidateBox)
      (clearChecked checkedInds packedCount)

/-! ## Session state and the packing loop -/

/-- `enum state`. -/
inductive State where
  | STATE_DRAW_CONTAINER
  | STATE_DRAW_INNER
  | STATE_PACKING
  | STATE_DONE
deriving DecidableEq, Repr

/-- The polygon a `Polygon*` of `main` points to. -/
inductive PolyRef where
  | container
  | inner
deriving DecidableEq, Repr

/-- The locals of `main` and the globals that the engine reads or writes.
`packedShapesCount` is the length of `packedShapes`; the presentation fields of
`PackedShape` (animation timer, colour) are left out. -/
structure Session where
  currentState : State
  containerPoly : Polygon
  innerPoly : Polygon
  packedShapes : List Polygon
  containerBounds : Rectangle
  packingCursor : Vector2
  posStep : ℚ
  rotationStep : ℚ
  containerArea : ℚ
  packedTotalArea : ℚ
  packingEfficiency : ℚ
  spatialGrid : Grid
  checkedInds : Nat → Bool
  draggedVert : Option Nat
  draggedPoly : Option PolyRef

/-- The state of `main` when the frame loop is entered (main.c 103-122). -/
def initialSession : Session where
  currentState := State.STATE_DRAW_CONTAINER
  containerPoly := []
  innerPoly := []
  packedShapes := []
  containerBounds := ⟨0, 0, 0, 0⟩
  packingCursor := (0, 0)
  posStep := 3
  rotationStep := 5
  containerArea := 0
  packedTotalArea := 0
  packingEfficiency := 0
  spatialGrid := grid_init
  checkedInds := fun _ => false
  draggedVert := none
  draggedPoly := none

/-- The candidate of the angle sweep (main.c 166-171): the unit shape rotated
by `angle` degrees and translated to the cursor. -/
def candidateShape (trig : Trig) (s : Session) (angle : ℚ) : Polygon :=
  s.innerPoly.map (fun v => Vector2Add (Vector2Rotate trig v angle) s.packingCursor)

/-- The acceptance branch (main.c 176-196): append the candidate and insert it
into the grid under the index `packedShapesCount`. -/
def acceptShape (s : Session) (candidate : Polygon) : Session :=
  { s with
    packedShapes := s.packedShapes ++ [candidate]
    spatialGrid := grid_add_shape s.spatialGrid s.packedShapes.length candidate }

/-- The angle sweep `for (angle = 0; angle < 360; angle += rotationStep)`
(main.c 165-200), started at `angle` with at most `fuel` iterations. -/
def angle_sweep (trig : Trig) : Nat → ℚ → Session → Session
  | 0, _, s => s
  | fuel + 1, angle, s =>
    if angle < 360 then
      let candidate := candidateShape trig s angle
      if is_shape_inside_container candidate s.containerPoly then
        let r := does_shape_overlap_packed s.spatialGrid s.checkedInds candidate
          s.packedShapes s.packedShapes.length
        let s1 := { s with checkedInds := r.2 }
        if !r.1 then acceptShape s1 candidate
        else angle_sweep trig fuel (angle + s.rotationStep) s1
      else angle_sweep trig fuel (angle + s.rotationStep) s
    else s

/-- The number of iterations after which the angle sweep has reached 360
degrees (for a positive rotation step). -/
def sweepFuel (rotationStep : ℚ) : Nat := ⌈360 / rotationStep⌉.toNat

/-- The completion branch (main.c 150-163). -/
def complete_packing (s : Session) : Session :=
  let innerArea := |poly_area s.innerPoly|
  let packedTotalArea := (s.packedShapes.length : ℚ) * innerArea
  { s with
    currentState := State.STATE_DONE
    packedTotalArea := packedTotalArea
    packingEfficiency :=
      if s.containerArea > 0 then packedTotalArea / s.containerArea * 100
      else s.packingEfficiency }

/-- The cursor advance (main.c 202-206). -/
def advance_cursor (s : Session) : Session :=
  let x := s.packingCursor.1 + s.posStep
  if x ≥ s.containerBounds.x + s.containerBounds.width then
    { s with packingCursor := (s.containerBounds.x, s.packingCursor.2 + s.posStep) }
  else { s with packingCursor := (x, s.packingCursor.2) }

/-- One iteration of the loop `for (c = 0; c < attemptsPerFrame; c += 1)`
(main.c 149-207): either the completion branch, or one angle sweep followed by
the cursor advance. -/
def packing_attempt (trig : Trig) (s : Session) : Session :=
  if s.packingCursor.2 ≥ s.containerBounds.y + s.containerBounds.height then complete_packing s
  else advance_cursor (angle_sweep trig (sweepFuel s.rotationStep) 0 s)

/-- At most `n` iterations of the attempt loop, left by `break` once the
completion branch has run. -/
def attempts_loop (trig : Trig) : Nat → Session → Session
  | 0, s => s
  | n + 1, s =>
    let s1 := packing_attempt trig s
    if s1.currentState = State.STATE_DONE then s1 else attempts_loop trig n s1

/-- The initialisation at the top of `case STATE_PACKING` (main.c 143-146). -/
def init_bounds (s : Session) : Session :=
  if s.containerBounds.width = 0 then
    let bounds := get_poly_bounds s.containerPoly
    { s with containerBounds := bounds, packingCursor := (bounds.x, bounds.y) }
  else s

/-- `attemptsPerFrame`. -/
def attemptsPerFrame : Nat := 200

/-- `case STATE_PACKING` of one frame (main.c 142-208). -/
def packing_frame (trig : Trig) (s : Session) : Session :=
  attempts_loop trig attemptsPerFrame (init_bounds s)

/-! ## Drawing, reset and the frame loop -/

/-- What one frame reads from the host: the mouse position in world
coordinates (`GetScreenToWorld2D(GetMousePosition(), camera)`) and on screen,
the left mouse button and the keys. -/
structure Input where
  mousePos : Vector2
  mouseScreen : Vector2
  leftPressed : Bool
  leftDown : Bool
  leftReleased : Bool
  keyZ : Bool
  keySpace : Bool
  keyA : Bool
  keyR : Bool

/-- The polygon behind a `Polygon*`. -/
def getPoly (s : Session) : PolyRef → Polygon
  | PolyRef.container => s.containerPoly
  | PolyRef.inner => s.innerPoly

/-- Assignment through a `Polygon*`. -/
def setPoly (s : Session) (r : PolyRef) (poly : Polygon) : Session :=
  match r with
  | PolyRef.container => { s with containerPoly := poly }
  | PolyRef.inner => { s with innerPoly := poly }

/-- The vertex-picking loop of `handle_drawing` (main.c 385-393). -/
def pick_vertex (inp : Input) (r : PolyRef) (s : Session) : Session :=
  if inp.leftPressed then
    match (List.range (getPoly s r).length).find?
        (fun i => CheckCollisionPointCircle inp.mousePos (vtx (getPoly s r) i) 8) with
    | some i => { s with draggedVert := some i, draggedPoly := some r }
    | none => s
  else s

/-- Dragging the picked vertex (main.c 394-396). -/
def drag_vertex (inp : Input) (r : PolyRef) (s : Session) : Session :=
  match s.draggedVert with
  | some i =>
    if inp.leftDown && decide (s.draggedPoly = some r) then
      setPoly s r ((getPoly s r).set i inp.mousePos)
    else s
  | none => s

/-- Releasing the mouse button (main.c 397-400). -/
def release_vertex (inp : Input) (s : Session) : Session :=
  if inp.leftReleased then { s with draggedVert := none, draggedPoly := none } else s

/-- Adding a vertex (main.c 401-407). -/
def add_vertex (inp : Input) (r : PolyRef) (s : Session) : Session :=
  if inp.leftPressed && decide (s.draggedVert = none) then
    if (getPoly s r).length < MAX_VERTICES then setPoly s r (getPoly s r ++ [inp.mousePos])
    else s
  else s

/-- Undoing the last vertex (main.c 408-410). -/
def undo_vertex (inp : Input) (r : PolyRef) (s : Session) : Session :=
  if inp.keyZ && decide ((getPoly s r).length > 0) then setPoly s r (getPoly s r).dropLast
  else s

/-- Finishing a shape (main.c 412-430): normalize the winding, record the
container area when the container is finished, re-center the unit shape when
the state is `STATE_DRAW_INNER`, and move to `nextState`. -/
def finish_shape (inp : Input) (r : PolyRef) (nextState : State) (s : Session) : Session :=
  if inp.keySpace && decide ((getPoly s r).length ≥ 3) then
    let s1 := setPoly s r (ensure_winding (getPoly s r))
    let s2 := match r with
      | PolyRef.container => { s1 with containerArea := |poly_area (getPoly s1 r)| }
      | PolyRef.inner => s1
    let s3 :=
      if s2.currentState = State.STATE_DRAW_INNER then
        let center := get_poly_center (getPoly s2 r)
        setPoly s2 r ((getPoly s2 r).map (fun v => Vector2Subtract v center))
      else s2
    { s3 with currentState := nextState }
  else s

/-- `handle_drawing` (main.c 379-431) on the polygon `r`; the pointer
`containerArea` is non-null exactly for the container. -/
def handle_drawing (inp : Input) (r : PolyRef) (nextState : State) (s : Session) : Session :=
  if inp.mousePos.1 > ((SCREEN_WIDTH - UI_PANEL_WIDTH : Int) : ℚ) then s
  else
    finish_shape inp r nextState
      (undo_vertex inp r (add_vertex inp r (release_vertex inp (drag_vertex inp r
        (pick_vertex inp r s)))))

/-- `case STATE_DONE` (main.c 210-235). -/
def done_frame (inp : Input) (s : Session) : Session :=
  if inp.keyA || inp.keyR then
    { s with
      containerPoly := if inp.keyR then [] else s.containerPoly
      innerPoly := []
      packedShapes := []
      containerBounds := ⟨0, 0, 0, 0⟩
      packingCursor := (0, 0)
      containerArea := 0
      packedTotalArea := 0
      packingEfficiency := 0
      spatialGrid := grid_init
      currentState := State.STATE_DRAW_CONTAINER }
  else s

/-- Modelled from the spec: raylib's `CheckCollisionPointRec` is not under
src/; true when the point lies in the rectangle. -/
def CheckCollisionPointRec (point : Vector2) (r : Rectangle) : Bool :=
  decide (point.1 ≥ r.x) && decide (point.1 < r.x + r.width) &&
    decide (point.2 ≥ r.y) && decide (point.2 < r.y + r.height)

/-- The macro `CLAMP(x, a, b)`. -/
def CLAMP (x a b : ℚ) : ℚ := if x < a then a else if x > b then b else x

/-- The value returned by `gui_slider` (main.c 564-584). -/
def gui_slider (inp : Input) (bounds : Rectangle) (value minValue maxValue : ℚ) : ℚ :=
  if CheckCollisionPointRec inp.mouseScreen bounds && inp.leftDown then
    CLAMP ((inp.mouseScreen.1 - bounds.x) / bounds.width * (maxValue - minValue) + minValue)
      minValue maxValue
  else value

/-- The two step sliders of `draw_ui_panel` (main.c 553-556). -/
def draw_ui_panel (inp : Input) (s : Session) : Session :=
  let panelX : ℚ := ((SCREEN_WIDTH - UI_PANEL_WIDTH : Int) : ℚ)
  let panelW : ℚ := (UI_PANEL_WIDTH : ℚ)
  { s with
    posStep := gui_slider inp ⟨panelX + 20, 350, panelW - 40, 20⟩ s.posStep (1 / 5) 5
    rotationStep := gui_slider inp ⟨panelX + 20, 420, panelW - 40, 20⟩ s.rotationStep (1 / 10) 15 }

/-- The state switch of one frame (main.c 133-236). -/
def state_switch (trig : Trig) (inp : Input) (s : Session) : Session :=
  match s.currentState with
  | State.STATE_DRAW_CONTAINER =>
    handle_drawing inp PolyRef.container State.STATE_DRAW_INNER s
  | State.STATE_DRAW_INNER => handle_drawing inp PolyRef.inner State.STATE_PACKING s
  | State.STATE_PACKING => packing_frame trig s
  | State.STATE_DONE => done_frame inp s

/-- One iteration of the frame loop of `main` (main.c 124-285), without the
presentation code. -/
def frame (trig : Trig) (inp : Input) (s : Session) : Session :=
  draw_ui_panel inp (state_switch trig inp s)

/-! ## Auxiliary definitions used in the statements -/

/-- The bounding box reaches into the area covered by the grid,
`[0, GRID_COLS*40) x [0, GRID_ROWS*40)`: its far corner is not negative and its
near corner is before the right and bottom ends of the grid. -/
def reachesGrid (b : Rectangle) : Prop :=
  (0 ≤ b.x + b.width ∧ b.x < (GRID_COLS : ℚ) * (GRID_CELL_SIZE : ℚ)) ∧
    (0 ≤ b.y + b.height ∧ b.y < (GRID_ROWS : ℚ) * (GRID_CELL_SIZE : ℚ))

instance (b : Rectangle) : Decidable (reachesGrid b) := by
  unfold reachesGrid
  infer_instance

/-- The two tests that `does_shape_overlap_packed` applies to a visited shape:
the bounding boxes collide and the separating-axis test reports overlap. -/
def narrowPhase (shape packed : Polygon) : Bool :=
  CheckCollisionRecs (get_poly_bounds shape) (get_poly_bounds packed) &&
    check_poly_collisions shape packed

/-- The bookkeeping invariant of the grid: a cell holds only indices of placed
shapes, and every placed shape is listed in every cell of its own cell range. -/
def GridInv (grid : Grid) (packedShapes : List Polygon) : Prop :=
  (∀ y x i, i ∈ grid y x → i < packedShapes.length) ∧
    (∀ i, i < packedShapes.length →
      ∀ c ∈ cellRange (get_poly_bounds (packedShapes.getD i [])), i ∈ grid c.1 c.2)

/-- No placement whose bounding box reaches into the grid passed both tests of
the narrow phase against an earlier placement that also reaches into the grid. -/
def NoOverlap (packedShapes : List Polygon) : Prop :=
  ∀ i j, i < j → j < packedShapes.length →
    reachesGrid (get_poly_bounds (packedShapes.getD i [])) →
    reachesGrid (get_poly_bounds (packedShapes.getD j [])) →
    narrowPhase (packedShapes.getD j []) (packedShapes.getD i []) = false

/-- A session with the polygon `r` and the drag state replaced. -/
def editSession (s : Session) (r : PolyRef) (poly : Polygon) (dv : Option Nat)
    (dp : Option PolyRef) : Session :=
  { setPoly s r poly with draggedVert := dv, draggedPoly := dp }

/-- The sessions that the program can be in, at frame boundaries and between
two attempts of a packing frame.  The steps may be set to any positive values
(the sliders of `draw_ui_panel` are a special case); the other constructors are
the branches of the state switch, the packing frame being split into its
initialisation and its attempts. -/
inductive Reachable (trig : Trig) : Session → Prop where
  | init : Reachable trig initialSession
  | steps (s : Session) (posStep rotationStep : ℚ) (hp : 0 < posStep) (hr : 0 < rotationStep) :
      Reachable trig s →
      Reachable trig { s with posStep := posStep, rotationStep := rotationStep }
  | drawContainer (s : Session) (inp : Input) :
      Reachable trig s → s.currentState = State.STATE_DRAW_CONTAINER →
      Reachable trig (handle_drawing inp PolyRef.container State.STATE_DRAW_INNER s)
  | drawInner (s : Session) (inp : Input) :
      Reachable trig s → s.currentState = State.STATE_DRAW_INNER →
      Reachable trig (handle_drawing inp PolyRef.inner State.STATE_PACKING s)
  | boundsInit (s : Session) :
      Reachable trig s → s.currentState = State.STATE_PACKING →
      Reachable trig (init_bounds s)
  | attempt (s : Session) :
      Reachable trig s → s.currentState = State.STATE_PACKING →
      Reachable trig (packing_attempt trig s)
  | done (s : Session) (inp : Input) :
      Reachable trig s → s.currentState = State.STATE_DONE →
      Reachable trig (done_frame inp s)

/-- The efficiency formula of the completion branch, from the polygons and the
number of placements. -/
def efficiencyFormula (s : Session) : ℚ :=
  if |poly_area s.containerPoly| > 0 then
    (s.packedShapes.length : ℚ) * |poly_area s.innerPoly| / |poly_area s.containerPoly| * 100
  else 0

/-- The invariant of the reachable sessions. -/
structure SessionInv (s : Session) : Prop where
  grid : GridInv s.spatialGrid s.packedShapes
  noOverlap : NoOverlap s.packedShapes
  inside : ∀ p ∈ s.packedShapes, is_shape_inside_container p s.containerPoly = true
  count : s.packedShapes.length ≤ MAX_PACKABLE_SHAPES + 1
  drawing : (s.currentState = State.STATE_DRAW_CONTAINER ∨
      s.currentState = State.STATE_DRAW_INNER) → s.packedShapes = [] ∧ s.packingEfficiency = 0
  area : s.currentState ≠ State.STATE_DRAW_CONTAINER →
    s.containerArea = |poly_area s.containerPoly|
  packing : s.currentState = State.STATE_PACKING → s.packingEfficiency = 0
  finished : s.currentState = State.STATE_DONE → s.packingEfficiency = efficiencyFormula s
  stepsPos : 0 < s.posStep ∧ 0 < s.rotationStep

/-! ## Concrete sessions -/

/-- Values of `cosf` and `sinf` that are exact at the multiples of 90 degrees
(and at angle 0 in particular, where raymath's rotation is the identity). -/
def quarterTrig : Trig where
  cosDeg := fun a => if a = 90 then 0 else if a = 180 then -1 else if a = 270 then 0 else 1
  sinDeg := fun a => if a = 90 then 1 else if a = 180 then 0 else if a = 270 then -1 else 0

/-- A frame in which the left mouse button is pressed at `p`. -/
def clickAt (p : Vector2) : Input :=
  { mousePos := p, mouseScreen := p, leftPressed := true, leftDown := true,
    leftReleased := false, keyZ := false, keySpace := false, keyA := false, keyR := false }

/-- A frame in which the space key is pressed. -/
def pressSpace : Input :=
  { mousePos := (0, 0), mouseScreen := (0, 0), leftPressed := false, leftDown := false,
    leftReleased := false, keyZ := false, keySpace := true, keyA := false, keyR := false }

/-- The session after the steps are set to `posStep`, `rotationStep`, the four
corners of the container are clicked and the container is finished. -/
def drawnContainer (posStep rotationStep : ℚ) (c0 c1 c2 c3 : Vector2) : Session :=
  let draw := fun (inp : Input) (s : Session) =>
    handle_drawing inp PolyRef.container State.STATE_DRAW_INNER s
  draw pressSpace (draw (clickAt c3) (draw (clickAt c2) (draw (clickAt c1) (draw (clickAt c0)
    { initialSession with posStep := posStep, rotationStep := rotationStep }))))

/-- The session after the four corners of the unit shape are clicked and the
unit shape is finished. -/
def drawnInner (s : Session) (u0 u1 u2 u3 : Vector2) : Session :=
  let draw := fun (inp : Input) (s : Session) =>
    handle_drawing inp PolyRef.inner State.STATE_PACKING s
  draw pressSpace (draw (clickAt u3) (draw (clickAt u2) (draw (clickAt u1)
    (draw (clickAt u0) s))))

/-- A drawn session: the container is the square (0,0)-(30,30), the unit shape
a square of side 10, the position step 10 and the rotation step 90 degrees. -/
def demoDrawn : Session :=
  drawnInner (drawnContainer 10 90 (0, 0) (30, 0) (30, 30) (0, 30))
    (200, 200) (210, 200) (210, 210) (200, 210)

/-- The session `demoDrawn` after the initialisation of the packing frame and
`n` iterations of the attempt loop. -/
def demoRun (n : Nat) : Session := attempts_loop quarterTrig n (init_bounds demoDrawn)

/-- A drawn session whose container, the square (0,900)-(30,930), lies below
the area covered by the grid; position step 3, rotation step 90 degrees. -/
def belowDrawn : Session :=
  drawnInner (drawnContainer 3 90 (0, 900) (30, 900) (30, 930) (0, 930))
    (200, 200) (210, 200) (210, 210) (200, 210)

/-- The session `belowDrawn` after the initialisation of the packing frame and
`n` iterations of the attempt loop. -/
def belowRun (n : Nat) : Session := attempts_loop quarterTrig n (init_bounds belowDrawn)

/-- A square of side 1/10 on a lattice of spacing 1/5 with 199 squares per
row: the placement number `i` of a run with position step 1/5. -/
def tinyShape (i : Nat) : Polygon :=
  let cx : ℚ := ((i % 199 + 1 : Nat) : ℚ) / 5
  let cy : ℚ := ((i / 199 + 1 : Nat) : ℚ) / 5
  [(cx - 1 / 20, cy + 1 / 20), (cx + 1 / 20, cy + 1 / 20), (cx + 1 / 20, cy - 1 / 20),
    (cx - 1 / 20, cy - 1 / 20)]

/-- The squares `tinyShape 0`, ..., `tinyShape 19999`. -/
def fullShapes : List Polygon := (List.range MAX_PACKABLE_SHAPES).map tinyShape

/-- A packing session with exactly `MAX_PACKABLE_SHAPES` placements: the
container is (0,0)-(39.9,200), the placements are the squares `tinyShape i`,
which all lie in grid cell (0,0), and the cursor is at (20,100). -/
def fullSession : Session :=
  { initialSession with
    currentState := State.STATE_PACKING
    containerPoly := [(0, 200), (399 / 10, 200), (399 / 10, 0), (0, 0)]
    innerPoly := [(-1 / 20, 1 / 20), (1 / 20, 1 / 20), (1 / 20, -1 / 20), (-1 / 20, -1 / 20)]
    packedShapes := fullShapes
    containerBounds := ⟨0, 0, 399 / 10, 200⟩
    packingCursor := (20, 100)
    posStep := 1 / 5
    rotationStep := 90
    containerArea := 7980
    spatialGrid := fun y x => if y = 0 ∧ x = 0 then List.range MAX_PACKABLE_SHAPES else [] }

/-- A square that lies wholly below the area covered by the grid. -/
def belowShape : Polygon := [(100, 900), (110, 900), (110, 910), (100, 910)]

/-- A frame in which the key A is pressed. -/
def pressA : Input :=
  { mousePos := (0, 0), mouseScreen := (0, 0), leftPressed := false, leftDown := false,
    leftReleased := false, keyZ := false, keySpace := false, keyA := true, keyR := false }

/-- The re-centering of `handle_drawing` (main.c 420-425): every vertex minus
the bounding-box center of the polygon. -/
def recenter (poly : Polygon) : Polygon :=
  poly.map (fun v => Vector2Subtract v (get_poly_center poly))

/-- The unit shape of a session that is packing or done is a finished polygon:
the winding-normalized and re-centered form of a polygon with at least 3
vertices. -/
def UnitInv (s : Session) : Prop :=
  (s.currentState = State.STATE_PACKING ∨ s.currentState = State.STATE_DONE) →
    ∃ p : Polygon, 3 ≤ p.length ∧ s.innerPoly = recenter (ensure_winding p)

/-- The shape indices that the loop over the entries of one cell reads
(`shapeInd = cell->shapeInds[i]`), in order, up to the `return 1`. -/
def scanIndsReads (shape : Polygon) (candidateBox : Rectangle) (packedShapes : List Polygon) :
    List Nat → (Nat → Bool) → List Nat
  | [], _ => []
  | shapeInd :: rest, checked =>
    shapeInd ::
      (if checked shapeInd then scanIndsReads shape candidateBox packedShapes rest checked
      else
        if CheckCollisionRecs candidateBox (get_poly_bounds (packedShapes.getD shapeInd [])) &&
            check_poly_collisions shape (packedShapes.getD shapeInd []) then []
        else scanIndsReads shape candidateBox packedShapes rest (markChecked checked shapeInd))

/-- The shape indices read by the loops over the cells, in order. -/
def scanCellsReads (grid : Grid) (shape : Polygon) (candidateBox : Rectangle)
    (packedShapes : List Polygon) : List (Int × Int) → (Nat → Bool) → List Nat
  | [], _ => []
  | c :: rest, checked =>
    let r := scanInds shape candidateBox packedShapes (grid c.1 c.2) checked
    scanIndsReads shape candidateBox packedShapes (grid c.1 c.2) checked ++
      (if r.1 then [] else scanCellsReads grid shape candidateBox packedShapes rest r.2)

/-- The shape indices that one call of `does_shape_overlap_packed` reads from
the grid cells; each of them indexes `checkedInds` and `packedShapes`. -/
def queryReads (grid : Grid) (checkedInds : Nat → Bool) (shape : Polygon)
    (packedShapes : List Polygon) (packedCount : Nat) : List Nat :=
  if packedCount = 0 then []
  else if packedCount > MAX_PACKABLE_SHAPES then []
  else
    scanCellsReads grid shape (get_poly_bounds shape) packedShapes
      (cellRange (get_poly_bounds shape)) (clearChecked checkedInds packedCount)

/-- The grid after `grid_add_shape(i, placed[i])` for `i = 0, 1, ...` in turn,
starting from the empty grid. -/
def insertAll (packedShapes : List Polygon) : Grid :=
  (List.range packedShapes.length).foldl
    (fun g i => grid_add_shape g i (packedShapes.getD i [])) grid_init

/-- The bounding box lies within the area covered by the grid,
`[0, GRID_COLS*40) x [0, GRID_ROWS*40)`. -/
def withinGrid (b : Rectangle) : Prop :=
  (0 ≤ b.x ∧ b.x + b.width < (GRID_COLS : ℚ) * (GRID_CELL_SIZE : ℚ)) ∧
    (0 ≤ b.y ∧ b.y + b.height < (GRID_ROWS : ℚ) * (GRID_CELL_SIZE : ℚ))

instance (b : Rectangle) : Decidable (withinGrid b) := by
  unfold withinGrid
  infer_instance

/-- A drawn session whose container is the zero-width polygon with the
vertices (5,0), (5,200), (5,400), (5,700), with the initial steps 3 and 5. -/
def zeroDrawn : Session :=
  drawnInner (drawnContainer 3 5 (5, 0) (5, 200) (5, 400) (5, 700))
    (200, 200) (210, 200) (210, 210) (200, 210)

/-- The drawn reference scenario: the container is the square (0,0)-(100,100),
the unit shape a square of side 10, the position step 10 and the rotation step
90 degrees. -/
def scenDrawn : Session :=
  drawnInner (drawnContainer 10 90 (0, 0) (100, 0) (100, 100) (0, 100))
    (200, 200) (210, 200) (210, 210) (200, 210)

/-- The reference scenario after the initialisation of the packing frame and
`n` iterations of the attempt loop. -/
def scenRun (n : Nat) : Session := attempts_loop quarterTrig n (init_bounds scenDrawn)

/-- The square of side 10 centered at `(10 * (k % 9 + 1), 10 * (k / 9 + 1))`,
in the vertex order of the placements. -/
def scenSquare (k : Nat) : Polygon :=
  let cx : ℚ := 10 * ((k % 9 + 1 : Nat) : ℚ)
  let cy : ℚ := 10 * ((k / 9 + 1 : Nat) : ℚ)
  [(cx - 5, cy + 5), (cx + 5, cy + 5), (cx + 5, cy - 5), (cx - 5, cy - 5)]

/-- The number of placements of the reference scenario after `n` attempts
(`n <= 100`): none in the first row of cursor positions, nine in each later
row. -/
def scenCount (n : Nat) : Nat := if n < 10 then 0 else 9 * (n / 10 - 1) + (n % 10 - 1)

/-- The session of the reference scenario with the first `k` squares placed
and the cursor at `c`, written out field by field. -/
def scenState (k : Nat) (c : Vector2) : Session :=
  { currentState := State.STATE_PACKING
    containerPoly := [(0, 100), (100, 100), (100, 0), (0, 0)]
    innerPoly := [(-5, 5), (5, 5), (5, -5), (-5, -5)]
    packedShapes := (List.range k).map scenSquare
    containerBounds := ⟨0, 0, 100, 100⟩
    packingCursor := c
    posStep := 10
    rotationStep := 90
    containerArea := 10000
    packedTotalArea := 0
    packingEfficiency := 0
    spatialGrid := insertAll ((List.range k).map scenSquare)
    checkedInds := fun _ => false
    draggedVert := none
    draggedPoly := none }

/-- The session of the reference scenario after `n` attempts (`n <= 100`), up
to the contents of `checkedInds`. -/
def scenCheckpoint (n : Nat) : Session :=
  scenState (scenCount n) (10 * ((n % 10 : Nat) : ℚ), 10 * ((n / 10 : Nat) : ℚ))

/-- Two sessions agree in every field except `spatialGrid` and `checkedInds`. -/
def coreEq (s t : Session) : Prop :=
  s.currentState = t.currentState ∧ s.containerPoly = t.containerPoly ∧
    s.innerPoly = t.innerPoly ∧ s.packedShapes = t.packedShapes ∧
    s.containerBounds = t.containerBounds ∧ s.packingCursor = t.packingCursor ∧
    s.posStep = t.posStep ∧ s.rotationStep = t.rotationStep ∧
    s.containerArea = t.containerArea ∧ s.packedTotalArea = t.packedTotalArea ∧
    s.packingEfficiency = t.packingEfficiency ∧ s.draggedVert = t.draggedVert ∧
    s.draggedPoly = t.draggedPoly

instance (s t : Session) : Decidable (coreEq s t) := by
  unfold coreEq
  infer_instance

/-- The grid is the one obtained by inserting the placed shapes in order. -/
def GridEq (s : Session) : Prop := s.spatialGrid = insertAll s.packedShapes

/-! ## Single-precision evaluation

The functions below evaluate the geometry of main.c as the program does, in
C `float` (IEEE-754 binary32): the result of every `+`, `-`, `*`, `/` is
rounded to the nearest binary32 value, ties to even, with gradual underflow.
Unary minus, comparisons, `MIN` and `MAX` are exact.  A value is carried as the
rational it denotes; the two zeros are not told apart (no result below depends
on the sign of a zero), and results of magnitude `2^128` and above, which C
rounds to an infinity, are outside the model (the coordinates of the program
are screen positions). -/

/-- `2^k` for an integer exponent `k`. -/
def pow2 (k : Int) : ℚ :=
  if 0 ≤ k then ((2 ^ k.toNat : Nat) : ℚ) else 1 / ((2 ^ (-k).toNat : Nat) : ℚ)

/-- The loop of `ilog2`, with `fuel` iterations at most. -/
def ilog2Loop : Nat → Nat → Nat
  | 0, _ => 0
  | fuel + 1, n => if n < 2 then 0 else ilog2Loop fuel (n / 2) + 1

/-- The position of the leading bit of `n`: `⌊log2 n⌋` for `n > 0`. -/
def ilog2 (n : Nat) : Nat := ilog2Loop n n

/-- The binary exponent that fixes the spacing of the binary32 values around
`a > 0`: `⌊log2 a⌋`, and `-126` in the subnormal range. -/
def f32Exponent (a : ℚ) : Int :=
  let e0 : Int := (ilog2 a.num.natAbs : Int) - (ilog2 a.den : Int)
  let e := if a < pow2 e0 then e0 - 1 else e0
  max e (-126)

/-- The integer nearest to `x`, the even one of the two when `x` lies half way. -/
def roundHalfEven (x : ℚ) : Int :=
  let fl := ⌊x⌋
  let fr := x - (fl : ℚ)
  if fr < 1 / 2 then fl
  else if 1 / 2 < fr then fl + 1
  else if fl % 2 = 0 then fl else fl + 1

/-- The binary32 value nearest to `q` (24 significant bits, round to nearest,
ties to even). -/
def f32 (q : ℚ) : ℚ :=
  if q = 0 then 0
  else
    let ulp := pow2 (f32Exponent |q| - 23)
    (roundHalfEven (q / ulp) : ℚ) * ulp

/-- `float` addition. -/
def fadd (a b : ℚ) : ℚ := f32 (a + b)

/-- `float` subtraction. -/
def fsub (a b : ℚ) : ℚ := f32 (a - b)

/-- `float` multiplication. -/
def fmul (a b : ℚ) : ℚ := f32 (a * b)

/-- `float` division `n / d` of two finite values, with the IEEE special
values for a zero divisor. -/
def fdiv32 (n d : ℚ) : FloatDiv :=
  if d = 0 then (if n = 0 then FloatDiv.nan else FloatDiv.inf (decide (n < 0)))
  else FloatDiv.fin (f32 (n / d))

/-- The denominator `-s2x * s1y + s1x * s2y` of `do_lines_intersect`, as the
program computes it. -/
def lineDet_f32 (a b c d : Vector2) : ℚ :=
  let s1x := fsub b.1 a.1; let s1y := fsub b.2 a.2
  let s2x := fsub d.1 c.1; let s2y := fsub d.2 c.2
  fadd (fmul (-s2x) s1y) (fmul s1x s2y)

/-- The coefficient `s` of `do_lines_intersect`, as the program computes it. -/
def coefS_f32 (a b c d : Vector2) : FloatDiv :=
  let s1x := fsub b.1 a.1; let s1y := fsub b.2 a.2
  fdiv32 (fadd (fmul (-s1y) (fsub a.1 c.1)) (fmul s1x (fsub a.2 c.2))) (lineDet_f32 a b c d)

/-- The coefficient `t` of `do_lines_intersect`, as the program computes it. -/
def coefT_f32 (a b c d : Vector2) : FloatDiv :=
  let s2x := fsub d.1 c.1; let s2y := fsub d.2 c.2
  fdiv32 (fsub (fmul s2x (fsub a.2 c.2)) (fmul s2y (fsub a.1 c.1))) (lineDet_f32 a b c d)

/-- `do_lines_intersect` (main.c 586-592) in single precision. -/
def do_lines_intersect_f32 (a b c d : Vector2) : Bool :=
  let s := coefS_f32 a b c d
  let t := coefT_f32 a b c d
  s.geZero && s.leOne && t.geZero && t.leOne

/-- `poly_area` (main.c 679-687) in single precision:
`area += a.x * b.y - b.x * a.y` for each edge, then `area * 0.5f`. -/
def poly_area_f32 (poly : Polygon) : ℚ :=
  fmul ((List.range poly.length).foldl
    (fun area i =>
      let a := vtx poly i
      let b := vtx poly ((i + 1) % poly.length)
      fadd area (fsub (fmul a.1 b.2) (fmul b.1 a.2)))
    0) (1 / 2)

/-- `ensure_winding` (main.c 689-699) with the area test in single precision. -/
def ensure_winding_f32 (poly : Polygon) : Polygon :=
  if poly_area_f32 poly < 0 then poly
  else (List.range (poly.length / 2)).foldl swapStep poly

/-- raymath `Vector2Subtract` in single precision. -/
def Vector2Subtract_f32 (a b : Vector2) : Vector2 := (fsub a.1 b.1, fsub a.2 b.2)

/-- raymath `Vector2DotProduct` in single precision. -/
def Vector2DotProduct_f32 (a b : Vector2) : ℚ := fadd (fmul a.1 b.1) (fmul a.2 b.2)

/-- The loop body of `project_poly` in single precision. -/
def projectStep_f32 (axis : Vector2) (mm : ℚ × ℚ) (v : Vector2) : ℚ × ℚ :=
  let p := Vector2DotProduct_f32 v axis
  if p < mm.1 then (p, mm.2) else if p > mm.2 then (mm.1, p) else mm

/-- `project_poly` (main.c 639-651) in single precision: returns `(min, max)`. -/
def project_poly_f32 (axis : Vector2) (vertices : List Vector2) : ℚ × ℚ :=
  let m0 := Vector2DotProduct_f32 (vtx vertices 0) axis
  (vertices.drop 1).foldl (projectStep_f32 axis) (m0, m0)

/-- The axis of edge `i` of `p` in single precision. -/
def edgeAxis_f32 (p : Polygon) (i : Nat) : Vector2 :=
  let edge := Vector2Subtract_f32 (vtx p ((i + 1) % p.length)) (vtx p i)
  (-edge.2, edge.1)

/-- The test `max1 < min2 || max2 < min1` on the projections computed in
single precision. -/
def axisSeparates_f32 (axis : Vector2) (p1 p2 : Polygon) : Bool :=
  let m1 := project_poly_f32 axis p1
  let m2 := project_poly_f32 axis p2
  decide (m1.2 < m2.1) || decide (m2.2 < m1.1)

/-- `check_poly_collisions` (main.c 614-637) in single precision. -/
def check_poly_collisions_f32 (p1 p2 : Polygon) : Bool :=
  (List.range p1.length).all (fun i => !axisSeparates_f32 (edgeAxis_f32 p1 i) p1 p2) &&
  (List.range p2.length).all (fun i => !axisSeparates_f32 (edgeAxis_f32 p2 i) p1 p2)

/-- `get_poly_bounds` (main.c 653-667) in single precision: the corner is
exact, the width and the height are rounded differences. -/
def get_poly_bounds_f32 (poly : Polygon) : Rectangle :=
  if poly.length = 0 then ⟨0, 0, 0, 0⟩
  else
    let v0 := vtx poly 0
    let mm := (poly.drop 1).foldl
      (fun (mm : Vector2 × Vector2) v =>
        ((min mm.1.1 v.1, min mm.1.2 v.2), (max mm.2.1 v.1, max mm.2.2 v.2)))
      (v0, v0)
    ⟨mm.1.1, mm.1.2, fsub mm.2.1 mm.1.1, fsub mm.2.2 mm.1.2⟩

/-- `get_poly_center` (main.c 503-510) in single precision:
`bounds.x + bounds.width / 2.f`. -/
def get_poly_center_f32 (poly : Polygon) : Vector2 :=
  if poly.length = 0 then (0, 0)
  else
    let bounds := get_poly_bounds_f32 poly
    (fadd bounds.x (f32 (bounds.width / 2)), fadd bounds.y (f32 (bounds.height / 2)))

/-- The unit shape that `handle_drawing` stores when the drawn polygon `poly`
is finished (main.c 412-425), in single precision: `ensure_winding`, then the
center of the result subtracted from every vertex. -/
def stored_unit_shape_f32 (poly : Polygon) : Polygon :=
  let wound := ensure_winding_f32 poly
  wound.map (fun v => Vector2Subtract_f32 v (get_poly_center_f32 wound))

/-- The end of `handle_drawing` (main.c 412-427) in single precision: on SPACE
with at least 3 vertices the polygon is passed to `ensure_winding`, the
container area is `fabsf(poly_area(poly))`, and in `STATE_DRAW_INNER` the center
of the polygon is subtracted from every vertex. -/
def finish_shape_f32 (inp : Input) (r : PolyRef) (nextState : State) (s : Session) : Session :=
  if inp.keySpace && decide ((getPoly s r).length ≥ 3) then
    let s1 := setPoly s r (ensure_winding_f32 (getPoly s r))
    let s2 := match r with
      | PolyRef.container => { s1 with containerArea := |poly_area_f32 (getPoly s1 r)| }
      | PolyRef.inner => s1
    let s3 :=
      if s2.currentState = State.STATE_DRAW_INNER then
        let center := get_poly_center_f32 (getPoly s2 r)
        setPoly s2 r ((getPoly s2 r).map (fun v => Vector2Subtract_f32 v center))
      else s2
    { s3 with currentState := nextState }
  else s

/-- No rounding occurs in the separating-axis test of `p1` and `p2`: every
edge normal and every pair of projection bounds computed in single precision
is the exact one. -/
def SatExact (p1 p2 : Polygon) : Prop :=
  ∀ p ∈ [p1, p2], ∀ i, i < p.length →
    edgeAxis_f32 p i = edgeAxis p i ∧
      project_poly_f32 (edgeAxis p i) p1 = project_poly (edgeAxis p i) p1 ∧
      project_poly_f32 (edgeAxis p i) p2 = project_poly (edgeAxis p i) p2

instance (p1 p2 : Polygon) : Decidable (SatExact p1 p2) := by
  unfold SatExact
  infer_instance

/-- The two triangles of the separating-axis counterexample: the first vertex
of `touchB` is the midpoint of the first edge of `touchA`. -/
def touchA : Polygon := [(1705 / 4, 558), (2537 / 2, 2759 / 4), (218, 2)]

def touchB : Polygon := [(6779 / 8, 4991 / 8), (1887 / 2, 1959 / 2), (4, 2035 / 2)]

/-- A thin parallelogram of exact signed area `-3/1024`. -/
def thinQuad : Polygon :=
  [(7901 / 64, 2257 / 4), (1805 / 64, 1129 / 2), (7223 / 256, 1129 / 2), (31607 / 256, 2257 / 4)]

/-- A thin triangle of exact signed area `-3/64`. -/
def thinTriangle : Polygon := [(38849 / 32, 994), (35969 / 32, 727), (4845 / 4, 3943 / 4)]

/-- A drawn triangle whose leftmost vertex is `2^-15` right of the y axis. -/
def offTriangle : Polygon := [(1 / 32768, 0), (512, 0), (512, 512)]

/-- A thin triangle of exact signed area `-1/64` whose vertices lie more than
20 apart, left of the panel. -/
def thinDrawn : Polygon := [(3061 / 4, 7), (935 / 4, 2153 / 4), (733 / 2, 6489 / 16)]

/-- The session in `STATE_DRAW_INNER` after the container (0,0)-(900,700) is
finished and the vertices `pts` of the unit shape are clicked one by one. -/
def unitClicked (pts : List Vector2) : Session :=
  pts.foldl
    (fun s p => handle_drawing (clickAt p) PolyRef.inner State.STATE_PACKING s)
    (drawnContainer 3 5 (0, 0) (900, 0) (900, 700) (0, 700))

/-- The finite value of `s` when the determinant is not zero. -/
def sValue (a b c d : Vector2) : ℚ :=
  (-(b.2 - a.2) * (a.1 - c.1) + (b.1 - a.1) * (a.2 - c.2)) / lineDet a b c d

/-- The finite value of `t` when the determinant is not zero. -/
def tValue (a b c d : Vector2) : ℚ :=
  ((d.1 - c.1) * (a.2 - c.2) - (d.2 - c.2) * (a.1 - c.1)) / lineDet a b c d

/-- The shoelace term of the edge starting at vertex `i`. -/
def shoelaceTerm (poly : Polygon) (i : Nat) : ℚ :=
  (vtx poly i).1 * (vtx poly ((i + 1) % poly.length)).2 -
    (vtx poly ((i + 1) % poly.length)).1 * (vtx poly i).2

/-! # Theorems -/


/-! ## Segment intersection -/

theorem fdiv_zero_geZero_leOne (n : ℚ) :
    ((fdiv n 0).geZero && (fdiv n 0).leOne) = false := by
  unfold fdiv
  by_cases hn : n = 0
  · simp [hn, FloatDiv.geZero, FloatDiv.leOne]
  · by_cases hneg : n < 0 <;> simp [hn, hneg, FloatDiv.geZero, FloatDiv.leOne]

/-- Exact arithmetic: when the determinant `-s2x*s1y + s1x*s2y` is zero
(parallel, collinear, overlapping or zero-length segments) both quotients are
infinite or NaN, every comparison with `[0,1]` fails, and the exact
`do_lines_intersect` is false. -/
theorem do_lines_intersect_parallel (a b c d : Vector2)
    (hdet : lineDet a b c d = 0) : do_lines_intersect a b c d = false := by
  have hden : -(d.1 - c.1) * (b.2 - a.2) + (b.1 - a.1) * (d.2 - c.2) = 0 := hdet
  have hs := fdiv_zero_geZero_leOne (-(b.2 - a.2) * (a.1 - c.1) + (b.1 - a.1) * (a.2 - c.2))
  simp only [do_lines_intersect, coefS, hden]
  rw [hs]
  simp

theorem do_lines_intersect_parallel_witness :
    lineDet (0, 0) (10, 0) (5, 0) (15, 0) = 0 ∧
      do_lines_intersect (0, 0) (10, 0) (5, 0) (15, 0) = false :=
  ⟨by norm_num [lineDet], do_lines_intersect_parallel (0, 0) (10, 0) (5, 0) (15, 0)
    (by norm_num [lineDet])⟩

theorem do_lines_intersect_eq_of_det_ne (a b c d : Vector2) (hdet : lineDet a b c d ≠ 0) :
    do_lines_intersect a b c d =
      (decide (0 ≤ sValue a b c d) && decide (sValue a b c d ≤ 1) &&
        decide (0 ≤ tValue a b c d) && decide (tValue a b c d ≤ 1)) := by
  have hden : -(d.1 - c.1) * (b.2 - a.2) + (b.1 - a.1) * (d.2 - c.2) ≠ 0 := hdet
  simp only [do_lines_intersect, coefS, coefT, fdiv, hden, if_false, FloatDiv.geZero,
    FloatDiv.leOne, sValue, tValue, lineDet]

theorem coefS_eq_of_det_ne (a b c d : Vector2) (hdet : lineDet a b c d ≠ 0) :
    coefS a b c d = FloatDiv.fin (sValue a b c d) := by
  have hden : -(d.1 - c.1) * (b.2 - a.2) + (b.1 - a.1) * (d.2 - c.2) ≠ 0 := hdet
  simp only [coefS, fdiv, hden, if_false, sValue, lineDet]

theorem coefT_eq_of_det_ne (a b c d : Vector2) (hdet : lineDet a b c d ≠ 0) :
    coefT a b c d = FloatDiv.fin (tValue a b c d) := by
  have hden : -(d.1 - c.1) * (b.2 - a.2) + (b.1 - a.1) * (d.2 - c.2) ≠ 0 := hdet
  simp only [coefT, fdiv, hden, if_false, tValue, lineDet]

theorem segments_meet_iff (a b c d : Vector2) (hdet : lineDet a b c d ≠ 0) :
    (∃ p, p ∈ segment ℚ a b ∧ p ∈ segment ℚ c d) ↔
      (0 ≤ sValue a b c d ∧ sValue a b c d ≤ 1) ∧
        (0 ≤ tValue a b c d ∧ tValue a b c d ≤ 1) := by
  obtain ⟨ax, ay⟩ := a
  obtain ⟨bx, by_⟩ := b
  obtain ⟨cx, cy⟩ := c
  obtain ⟨dx, dy⟩ := d
  simp only [lineDet] at hdet
  constructor
  · rintro ⟨p, hp1, hp2⟩
    rw [segment_eq_image] at hp1 hp2
    obtain ⟨t, ⟨ht0, ht1⟩, rfl⟩ := hp1
    obtain ⟨s, ⟨hs0, hs1⟩, hs⟩ := hp2
    simp only [Prod.smul_mk, Prod.mk_add_mk, smul_eq_mul, Prod.mk.injEq] at hs
    obtain ⟨hx, hy⟩ := hs
    have hsv : sValue (ax, ay) (bx, by_) (cx, cy) (dx, dy) = s := by
      simp only [sValue, lineDet]
      rw [div_eq_iff hdet]
      linear_combination (by_ - ay) * hx - (bx - ax) * hy
    have htv : tValue (ax, ay) (bx, by_) (cx, cy) (dx, dy) = t := by
      simp only [tValue, lineDet]
      rw [div_eq_iff hdet]
      linear_combination (dy - cy) * hx - (dx - cx) * hy
    rw [hsv, htv]
    exact ⟨⟨hs0, hs1⟩, ht0, ht1⟩
  · rintro ⟨⟨hs0, hs1⟩, ht0, ht1⟩
    set s := sValue (ax, ay) (bx, by_) (cx, cy) (dx, dy) with hs
    set t := tValue (ax, ay) (bx, by_) (cx, cy) (dx, dy) with ht
    refine ⟨(1 - t) • (ax, ay) + t • (bx, by_), ?_, ?_⟩
    · rw [segment_eq_image]
      exact ⟨t, ⟨ht0, ht1⟩, rfl⟩
    · rw [segment_eq_image]
      refine ⟨s, ⟨hs0, hs1⟩, ?_⟩
      have hsd : s * (-(dx - cx) * (by_ - ay) + (bx - ax) * (dy - cy)) =
          -(by_ - ay) * (ax - cx) + (bx - ax) * (ay - cy) := by
        rw [hs]; simp only [sValue, lineDet]; exact div_mul_cancel₀ _ hdet
      have htd : t * (-(dx - cx) * (by_ - ay) + (bx - ax) * (dy - cy)) =
          (dx - cx) * (ay - cy) - (dy - cy) * (ax - cx) := by
        rw [ht]; simp only [tValue, lineDet]; exact div_mul_cancel₀ _ hdet
      simp only [Prod.smul_mk, Prod.mk_add_mk, smul_eq_mul, Prod.mk.injEq]
      constructor
      · apply mul_right_cancel₀ hdet
        linear_combination (dx - cx) * hsd - (bx - ax) * htd
      · apply mul_right_cancel₀ hdet
        linear_combination (dy - cy) * hsd - (by_ - ay) * htd


/-- Exact arithmetic: with a non-zero determinant the coefficients `s` and `t`
are finite, the exact `do_lines_intersect` is true exactly when both lie in the
closed interval `[0,1]`, and that holds exactly when the closed segments `AB`
and `CD` share a point (segments touching at an endpoint included). -/
theorem do_lines_intersect_correct (a b c d : Vector2) (hdet : lineDet a b c d ≠ 0) :
    coefS a b c d = FloatDiv.fin (sValue a b c d) ∧
      coefT a b c d = FloatDiv.fin (tValue a b c d) ∧
      (do_lines_intersect a b c d = true ↔
        (0 ≤ sValue a b c d ∧ sValue a b c d ≤ 1) ∧
          (0 ≤ tValue a b c d ∧ tValue a b c d ≤ 1)) ∧
      (do_lines_intersect a b c d = true ↔
        ∃ p, p ∈ segment ℚ a b ∧ p ∈ segment ℚ c d) := by
  have hiff : do_lines_intersect a b c d = true ↔
      (0 ≤ sValue a b c d ∧ sValue a b c d ≤ 1) ∧
        (0 ≤ tValue a b c d ∧ tValue a b c d ≤ 1) := by
    rw [do_lines_intersect_eq_of_det_ne a b c d hdet]
    simp only [Bool.and_eq_true, decide_eq_true_eq, and_assoc]
  exact ⟨coefS_eq_of_det_ne a b c d hdet, coefT_eq_of_det_ne a b c d hdet, hiff,
    hiff.trans (segments_meet_iff a b c d hdet).symm⟩

theorem do_lines_intersect_correct_witness :
    lineDet (0, 0) (10, 0) (10, 0) (10, 10) ≠ 0 ∧
      do_lines_intersect (0, 0) (10, 0) (10, 0) (10, 10) = true ∧
      ∃ p : Vector2, p ∈ segment ℚ ((0, 0) : Vector2) (10, 0) ∧
        p ∈ segment ℚ ((10, 0) : Vector2) (10, 10) :=
  ⟨by norm_num [lineDet], by decide!,
    (do_lines_intersect_correct (0, 0) (10, 0) (10, 0) (10, 10)
      (by norm_num [lineDet])).2.2.2.mp (by decide!)⟩

/-! ## Winding -/

theorem foldl_add_eq_sum (f : Nat → ℚ) (n : Nat) :
    (List.range n).foldl (fun area i => area + f i) 0 = ∑ i in Finset.range n, f i := by
  induction n with
  | zero => simp
  | succ k ih => rw [List.range_succ, List.foldl_append, ih, Finset.sum_range_succ]; rfl

theorem poly_area_eq_sum (poly : Polygon) :
    poly_area poly = (∑ i in Finset.range poly.length, shoelaceTerm poly i) * (1 / 2) := by
  unfold poly_area
  rw [← foldl_add_eq_sum]
  rfl

theorem vtx_reverse (poly : Polygon) (i : Nat) (hi : i < poly.length) :
    vtx poly.reverse i = vtx poly (poly.length - 1 - i) := by
  unfold vtx
  rw [List.getD_eq_getElem _ _ (by simpa using hi), List.getD_eq_getElem _ _ (by omega)]
  rw [List.getElem_reverse]

theorem poly_area_reverse (poly : Polygon) : poly_area poly.reverse = -poly_area poly := by
  rw [poly_area_eq_sum, poly_area_eq_sum, List.length_reverse]
  rcases Nat.eq_zero_or_pos poly.length with h0 | hpos
  · simp [h0]
  obtain ⟨m, hm⟩ : ∃ m, poly.length = m + 1 := ⟨poly.length - 1, by omega⟩
  have hlast : shoelaceTerm poly.reverse m = -shoelaceTerm poly m := by
    unfold shoelaceTerm
    rw [List.length_reverse, hm, Nat.mod_self]
    rw [vtx_reverse poly m (by omega), vtx_reverse poly 0 (by omega), hm]
    simp only [Nat.add_sub_cancel, Nat.sub_self, Nat.sub_zero]
    ring
  have hmid : ∀ i ∈ Finset.range m,
      shoelaceTerm poly.reverse i = -shoelaceTerm poly (m - 1 - i) := by
    intro i hi
    have hi' : i < m := Finset.mem_range.mp hi
    unfold shoelaceTerm
    rw [List.length_reverse, hm, Nat.mod_eq_of_lt (by omega : i + 1 < m + 1),
      Nat.mod_eq_of_lt (by omega : m - 1 - i + 1 < m + 1)]
    rw [vtx_reverse poly i (by omega), vtx_reverse poly (i + 1) (by omega), hm]
    have e1 : m + 1 - 1 - i = m - 1 - i + 1 := by omega
    have e2 : m + 1 - 1 - (i + 1) = m - 1 - i := by omega
    rw [e1, e2]
    ring
  rw [hm, Finset.sum_range_succ, Finset.sum_range_succ, hlast, Finset.sum_congr rfl hmid,
    Finset.sum_neg_distrib, Finset.sum_range_reflect (fun j => shoelaceTerm poly j) m]
  ring

theorem swapStep_length (poly : Polygon) (i : Nat) : (swapStep poly i).length = poly.length := by
  simp [swapStep]

theorem swapLoop_length (poly : Polygon) (k : Nat) :
    ((List.range k).foldl swapStep poly).length = poly.length := by
  induction k with
  | zero => simp
  | succ k ih => rw [List.range_succ, List.foldl_append]; simp [swapStep_length, ih]

theorem swapLoop_getElem? (poly : Polygon) (k : Nat) (hk : k ≤ poly.length / 2) (j : Nat) :
    ((List.range k).foldl swapStep poly)[j]? =
      if j < k ∨ (poly.length - 1 - k < j ∧ j < poly.length) then poly[poly.length - 1 - j]?
      else poly[j]? := by
  induction k generalizing j with
  | zero =>
    have : ¬ (j < 0 ∨ (poly.length - 1 - 0 < j ∧ j < poly.length)) := by omega
    rw [if_neg this]
    rfl
  | succ k ih =>
    have hk' : k ≤ poly.length / 2 := by omega
    rw [List.range_succ, List.foldl_append]
    simp only [List.foldl_cons, List.foldl_nil]
    set q := (List.range k).foldl swapStep poly with hq
    have hlen : q.length = poly.length := swapLoop_length poly k
    have hkn : k < poly.length := by omega
    have hk2 : poly.length - 1 - k < poly.length := by omega
    have hvk : vtx q k = vtx poly k := by
      unfold vtx
      rw [List.getD_eq_getElem?_getD, List.getD_eq_getElem?_getD, ih hk' k]
      have : ¬ (k < k ∨ (poly.length - 1 - k < k ∧ k < poly.length)) := by omega
      rw [if_neg this]
    have hvk2 : vtx q (poly.length - 1 - k) = vtx poly (poly.length - 1 - k) := by
      unfold vtx
      rw [List.getD_eq_getElem?_getD, List.getD_eq_getElem?_getD, ih hk' (poly.length - 1 - k)]
      have : ¬ (poly.length - 1 - k < k ∨
          (poly.length - 1 - k < poly.length - 1 - k ∧ poly.length - 1 - k < poly.length)) := by
        omega
      rw [if_neg this]
    unfold swapStep
    simp only [hlen, hvk, hvk2]
    rw [List.getElem?_set]
    by_cases h1 : poly.length - 1 - k = j
    · subst h1
      have hc : poly.length - 1 - k < k + 1 ∨
          (poly.length - 1 - (k + 1) < poly.length - 1 - k ∧
            poly.length - 1 - k < poly.length) := Or.inr ⟨by omega, hk2⟩
      rw [if_pos rfl, if_pos hc]
      simp only [List.length_set, hlen, hk2, if_true]
      have e : poly.length - 1 - (poly.length - 1 - k) = k := by omega
      rw [e]
      unfold vtx
      rw [List.getD_eq_getElem _ _ hkn, List.getElem?_eq_getElem hkn]
    · rw [if_neg h1, List.getElem?_set]
      by_cases h2 : k = j
      · subst h2
        have hc : k < k + 1 ∨ (poly.length - 1 - (k + 1) < k ∧ k < poly.length) :=
          Or.inl (by omega)
        rw [if_pos rfl, if_pos hc]
        simp only [hlen, hkn, if_true]
        unfold vtx
        rw [List.getD_eq_getElem _ _ hk2, List.getElem?_eq_getElem hk2]
      · rw [if_neg h2, ih hk' j]
        by_cases hc : j < k ∨ (poly.length - 1 - k < j ∧ j < poly.length)
        · have hc' : j < k + 1 ∨ (poly.length - 1 - (k + 1) < j ∧ j < poly.length) := by omega
          rw [if_pos hc, if_pos hc']
        · have hc' : ¬ (j < k + 1 ∨ (poly.length - 1 - (k + 1) < j ∧ j < poly.length)) := by
            omega
          rw [if_neg hc, if_neg hc']

theorem swapLoop_eq_reverse (poly : Polygon) :
    (List.range (poly.length / 2)).foldl swapStep poly = poly.reverse := by
  apply List.ext_getElem?
  intro j
  rw [swapLoop_getElem? poly _ le_rfl j]
  by_cases hj : j < poly.length
  · rw [List.getElem?_reverse hj]
    by_cases hc : j < poly.length / 2 ∨ (poly.length - 1 - poly.length / 2 < j ∧ j < poly.length)
    · rw [if_pos hc]
    · rw [if_neg hc]
      have : poly.length - 1 - j = j := by omega
      rw [this]
  · have hc : ¬ (j < poly.length / 2 ∨
        (poly.length - 1 - poly.length / 2 < j ∧ j < poly.length)) := by omega
    rw [if_neg hc, List.getElem?_eq_none (by omega), List.getElem?_eq_none (by simp; omega)]

theorem ensure_winding_eq (poly : Polygon) :
    ensure_winding poly = if poly_area poly < 0 then poly else poly.reverse := by
  unfold ensure_winding
  rw [swapLoop_eq_reverse]


/-- Exact arithmetic: after `ensure_winding` the exact shoelace signed area is
`<= 0`; the polygon is left unchanged when its area is negative and is
otherwise reversed, which negates the exact signed area. -/
theorem ensure_winding_area_nonpos (poly : Polygon) :
    poly_area (ensure_winding poly) ≤ 0 ∧
      (poly_area poly < 0 → ensure_winding poly = poly) ∧
      (¬ poly_area poly < 0 → ensure_winding poly = poly.reverse ∧
        poly_area poly.reverse = -poly_area poly) := by
  rw [ensure_winding_eq]
  by_cases h : poly_area poly < 0
  · simp only [h, if_true, true_implies, not_true_eq_false, false_implies, and_true]
    exact le_of_lt h
  · simp only [h, if_false, false_implies, not_false_eq_true, true_implies, true_and,
      poly_area_reverse, and_true]
    linarith [not_lt.mp h]

/-- Exact arithmetic: for a polygon of non-zero exact signed area a second
`ensure_winding` changes nothing. -/
theorem ensure_winding_idempotent (poly : Polygon) (harea : poly_area poly ≠ 0) :
    ensure_winding (ensure_winding poly) = ensure_winding poly := by
  rw [ensure_winding_eq poly]
  by_cases h : poly_area poly < 0
  · rw [if_pos h, ensure_winding_eq, if_pos h]
  · rw [if_neg h, ensure_winding_eq, poly_area_reverse]
    have hpos : 0 < poly_area poly := lt_of_le_of_ne (not_lt.mp h) (Ne.symm harea)
    rw [if_pos (by linarith)]

theorem ensure_winding_idempotent_witness :
    poly_area [(0, 0), (10, 0), (10, 10), (0, 10)] ≠ 0 ∧
      ensure_winding (ensure_winding [(0, 0), (10, 0), (10, 10), (0, 10)]) =
        ensure_winding [(0, 0), (10, 0), (10, 10), (0, 10)] :=
  ⟨by decide!, ensure_winding_idempotent _ (by decide!)⟩

/-- A polygon of zero signed area is reversed by every call: the second
`ensure_winding` restores the original vertex order. -/
theorem ensure_winding_zero_area (poly : Polygon) (harea : poly_area poly = 0) :
    ensure_winding poly = poly.reverse ∧ ensure_winding (ensure_winding poly) = poly := by
  have h1 : ensure_winding poly = poly.reverse := by
    rw [ensure_winding_eq, if_neg (by rw [harea]; exact lt_irrefl 0)]
  refine ⟨h1, ?_⟩
  rw [h1, ensure_winding_eq, poly_area_reverse, harea,
    if_neg (by simp), List.reverse_reverse]

/-! ## Separating-axis test -/

theorem projectStep_spec (axis : Vector2) (mm : ℚ × ℚ) (v : Vector2) (h : mm.1 ≤ mm.2) :
    (projectStep axis mm v).1 ≤ mm.1 ∧ mm.2 ≤ (projectStep axis mm v).2 ∧
      (projectStep axis mm v).1 ≤ Vector2DotProduct v axis ∧
      Vector2DotProduct v axis ≤ (projectStep axis mm v).2 := by
  unfold projectStep
  by_cases h1 : Vector2DotProduct v axis < mm.1
  · simp only [h1, if_true]
    exact ⟨le_of_lt h1, le_rfl, le_rfl, le_trans (le_of_lt h1) h⟩
  · by_cases h2 : Vector2DotProduct v axis > mm.2
    · simp only [h1, h2, if_true, if_false]
      exact ⟨le_rfl, le_of_lt h2, not_lt.mp h1, le_rfl⟩
    · simp only [h1, h2, if_false]
      exact ⟨le_rfl, le_rfl, not_lt.mp h1, not_lt.mp h2⟩

theorem projectFold_spec (axis : Vector2) (l : List Vector2) (mm : ℚ × ℚ) (h : mm.1 ≤ mm.2) :
    (l.foldl (projectStep axis) mm).1 ≤ mm.1 ∧ mm.2 ≤ (l.foldl (projectStep axis) mm).2 ∧
      ∀ v ∈ l, (l.foldl (projectStep axis) mm).1 ≤ Vector2DotProduct v axis ∧
        Vector2DotProduct v axis ≤ (l.foldl (projectStep axis) mm).2 := by
  induction l generalizing mm with
  | nil => simp
  | cons w rest ih =>
    obtain ⟨s1, s2, s3, s4⟩ := projectStep_spec axis mm w h
    obtain ⟨r1, r2, r3⟩ := ih (projectStep axis mm w) (le_trans s3 s4)
    simp only [List.foldl_cons]
    refine ⟨le_trans r1 s1, le_trans s2 r2, ?_⟩
    intro v hv
    rcases List.mem_cons.mp hv with rfl | hv
    · exact ⟨le_trans r1 s3, le_trans s4 r2⟩
    · exact r3 v hv

theorem project_poly_spec (axis : Vector2) (vertices : List Vector2) (v : Vector2)
    (hv : v ∈ vertices) :
    (project_poly axis vertices).1 ≤ Vector2DotProduct v axis ∧
      Vector2DotProduct v axis ≤ (project_poly axis vertices).2 := by
  cases vertices with
  | nil => simp at hv
  | cons w rest =>
    unfold project_poly
    have hw : vtx (w :: rest) 0 = w := rfl
    simp only [hw, List.drop_one, List.tail_cons]
    obtain ⟨r1, r2, r3⟩ := projectFold_spec axis rest
      (Vector2DotProduct w axis, Vector2DotProduct w axis) le_rfl
    rcases List.mem_cons.mp hv with rfl | hv
    · exact ⟨r1, r2⟩
    · exact r3 v hv

theorem dot_isLinearMap (axis : Vector2) :
    IsLinearMap ℚ (fun v : Vector2 => Vector2DotProduct v axis) where
  map_add := by
    intro x y
    simp only [Vector2DotProduct, Prod.fst_add, Prod.snd_add]
    ring
  map_smul := by
    intro c x
    simp only [Vector2DotProduct, Prod.smul_fst, Prod.smul_snd, smul_eq_mul]
    ring

theorem hull_le_projection (axis : Vector2) (p : Polygon) (q : Vector2)
    (hq : q ∈ convexHull ℚ {v | v ∈ p}) :
    (project_poly axis p).1 ≤ Vector2DotProduct q axis ∧
      Vector2DotProduct q axis ≤ (project_poly axis p).2 := by
  constructor
  · have hsub : {v | v ∈ p} ⊆ {w | (project_poly axis p).1 ≤ Vector2DotProduct w axis} :=
      fun v hv => (project_poly_spec axis p v hv).1
    exact convexHull_min hsub (convex_halfSpace_ge (dot_isLinearMap axis) _) hq
  · have hsub : {v | v ∈ p} ⊆ {w | Vector2DotProduct w axis ≤ (project_poly axis p).2} :=
      fun v hv => (project_poly_spec axis p v hv).2
    exact convexHull_min hsub (convex_halfSpace_le (dot_isLinearMap axis) _) hq

theorem axisSeparates_disjoint (axis : Vector2) (p1 p2 : Polygon)
    (h : axisSeparates axis p1 p2 = true) :
    Disjoint (convexHull ℚ {v | v ∈ p1}) (convexHull ℚ {v | v ∈ p2}) := by
  rw [Set.disjoint_left]
  intro q hq1 hq2
  obtain ⟨a1, a2⟩ := hull_le_projection axis p1 q hq1
  obtain ⟨b1, b2⟩ := hull_le_projection axis p2 q hq2
  simp only [axisSeparates, Bool.or_eq_true, decide_eq_true_eq] at h
  rcases h with h | h
  · exact absurd (lt_of_le_of_lt (le_trans b1 a2) h) (lt_irrefl _)
  · exact absurd (lt_of_le_of_lt (le_trans a1 b2) h) (lt_irrefl _)

theorem check_poly_collisions_false_iff (p1 p2 : Polygon) :
    check_poly_collisions p1 p2 = false ↔
      (∃ i, i < p1.length ∧ axisSeparates (edgeAxis p1 i) p1 p2 = true) ∨
        (∃ i, i < p2.length ∧ axisSeparates (edgeAxis p2 i) p1 p2 = true) := by
  simp only [check_poly_collisions, Bool.and_eq_false_iff, List.all_eq_false, List.mem_range,
    Bool.not_eq_true, Bool.not_eq_false']

/-- Exact arithmetic: when the exact `check_poly_collisions` is false, some
edge normal strictly separates the exact projections and the convex hulls of
the two vertex sets, hence the polygons, share no point. -/
theorem check_poly_collisions_sound (p1 p2 : Polygon)
    (h : check_poly_collisions p1 p2 = false) :
    ((∃ i, i < p1.length ∧ axisSeparates (edgeAxis p1 i) p1 p2 = true) ∨
        (∃ i, i < p2.length ∧ axisSeparates (edgeAxis p2 i) p1 p2 = true)) ∧
      Disjoint (convexHull ℚ {v | v ∈ p1}) (convexHull ℚ {v | v ∈ p2}) := by
  have hsep := (check_poly_collisions_false_iff p1 p2).mp h
  refine ⟨hsep, ?_⟩
  rcases hsep with ⟨i, _, hi⟩ | ⟨i, _, hi⟩
  · exact axisSeparates_disjoint _ p1 p2 hi
  · exact axisSeparates_disjoint _ p1 p2 hi

theorem check_poly_collisions_sound_witness :
    check_poly_collisions [(0, 0), (10, 0), (10, 10), (0, 10)]
        [(11, 0), (21, 0), (21, 10), (11, 10)] = false ∧
      Disjoint (convexHull ℚ {v | v ∈ ([(0, 0), (10, 0), (10, 10), (0, 10)] : Polygon)})
        (convexHull ℚ {v | v ∈ ([(11, 0), (21, 0), (21, 10), (11, 10)] : Polygon)}) :=
  ⟨by decide!, (check_poly_collisions_sound _ _ (by decide!)).2⟩

/-! ## Spatial grid -/

theorem mem_intRange (lo hi v : Int) : v ∈ intRange lo hi ↔ lo ≤ v ∧ v ≤ hi := by
  unfold intRange
  rw [List.mem_map]
  constructor
  · rintro ⟨k, hk, rfl⟩
    have hk' := Int.lt_toNat.mp (List.mem_range.mp hk)
    omega
  · rintro ⟨h1, h2⟩
    have hv : ((v - lo).toNat : Int) = v - lo := Int.toNat_of_nonneg (by omega)
    refine ⟨(v - lo).toNat, List.mem_range.mpr (Int.lt_toNat.mpr ?_), ?_⟩
    · omega
    · omega

theorem mem_cellRange (b : Rectangle) (y x : Int) :
    (y, x) ∈ cellRange b ↔
      (cellLo b.y ≤ y ∧ y ≤ cellHi GRID_ROWS (b.y + b.height)) ∧
        (cellLo b.x ≤ x ∧ x ≤ cellHi GRID_COLS (b.x + b.width)) := by
  unfold cellRange
  simp only [List.mem_flatMap, List.mem_map, mem_intRange, Prod.mk.injEq]
  constructor
  · rintro ⟨y', hy, x', hx, rfl, rfl⟩
    exact ⟨hy, hx⟩
  · rintro ⟨hy, hx⟩
    exact ⟨y, hy, x, hx, rfl, rfl⟩

theorem cellRange_bounds (b : Rectangle) (y x : Int) (h : (y, x) ∈ cellRange b) :
    (0 ≤ y ∧ y < GRID_ROWS) ∧ (0 ≤ x ∧ x < GRID_COLS) := by
  rw [mem_cellRange] at h
  obtain ⟨⟨h1, h2⟩, h3, h4⟩ := h
  unfold cellLo at h1 h3
  unfold cellHi at h2 h4
  have a1 := le_max_left (0 : Int) ⌊b.y / (GRID_CELL_SIZE : ℚ)⌋
  have a2 := min_le_left (GRID_ROWS - 1) ⌊(b.y + b.height) / (GRID_CELL_SIZE : ℚ)⌋
  have a3 := le_max_left (0 : Int) ⌊b.x / (GRID_CELL_SIZE : ℚ)⌋
  have a4 := min_le_left (GRID_COLS - 1) ⌊(b.x + b.width) / (GRID_CELL_SIZE : ℚ)⌋
  omega

theorem mem_foldl_cellAppend (k : Nat) (cells : List (Int × Int)) (g : Grid) (y x : Int)
    (i : Nat) :
    i ∈ (cells.foldl (cellAppend k) g) y x ↔ i ∈ g y x ∨ (i = k ∧ (y, x) ∈ cells) := by
  induction cells generalizing g with
  | nil => simp
  | cons c rest ih =>
    rw [List.foldl_cons, ih]
    unfold cellAppend
    by_cases hc : y = c.1 ∧ x = c.2
    · have hyx : (y, x) = c := by rw [hc.1, hc.2]
      simp only [hc, and_self, if_true, List.mem_append, List.mem_singleton, List.mem_cons, hyx,
        true_or, and_true]
      rw [← hc.1, ← hc.2]
      tauto
    · have hyx : (y, x) ≠ c := by
        intro h
        apply hc
        rw [← h]
        exact ⟨rfl, rfl⟩
      simp only [hc, if_false, List.mem_cons, hyx, false_or]

theorem mem_grid_add_shape (g : Grid) (k : Nat) (poly : Polygon) (y x : Int) (i : Nat) :
    i ∈ (grid_add_shape g k poly) y x ↔
      i ∈ g y x ∨ (i = k ∧ (y, x) ∈ cellRange (get_poly_bounds poly)) :=
  mem_foldl_cellAppend k _ g y x i

theorem floor_cell_common (limit : Int) (hl : 0 < limit) (a b c d : ℚ) (hab : a ≤ b) (hcd : c ≤ d)
    (had : a ≤ d) (hcb : c ≤ b) (hb : 0 ≤ b) (hd : 0 ≤ d)
    (ha : a < (limit : ℚ) * (GRID_CELL_SIZE : ℚ)) (hc : c < (limit : ℚ) * (GRID_CELL_SIZE : ℚ)) :
    ∃ v : Int, (cellLo a ≤ v ∧ v ≤ cellHi limit b) ∧ (cellLo c ≤ v ∧ v ≤ cellHi limit d) := by
  have h40 : (0 : ℚ) < (GRID_CELL_SIZE : ℚ) := by norm_num [GRID_CELL_SIZE]
  have fab : ⌊a / (GRID_CELL_SIZE : ℚ)⌋ ≤ ⌊b / (GRID_CELL_SIZE : ℚ)⌋ :=
    Int.floor_le_floor (div_le_div_of_nonneg_right hab (le_of_lt h40))
  have fad : ⌊a / (GRID_CELL_SIZE : ℚ)⌋ ≤ ⌊d / (GRID_CELL_SIZE : ℚ)⌋ :=
    Int.floor_le_floor (div_le_div_of_nonneg_right had (le_of_lt h40))
  have fcb : ⌊c / (GRID_CELL_SIZE : ℚ)⌋ ≤ ⌊b / (GRID_CELL_SIZE : ℚ)⌋ :=
    Int.floor_le_floor (div_le_div_of_nonneg_right hcb (le_of_lt h40))
  have fcd : ⌊c / (GRID_CELL_SIZE : ℚ)⌋ ≤ ⌊d / (GRID_CELL_SIZE : ℚ)⌋ :=
    Int.floor_le_floor (div_le_div_of_nonneg_right hcd (le_of_lt h40))
  have fb : 0 ≤ ⌊b / (GRID_CELL_SIZE : ℚ)⌋ := Int.floor_nonneg.mpr (div_nonneg hb (le_of_lt h40))
  have fd : 0 ≤ ⌊d / (GRID_CELL_SIZE : ℚ)⌋ := Int.floor_nonneg.mpr (div_nonneg hd (le_of_lt h40))
  have fa : ⌊a / (GRID_CELL_SIZE : ℚ)⌋ < limit := by
    rw [Int.floor_lt]
    exact (div_lt_iff₀ h40).mpr ha
  have fc : ⌊c / (GRID_CELL_SIZE : ℚ)⌋ < limit := by
    rw [Int.floor_lt]
    exact (div_lt_iff₀ h40).mpr hc
  refine ⟨max 0 (max ⌊a / (GRID_CELL_SIZE : ℚ)⌋ ⌊c / (GRID_CELL_SIZE : ℚ)⌋), ?_⟩
  unfold cellLo cellHi
  simp only [max_le_iff, le_max_iff, le_min_iff, le_refl, true_or, true_and, and_true, or_true]
  omega

theorem boundsFold_le (l : List Vector2) (mm : Vector2 × Vector2)
    (h : mm.1.1 ≤ mm.2.1 ∧ mm.1.2 ≤ mm.2.2) :
    (l.foldl (fun (mm : Vector2 × Vector2) v =>
        ((min mm.1.1 v.1, min mm.1.2 v.2), (max mm.2.1 v.1, max mm.2.2 v.2))) mm).1.1 ≤
      (l.foldl (fun (mm : Vector2 × Vector2) v =>
        ((min mm.1.1 v.1, min mm.1.2 v.2), (max mm.2.1 v.1, max mm.2.2 v.2))) mm).2.1 ∧
    (l.foldl (fun (mm : Vector2 × Vector2) v =>
        ((min mm.1.1 v.1, min mm.1.2 v.2), (max mm.2.1 v.1, max mm.2.2 v.2))) mm).1.2 ≤
      (l.foldl (fun (mm : Vector2 × Vector2) v =>
        ((min mm.1.1 v.1, min mm.1.2 v.2), (max mm.2.1 v.1, max mm.2.2 v.2))) mm).2.2 := by
  induction l generalizing mm with
  | nil => exact h
  | cons v rest ih =>
    rw [List.foldl_cons]
    apply ih
    exact ⟨le_trans (min_le_left _ _) (le_trans h.1 (le_max_left _ _)),
      le_trans (min_le_left _ _) (le_trans h.2 (le_max_left _ _))⟩

theorem get_poly_bounds_nonneg (poly : Polygon) :
    0 ≤ (get_poly_bounds poly).width ∧ 0 ≤ (get_poly_bounds poly).height := by
  unfold get_poly_bounds
  by_cases h : poly.length = 0
  · simp [h]
  · simp only [h, if_false]
    have := boundsFold_le (poly.drop 1) (vtx poly 0, vtx poly 0) ⟨le_rfl, le_rfl⟩
    exact ⟨sub_nonneg.mpr this.1, sub_nonneg.mpr this.2⟩

theorem cellRange_common (b1 b2 : Rectangle) (hw1 : 0 ≤ b1.width ∧ 0 ≤ b1.height)
    (hw2 : 0 ≤ b2.width ∧ 0 ≤ b2.height) (hr1 : reachesGrid b1) (hr2 : reachesGrid b2)
    (hc : CheckCollisionRecs b1 b2 = true) :
    ∃ c, c ∈ cellRange b1 ∧ c ∈ cellRange b2 := by
  simp only [CheckCollisionRecs, Bool.and_eq_true, decide_eq_true_eq] at hc
  obtain ⟨⟨⟨c1, c2⟩, c3⟩, c4⟩ := hc
  obtain ⟨⟨r1, r2⟩, r3, r4⟩ := hr1
  obtain ⟨⟨q1, q2⟩, q3, q4⟩ := hr2
  obtain ⟨x, hx1, hx2⟩ := floor_cell_common GRID_COLS (by decide) b1.x (b1.x + b1.width) b2.x
    (b2.x + b2.width) (by linarith [hw1.1]) (by linarith [hw2.1]) (le_of_lt c1)
    (le_of_lt c2) r1 q1 r2 q2
  obtain ⟨y, hy1, hy2⟩ := floor_cell_common GRID_ROWS (by decide) b1.y (b1.y + b1.height) b2.y
    (b2.y + b2.height) (by linarith [hw1.2]) (by linarith [hw2.2]) (le_of_lt c3)
    (le_of_lt c4) r3 q3 r4 q4
  exact ⟨(y, x), (mem_cellRange b1 y x).mpr ⟨hy1, hx1⟩, (mem_cellRange b2 y x).mpr ⟨hy2, hx2⟩⟩

/-! ## The overlap query -/

theorem scanInds_cons (shape : Polygon) (candidateBox : Rectangle)
    (packedShapes : List Polygon) (k : Nat) (rest : List Nat) (checked : Nat → Bool) :
    scanInds shape candidateBox packedShapes (k :: rest) checked =
      if checked k = true then scanInds shape candidateBox packedShapes rest checked
      else if (CheckCollisionRecs candidateBox (get_poly_bounds (packedShapes.getD k [])) &&
          check_poly_collisions shape (packedShapes.getD k [])) = true
        then (true, markChecked checked k)
        else scanInds shape candidateBox packedShapes rest (markChecked checked k) := rfl

theorem scanCells_cons (grid : Grid) (shape : Polygon) (candidateBox : Rectangle)
    (packedShapes : List Polygon) (c : Int × Int) (rest : List (Int × Int))
    (checked : Nat → Bool) :
    scanCells grid shape candidateBox packedShapes (c :: rest) checked =
      if (scanInds shape candidateBox packedShapes (grid c.1 c.2) checked).1 = true
        then scanInds shape candidateBox packedShapes (grid c.1 c.2) checked
        else scanCells grid shape candidateBox packedShapes rest
          (scanInds shape candidateBox packedShapes (grid c.1 c.2) checked).2 := rfl

theorem scanInds_spec (shape : Polygon) (candidateBox : Rectangle) (packedShapes : List Polygon)
    (inds : List Nat) (checked : Nat → Bool)
    (h : (scanInds shape candidateBox packedShapes inds checked).1 = false) :
    (∀ i, checked i = true →
        (scanInds shape candidateBox packedShapes inds checked).2 i = true) ∧
      (∀ i ∈ inds, (scanInds shape candidateBox packedShapes inds checked).2 i = true) ∧
      (∀ i, (scanInds shape candidateBox packedShapes inds checked).2 i = true →
        checked i = true ∨
          (CheckCollisionRecs candidateBox (get_poly_bounds (packedShapes.getD i [])) &&
            check_poly_collisions shape (packedShapes.getD i [])) = false) := by
  induction inds generalizing checked with
  | nil =>
    exact ⟨fun _ hi => hi, fun _ hi => absurd hi (List.not_mem_nil _), fun _ hi => Or.inl hi⟩
  | cons k rest ih =>
    rw [scanInds_cons] at h ⊢
    by_cases hk : checked k = true
    · rw [if_pos hk] at h ⊢
      obtain ⟨m1, m2, m3⟩ := ih checked h
      refine ⟨m1, ?_, m3⟩
      intro i hi
      rcases List.mem_cons.mp hi with rfl | hi
      · exact m1 _ hk
      · exact m2 i hi
    · rw [if_neg hk] at h ⊢
      by_cases hb : (CheckCollisionRecs candidateBox (get_poly_bounds (packedShapes.getD k [])) &&
          check_poly_collisions shape (packedShapes.getD k [])) = true
      · rw [if_pos hb] at h
        exact Bool.noConfusion h
      · rw [if_neg hb] at h ⊢
        obtain ⟨m1, m2, m3⟩ := ih (markChecked checked k) h
        refine ⟨?_, ?_, ?_⟩
        · intro i hi
          apply m1
          unfold markChecked
          by_cases hik : i = k
          · rw [if_pos hik]
          · rw [if_neg hik]
            exact hi
        · intro i hi
          rcases List.mem_cons.mp hi with rfl | hi
          · apply m1
            unfold markChecked
            rw [if_pos rfl]
          · exact m2 i hi
        · intro i hi
          rcases m3 i hi with hm | hm
          · unfold markChecked at hm
            by_cases hik : i = k
            · subst hik
              right
              exact Bool.eq_false_iff.mpr hb
            · rw [if_neg hik] at hm
              exact Or.inl hm
          · exact Or.inr hm

theorem scanCells_spec (grid : Grid) (shape : Polygon) (candidateBox : Rectangle)
    (packedShapes : List Polygon) (cells : List (Int × Int)) (checked : Nat → Bool)
    (h : (scanCells grid shape candidateBox packedShapes cells checked).1 = false) :
    (∀ i, checked i = true →
        (scanCells grid shape candidateBox packedShapes cells checked).2 i = true) ∧
      (∀ c ∈ cells, ∀ i ∈ grid c.1 c.2,
        (scanCells grid shape candidateBox packedShapes cells checked).2 i = true) ∧
      (∀ i, (scanCells grid shape candidateBox packedShapes cells checked).2 i = true →
        checked i = true ∨
          (CheckCollisionRecs candidateBox (get_poly_bounds (packedShapes.getD i [])) &&
            check_poly_collisions shape (packedShapes.getD i [])) = false) := by
  induction cells generalizing checked with
  | nil =>
    exact ⟨fun _ hi => hi, fun _ hc => absurd hc (List.not_mem_nil _), fun _ hi => Or.inl hi⟩
  | cons c rest ih =>
    rw [scanCells_cons] at h ⊢
    by_cases hr : (scanInds shape candidateBox packedShapes (grid c.1 c.2) checked).1 = true
    · rw [if_pos hr] at h
      rw [hr] at h
      exact Bool.noConfusion h
    · rw [if_neg hr] at h ⊢
      obtain ⟨s1, s2, s3⟩ := scanInds_spec shape candidateBox packedShapes (grid c.1 c.2) checked
        (Bool.eq_false_iff.mpr hr)
      obtain ⟨m1, m2, m3⟩ := ih _ h
      refine ⟨fun i hi => m1 i (s1 i hi), ?_, ?_⟩
      · intro c' hc' i hi
        rcases List.mem_cons.mp hc' with rfl | hc'
        · exact m1 i (s2 i hi)
        · exact m2 c' hc' i hi
      · intro i hi
        rcases m3 i hi with hm | hm
        · exact s3 i hm
        · exact Or.inr hm

theorem does_shape_overlap_packed_false (grid : Grid) (checkedInds : Nat → Bool)
    (shape : Polygon) (packedShapes : List Polygon) (packedCount : Nat)
    (h : (does_shape_overlap_packed grid checkedInds shape packedShapes packedCount).1 = false)
    (i : Nat) (hi : i < packedCount) (c : Int × Int)
    (hc : c ∈ cellRange (get_poly_bounds shape)) (hmem : i ∈ grid c.1 c.2) :
    narrowPhase shape (packedShapes.getD i []) = false := by
  unfold does_shape_overlap_packed at h
  have h0 : packedCount ≠ 0 := by omega
  rw [if_neg h0] at h
  by_cases hmax : packedCount > MAX_PACKABLE_SHAPES
  · rw [if_pos hmax] at h
    exact Bool.noConfusion h
  · rw [if_neg hmax] at h
    obtain ⟨_, m2, m3⟩ := scanCells_spec grid shape (get_poly_bounds shape) packedShapes _ _ h
    rcases m3 i (m2 c hc i hmem) with hm | hm
    · unfold clearChecked at hm
      rw [if_pos hi] at hm
      exact Bool.noConfusion hm
    · exact hm

/-! ## Drawing -/

theorem editSession_self (s : Session) (r : PolyRef) :
    s = editSession s r (getPoly s r) s.draggedVert s.draggedPoly := by
  cases r <;> rfl

theorem editSession_edit (s : Session) (r : PolyRef) (p p' : Polygon) (dv dv' : Option Nat)
    (dp dp' : Option PolyRef) :
    editSession (editSession s r p dv dp) r p' dv' dp' = editSession s r p' dv' dp' := by
  cases r <;> rfl

theorem getPoly_editSession (s : Session) (r : PolyRef) (p : Polygon) (dv : Option Nat)
    (dp : Option PolyRef) : getPoly (editSession s r p dv dp) r = p := by
  cases r <;> rfl

theorem pick_vertex_edit (inp : Input) (r : PolyRef) (s : Session) :
    ∃ p dv dp, pick_vertex inp r s = editSession s r p dv dp := by
  unfold pick_vertex
  split
  · split
    · rename_i i _
      exact ⟨getPoly s r, some i, some r, by cases r <;> rfl⟩
    · exact ⟨_, _, _, editSession_self s r⟩
  · exact ⟨_, _, _, editSession_self s r⟩

theorem drag_vertex_edit (inp : Input) (r : PolyRef) (s : Session) :
    ∃ p dv dp, drag_vertex inp r s = editSession s r p dv dp := by
  unfold drag_vertex
  split
  · split
    · rename_i i _ _
      exact ⟨(getPoly s r).set i inp.mousePos, s.draggedVert, s.draggedPoly, by cases r <;> rfl⟩
    · exact ⟨_, _, _, editSession_self s r⟩
  · exact ⟨_, _, _, editSession_self s r⟩

theorem release_vertex_edit (inp : Input) (r : PolyRef) (s : Session) :
    ∃ p dv dp, release_vertex inp s = editSession s r p dv dp := by
  unfold release_vertex
  split
  · exact ⟨getPoly s r, none, none, by cases r <;> rfl⟩
  · exact ⟨_, _, _, editSession_self s r⟩

theorem add_vertex_edit (inp : Input) (r : PolyRef) (s : Session) :
    ∃ p dv dp, add_vertex inp r s = editSession s r p dv dp := by
  unfold add_vertex
  split
  · split
    · exact ⟨getPoly s r ++ [inp.mousePos], s.draggedVert, s.draggedPoly, by cases r <;> rfl⟩
    · exact ⟨_, _, _, editSession_self s r⟩
  · exact ⟨_, _, _, editSession_self s r⟩

theorem undo_vertex_edit (inp : Input) (r : PolyRef) (s : Session) :
    ∃ p dv dp, undo_vertex inp r s = editSession s r p dv dp := by
  unfold undo_vertex
  split
  · exact ⟨(getPoly s r).dropLast, s.draggedVert, s.draggedPoly, by cases r <;> rfl⟩
  · exact ⟨_, _, _, editSession_self s r⟩

theorem edits_edit (inp : Input) (r : PolyRef) (s : Session) :
    ∃ p dv dp, undo_vertex inp r (add_vertex inp r (release_vertex inp (drag_vertex inp r
      (pick_vertex inp r s)))) = editSession s r p dv dp := by
  obtain ⟨p1, dv1, dp1, h1⟩ := pick_vertex_edit inp r s
  rw [h1]
  obtain ⟨p2, dv2, dp2, h2⟩ := drag_vertex_edit inp r (editSession s r p1 dv1 dp1)
  rw [h2, editSession_edit]
  obtain ⟨p3, dv3, dp3, h3⟩ := release_vertex_edit inp r (editSession s r p2 dv2 dp2)
  rw [h3, editSession_edit]
  obtain ⟨p4, dv4, dp4, h4⟩ := add_vertex_edit inp r (editSession s r p3 dv3 dp3)
  rw [h4, editSession_edit]
  obtain ⟨p5, dv5, dp5, h5⟩ := undo_vertex_edit inp r (editSession s r p4 dv4 dp4)
  rw [h5, editSession_edit]
  exact ⟨p5, dv5, dp5, rfl⟩

theorem handle_drawing_container_spec (inp : Input) (s : Session)
    (hs : s.currentState = State.STATE_DRAW_CONTAINER) :
    (∃ p dv dp, handle_drawing inp PolyRef.container State.STATE_DRAW_INNER s =
        editSession s PolyRef.container p dv dp) ∨
      (∃ p dv dp, 3 ≤ p.length ∧
        handle_drawing inp PolyRef.container State.STATE_DRAW_INNER s =
        { editSession s PolyRef.container (ensure_winding p) dv dp with
          containerArea := |poly_area (ensure_winding p)|,
          currentState := State.STATE_DRAW_INNER }) := by
  unfold handle_drawing
  split
  · exact Or.inl ⟨_, _, _, editSession_self s _⟩
  · obtain ⟨p, dv, dp, h⟩ := edits_edit inp PolyRef.container s
    rw [h]
    unfold finish_shape
    split
    · rename_i hfin
      right
      have hlen : 3 ≤ p.length := by
        rw [getPoly_editSession, Bool.and_eq_true, decide_eq_true_eq] at hfin
        exact hfin.2
      refine ⟨p, dv, dp, hlen, ?_⟩
      have hst : ¬ (State.STATE_DRAW_CONTAINER = State.STATE_DRAW_INNER) := by decide
      simp only [editSession, setPoly, getPoly, hs, hst, if_false]
    · exact Or.inl ⟨p, dv, dp, rfl⟩

theorem handle_drawing_inner_spec (inp : Input) (s : Session)
    (hs : s.currentState = State.STATE_DRAW_INNER) :
    (∃ p dv dp, handle_drawing inp PolyRef.inner State.STATE_PACKING s =
        editSession s PolyRef.inner p dv dp) ∨
      (∃ p dv dp, 3 ≤ p.length ∧
        handle_drawing inp PolyRef.inner State.STATE_PACKING s =
        { editSession s PolyRef.inner
            ((ensure_winding p).map
              (fun v => Vector2Subtract v (get_poly_center (ensure_winding p)))) dv dp with
          currentState := State.STATE_PACKING }) := by
  unfold handle_drawing
  split
  · exact Or.inl ⟨_, _, _, editSession_self s _⟩
  · obtain ⟨p, dv, dp, h⟩ := edits_edit inp PolyRef.inner s
    rw [h]
    unfold finish_shape
    split
    · rename_i hfin
      right
      have hlen : 3 ≤ p.length := by
        rw [getPoly_editSession, Bool.and_eq_true, decide_eq_true_eq] at hfin
        exact hfin.2
      refine ⟨p, dv, dp, hlen, ?_⟩
      simp only [editSession, setPoly, getPoly, hs, if_true]
    · exact Or.inl ⟨p, dv, dp, rfl⟩

/-! ## The packing loop -/

theorem angle_sweep_spec (trig : Trig) (fuel : Nat) (angle : ℚ) (s : Session) :
    (∃ ch, angle_sweep trig fuel angle s = { s with checkedInds := ch }) ∨
      (∃ ch a, is_shape_inside_container (candidateShape trig s a) s.containerPoly = true ∧
        (does_shape_overlap_packed s.spatialGrid ch (candidateShape trig s a) s.packedShapes
          s.packedShapes.length).1 = false ∧
        angle_sweep trig fuel angle s = acceptShape { s with checkedInds :=
          (does_shape_overlap_packed s.spatialGrid ch (candidateShape trig s a) s.packedShapes
            s.packedShapes.length).2 } (candidateShape trig s a)) := by
  induction fuel generalizing angle s with
  | zero => exact Or.inl ⟨s.checkedInds, rfl⟩
  | succ fuel ih =>
    unfold angle_sweep
    by_cases hang : angle < 360
    · rw [if_pos hang]
      by_cases hin : is_shape_inside_container (candidateShape trig s angle) s.containerPoly = true
      · simp only [hin, if_true]
        by_cases hov : (does_shape_overlap_packed s.spatialGrid s.checkedInds
            (candidateShape trig s angle) s.packedShapes s.packedShapes.length).1 = true
        · simp only [hov, Bool.not_true, Bool.false_eq_true, if_false]
          rcases ih (angle + s.rotationStep) { s with checkedInds :=
            (does_shape_overlap_packed s.spatialGrid s.checkedInds
              (candidateShape trig s angle) s.packedShapes s.packedShapes.length).2 } with
            ⟨ch, h⟩ | ⟨ch, a, h1, h2, h3⟩
          · exact Or.inl ⟨ch, h⟩
          · exact Or.inr ⟨ch, a, h1, h2, h3⟩
        · have hov' := Bool.eq_false_iff.mpr hov
          simp only [hov', Bool.not_false, if_true]
          exact Or.inr ⟨s.checkedInds, angle, hin, hov', rfl⟩
      · simp only [hin, if_false, Bool.false_eq_true]
        exact ih (angle + s.rotationStep) s
    · rw [if_neg hang]
      exact Or.inl ⟨s.checkedInds, rfl⟩

theorem getD_append_left (l : List Polygon) (c : Polygon) (i : Nat) (hi : i < l.length) :
    (l ++ [c]).getD i [] = l.getD i [] := by
  rw [List.getD_eq_getElem?_getD, List.getD_eq_getElem?_getD, List.getElem?_append_left hi]

theorem getD_append_length (l : List Polygon) (c : Polygon) :
    (l ++ [c]).getD l.length [] = c := by
  rw [List.getD_eq_getElem?_getD, List.getElem?_append_right (le_refl _)]
  simp

theorem GridInv_accept (g : Grid) (l : List Polygon) (c : Polygon) (h : GridInv g l) :
    GridInv (grid_add_shape g l.length c) (l ++ [c]) := by
  obtain ⟨h1, h2⟩ := h
  constructor
  · intro y x i hi
    rw [mem_grid_add_shape] at hi
    rw [List.length_append, List.length_singleton]
    rcases hi with hi | ⟨hi, _⟩
    · exact Nat.lt_succ_of_lt (h1 y x i hi)
    · omega
  · intro i hi cell hcell
    rw [List.length_append, List.length_singleton] at hi
    rw [mem_grid_add_shape]
    rcases Nat.lt_succ_iff_lt_or_eq.mp hi with hlt | heq
    · rw [getD_append_left l c i hlt] at hcell
      exact Or.inl (h2 i hlt cell hcell)
    · subst heq
      rw [getD_append_length] at hcell
      exact Or.inr ⟨rfl, hcell⟩

theorem NoOverlap_accept (g : Grid) (ch : Nat → Bool) (l : List Polygon) (c : Polygon)
    (hg : GridInv g l) (hn : NoOverlap l)
    (hq : (does_shape_overlap_packed g ch c l l.length).1 = false) :
    NoOverlap (l ++ [c]) := by
  intro i j hij hj hri hrj
  rw [List.length_append, List.length_singleton] at hj
  rcases Nat.lt_succ_iff_lt_or_eq.mp hj with hlt | heq
  · rw [getD_append_left l c i (by omega)] at hri ⊢
    rw [getD_append_left l c j hlt] at hrj ⊢
    exact hn i j hij hlt hri hrj
  · subst heq
    rw [getD_append_left l c i hij] at hri ⊢
    rw [getD_append_length] at hrj ⊢
    by_cases hb : CheckCollisionRecs (get_poly_bounds c) (get_poly_bounds (l.getD i [])) = true
    · obtain ⟨cell, hc1, hc2⟩ := cellRange_common _ _ (get_poly_bounds_nonneg c)
        (get_poly_bounds_nonneg (l.getD i [])) hrj hri hb
      exact does_shape_overlap_packed_false g ch c l l.length hq i hij cell hc1
        (hg.2 i hij cell hc2)
    · unfold narrowPhase
      rw [Bool.eq_false_iff.mpr hb, Bool.false_and]

theorem does_shape_overlap_packed_guard (g : Grid) (ch : Nat → Bool) (shape : Polygon)
    (l : List Polygon) (n : Nat) (hn : n > MAX_PACKABLE_SHAPES) :
    does_shape_overlap_packed g ch shape l n = (true, ch) := by
  unfold does_shape_overlap_packed
  have h0 : n ≠ 0 := by omega
  rw [if_neg h0, if_pos hn]

theorem count_accept (g : Grid) (ch : Nat → Bool) (l : List Polygon) (c : Polygon)
    (hq : (does_shape_overlap_packed g ch c l l.length).1 = false) :
    (l ++ [c]).length ≤ MAX_PACKABLE_SHAPES + 1 := by
  rw [List.length_append, List.length_singleton]
  by_contra hcon
  have hgt : l.length > MAX_PACKABLE_SHAPES := by omega
  rw [does_shape_overlap_packed_guard g ch c l l.length hgt] at hq
  exact Bool.noConfusion hq

theorem SessionInv_congr (s t : Session) (h : SessionInv s)
    (h1 : t.spatialGrid = s.spatialGrid) (h2 : t.packedShapes = s.packedShapes)
    (h3 : t.containerPoly = s.containerPoly) (h4 : t.innerPoly = s.innerPoly)
    (h5 : t.currentState = s.currentState) (h6 : t.packingEfficiency = s.packingEfficiency)
    (h7 : t.containerArea = s.containerArea) (h8 : t.posStep = s.posStep)
    (h9 : t.rotationStep = s.rotationStep) : SessionInv t := by
  obtain ⟨a1, a2, a3, a4, a5, a6, a7, a8, a9⟩ := h
  unfold efficiencyFormula at a8
  constructor
  · rw [h1, h2]; exact a1
  · rw [h2]; exact a2
  · rw [h2, h3]; exact a3
  · rw [h2]; exact a4
  · rw [h5, h2, h6]; exact a5
  · rw [h5, h7, h3]; exact a6
  · rw [h5, h6]; exact a7
  · unfold efficiencyFormula
    rw [h5, h6, h2, h3, h4]; exact a8
  · rw [h8, h9]; exact a9

theorem advance_cursor_eq (s : Session) :
    ∃ c, advance_cursor s = { s with packingCursor := c } := by
  unfold advance_cursor
  by_cases h : s.packingCursor.1 + s.posStep ≥ s.containerBounds.x + s.containerBounds.width
  · exact ⟨(s.containerBounds.x, s.packingCursor.2 + s.posStep), by simp only [h, if_true]⟩
  · exact ⟨(s.packingCursor.1 + s.posStep, s.packingCursor.2), by simp only [h, if_false]⟩

theorem SessionInv_accept (s : Session) (ch : Nat → Bool) (c : Polygon) (h : SessionInv s)
    (hs : s.currentState = State.STATE_PACKING)
    (hin : is_shape_inside_container c s.containerPoly = true)
    (hq : (does_shape_overlap_packed s.spatialGrid ch c s.packedShapes
      s.packedShapes.length).1 = false) :
    SessionInv (acceptShape { s with checkedInds :=
      (does_shape_overlap_packed s.spatialGrid ch c s.packedShapes
        s.packedShapes.length).2 } c) := by
  obtain ⟨a1, a2, a3, a4, a5, a6, a7, a8, a9⟩ := h
  constructor
  · exact GridInv_accept _ _ c a1
  · exact NoOverlap_accept _ ch _ c a1 a2 hq
  · intro p hp
    rcases List.mem_append.mp hp with hp | hp
    · exact a3 p hp
    · rw [List.mem_singleton.mp hp]
      exact hin
  · exact count_accept _ ch _ c hq
  · intro hd
    have hd' : s.currentState = State.STATE_DRAW_CONTAINER ∨
        s.currentState = State.STATE_DRAW_INNER := hd
    rw [hs] at hd'
    rcases hd' with hd' | hd' <;> exact absurd hd' (by decide)
  · exact a6
  · exact a7
  · intro hd
    have hd' : s.currentState = State.STATE_DONE := hd
    rw [hs] at hd'
    exact absurd hd' (by decide)
  · exact a9

theorem SessionInv_complete (s : Session) (h : SessionInv s)
    (hs : s.currentState = State.STATE_PACKING) : SessionInv (complete_packing s) := by
  obtain ⟨a1, a2, a3, a4, a5, a6, a7, a8, a9⟩ := h
  have harea : s.containerArea = |poly_area s.containerPoly| := a6 (by rw [hs]; decide)
  have heff : s.packingEfficiency = 0 := a7 hs
  constructor
  · exact a1
  · exact a2
  · exact a3
  · exact a4
  · intro hd
    have hd' : State.STATE_DONE = State.STATE_DRAW_CONTAINER ∨
        State.STATE_DONE = State.STATE_DRAW_INNER := hd
    rcases hd' with hd' | hd' <;> exact absurd hd' (by decide)
  · intro _
    exact harea
  · intro hd
    have hd' : State.STATE_DONE = State.STATE_PACKING := hd
    exact absurd hd' (by decide)
  · intro _
    show (if s.containerArea > 0 then
        (s.packedShapes.length : ℚ) * |poly_area s.innerPoly| / s.containerArea * 100
      else s.packingEfficiency) = efficiencyFormula (complete_packing s)
    unfold efficiencyFormula
    show _ = if |poly_area s.containerPoly| > 0 then
      (s.packedShapes.length : ℚ) * |poly_area s.innerPoly| / |poly_area s.containerPoly| * 100
      else 0
    rw [harea, heff]
  · exact a9

theorem SessionInv_attempt (trig : Trig) (s : Session) (h : SessionInv s)
    (hs : s.currentState = State.STATE_PACKING) : SessionInv (packing_attempt trig s) := by
  unfold packing_attempt
  split
  · exact SessionInv_complete s h hs
  · obtain ⟨c, hc⟩ := advance_cursor_eq (angle_sweep trig (sweepFuel s.rotationStep) 0 s)
    rw [hc]
    rcases angle_sweep_spec trig (sweepFuel s.rotationStep) 0 s with ⟨ch, hsw⟩ |
      ⟨ch, a, h1, h2, hsw⟩
    · rw [hsw]
      exact SessionInv_congr s _ h rfl rfl rfl rfl rfl rfl rfl rfl rfl
    · rw [hsw]
      exact SessionInv_congr _ _ (SessionInv_accept s ch _ h hs h1 h2)
        rfl rfl rfl rfl rfl rfl rfl rfl rfl

/-- A packing attempt leaves the list of placements unchanged or appends one
candidate of the angle sweep: a candidate that passed
`is_shape_inside_container` and for which `does_shape_overlap_packed` returned
false. -/
theorem packing_attempt_placement (trig : Trig) (s : Session) :
    (packing_attempt trig s).packedShapes = s.packedShapes ∨
      ∃ ch a, is_shape_inside_container (candidateShape trig s a) s.containerPoly = true ∧
        (does_shape_overlap_packed s.spatialGrid ch (candidateShape trig s a) s.packedShapes
          s.packedShapes.length).1 = false ∧
        (packing_attempt trig s).packedShapes = s.packedShapes ++ [candidateShape trig s a] := by
  unfold packing_attempt
  split
  · exact Or.inl rfl
  · obtain ⟨c, hc⟩ := advance_cursor_eq (angle_sweep trig (sweepFuel s.rotationStep) 0 s)
    rw [hc]
    rcases angle_sweep_spec trig (sweepFuel s.rotationStep) 0 s with ⟨ch, hsw⟩ |
      ⟨ch, a, h1, h2, hsw⟩
    · left
      rw [hsw]
    · right
      refine ⟨ch, a, h1, h2, ?_⟩
      rw [hsw]
      rfl

theorem GridInv_init : GridInv grid_init [] :=
  ⟨fun _ _ _ hi => absurd hi (List.not_mem_nil _), fun _ hi => absurd hi (Nat.not_lt_zero _)⟩

theorem NoOverlap_nil : NoOverlap [] :=
  fun _ _ _ hj => absurd hj (Nat.not_lt_zero _)

theorem SessionInv_init : SessionInv initialSession where
  grid := GridInv_init
  noOverlap := NoOverlap_nil
  inside := fun _ hp => absurd hp (List.not_mem_nil _)
  count := Nat.zero_le _
  drawing := fun _ => ⟨rfl, rfl⟩
  area := fun h => absurd rfl h
  packing := fun h => absurd h (by decide)
  finished := fun h => absurd h (by decide)
  stepsPos := ⟨by norm_num [initialSession], by norm_num [initialSession]⟩

/-- The invariant for a session in a drawing state with no placements. -/
theorem SessionInv_drawing (t : Session) (hg : GridInv t.spatialGrid t.packedShapes)
    (hp : t.packedShapes = []) (he : t.packingEfficiency = 0)
    (hst : t.currentState = State.STATE_DRAW_CONTAINER ∨
      (t.currentState = State.STATE_DRAW_INNER ∧ t.containerArea = |poly_area t.containerPoly|) ∨
      (t.currentState = State.STATE_PACKING ∧ t.containerArea = |poly_area t.containerPoly|))
    (hsteps : 0 < t.posStep ∧ 0 < t.rotationStep) : SessionInv t where
  grid := hg
  noOverlap := by rw [hp]; exact NoOverlap_nil
  inside := by rw [hp]; exact fun _ h => absurd h (List.not_mem_nil _)
  count := by rw [hp]; exact Nat.zero_le _
  drawing := fun _ => ⟨hp, he⟩
  area := by
    intro hne
    rcases hst with h | ⟨_, h⟩ | ⟨_, h⟩
    · exact absurd h hne
    · exact h
    · exact h
  packing := fun _ => he
  finished := by
    intro hd
    rcases hst with h | ⟨h, _⟩ | ⟨h, _⟩ <;> rw [hd] at h <;> exact absurd h (by decide)
  stepsPos := hsteps

theorem SessionInv_done_frame (inp : Input) (s : Session) (h : SessionInv s) :
    SessionInv (done_frame inp s) := by
  unfold done_frame
  split
  · exact SessionInv_drawing _ GridInv_init rfl rfl (Or.inl rfl) h.stepsPos
  · exact h

theorem SessionInv_drawContainer (inp : Input) (s : Session) (h : SessionInv s)
    (hs : s.currentState = State.STATE_DRAW_CONTAINER) :
    SessionInv (handle_drawing inp PolyRef.container State.STATE_DRAW_INNER s) := by
  obtain ⟨hp, he⟩ := h.drawing (Or.inl hs)
  rcases handle_drawing_container_spec inp s hs with ⟨p, dv, dp, heq⟩ | ⟨p, dv, dp, _, heq⟩
  · rw [heq]
    exact SessionInv_drawing _ h.grid hp he (Or.inl hs) h.stepsPos
  · rw [heq]
    exact SessionInv_drawing _ h.grid hp he (Or.inr (Or.inl ⟨rfl, rfl⟩)) h.stepsPos

theorem SessionInv_drawInner (inp : Input) (s : Session) (h : SessionInv s)
    (hs : s.currentState = State.STATE_DRAW_INNER) :
    SessionInv (handle_drawing inp PolyRef.inner State.STATE_PACKING s) := by
  obtain ⟨hp, he⟩ := h.drawing (Or.inr hs)
  have harea : s.containerArea = |poly_area s.containerPoly| := h.area (by rw [hs]; decide)
  rcases handle_drawing_inner_spec inp s hs with ⟨p, dv, dp, heq⟩ | ⟨p, dv, dp, _, heq⟩
  · rw [heq]
    exact SessionInv_drawing _ h.grid hp he (Or.inr (Or.inl ⟨hs, harea⟩)) h.stepsPos
  · rw [heq]
    exact SessionInv_drawing _ h.grid hp he (Or.inr (Or.inr ⟨rfl, harea⟩)) h.stepsPos

theorem init_bounds_eq (s : Session) :
    ∃ b c, init_bounds s = { s with containerBounds := b, packingCursor := c } := by
  unfold init_bounds
  split
  · exact ⟨_, _, rfl⟩
  · exact ⟨s.containerBounds, s.packingCursor, rfl⟩

/-- Every reachable session satisfies the session invariant. -/
theorem reachable_inv (trig : Trig) (s : Session) (h : Reachable trig s) : SessionInv s := by
  induction h with
  | init => exact SessionInv_init
  | steps s p r hp hr _ ih =>
    obtain ⟨a1, a2, a3, a4, a5, a6, a7, a8, _⟩ := ih
    exact ⟨a1, a2, a3, a4, a5, a6, a7, a8, hp, hr⟩
  | drawContainer s inp _ hs ih => exact SessionInv_drawContainer inp s ih hs
  | drawInner s inp _ hs ih => exact SessionInv_drawInner inp s ih hs
  | boundsInit s _ _ ih =>
    obtain ⟨b, c, heq⟩ := init_bounds_eq s
    rw [heq]
    exact SessionInv_congr s _ ih rfl rfl rfl rfl rfl rfl rfl rfl rfl
  | attempt s _ hs ih => exact SessionInv_attempt trig s ih hs
  | done s inp _ _ ih => exact SessionInv_done_frame inp s ih

theorem angle_sweep_succ (trig : Trig) (fuel : Nat) (angle : ℚ) (s : Session) :
    angle_sweep trig (fuel + 1) angle s =
      if angle < 360 then
        if is_shape_inside_container (candidateShape trig s angle) s.containerPoly = true then
          if (!(does_shape_overlap_packed s.spatialGrid s.checkedInds
              (candidateShape trig s angle) s.packedShapes s.packedShapes.length).1) = true then
            acceptShape { s with checkedInds :=
              (does_shape_overlap_packed s.spatialGrid s.checkedInds
                (candidateShape trig s angle) s.packedShapes s.packedShapes.length).2 }
              (candidateShape trig s angle)
          else angle_sweep trig fuel (angle + s.rotationStep) { s with checkedInds :=
            (does_shape_overlap_packed s.spatialGrid s.checkedInds
              (candidateShape trig s angle) s.packedShapes s.packedShapes.length).2 }
        else angle_sweep trig fuel (angle + s.rotationStep) s
      else s := rfl

theorem angle_sweep_done (trig : Trig) (fuel : Nat) (angle : ℚ) (s : Session)
    (h : 360 ≤ angle) : angle_sweep trig fuel angle s = s := by
  cases fuel with
  | zero => rfl
  | succ n => rw [angle_sweep_succ, if_neg (not_lt.mpr h)]

theorem angle_sweep_extra (trig : Trig) (fuel extra : Nat) (angle : ℚ) (s : Session)
    (hr : 0 < s.rotationStep) (h : 360 ≤ angle + (fuel : ℚ) * s.rotationStep) :
    angle_sweep trig (fuel + extra) angle s = angle_sweep trig fuel angle s := by
  induction fuel generalizing angle s with
  | zero =>
    have h360 : 360 ≤ angle := by simpa using h
    rw [angle_sweep_done trig _ angle s h360, angle_sweep_done trig _ angle s h360]
  | succ n ih =>
    have hnext : 360 ≤ angle + s.rotationStep + (n : ℚ) * s.rotationStep := by
      have : ((n + 1 : Nat) : ℚ) = (n : ℚ) + 1 := by push_cast; ring
      rw [this] at h
      linarith
    rw [Nat.add_right_comm, angle_sweep_succ, angle_sweep_succ]
    split
    · split
      · split
        · rfl
        · exact ih _ _ hr hnext
      · exact ih _ _ hr hnext
    · rfl

theorem sweepFuel_enough (r : ℚ) (hr : 0 < r) : 360 ≤ (0 : ℚ) + (sweepFuel r : ℚ) * r := by
  unfold sweepFuel
  have hpos : 0 ≤ ⌈360 / r⌉ := Int.ceil_nonneg (le_of_lt (div_pos (by norm_num) hr))
  have hcast : ((⌈360 / r⌉.toNat : ℕ) : ℚ) = ((⌈360 / r⌉ : ℤ) : ℚ) := by
    have := Int.toNat_of_nonneg hpos
    exact_mod_cast this
  rw [hcast, zero_add]
  have hle : 360 / r ≤ ((⌈360 / r⌉ : ℤ) : ℚ) := Int.le_ceil _
  calc (360 : ℚ) = 360 / r * r := by field_simp
    _ ≤ ((⌈360 / r⌉ : ℤ) : ℚ) * r := mul_le_mul_of_nonneg_right hle (le_of_lt hr)

/-- The fuel of the angle sweep is enough: with a positive rotation step the
sweep started at angle 0 stops because the angle reached 360 degrees (or a
candidate was accepted), so more fuel does not change its result. -/
theorem angle_sweep_total (trig : Trig) (s : Session) (hr : 0 < s.rotationStep)
    (extra : Nat) :
    angle_sweep trig (sweepFuel s.rotationStep + extra) 0 s =
      angle_sweep trig (sweepFuel s.rotationStep) 0 s :=
  angle_sweep_extra trig _ extra 0 s hr (sweepFuel_enough s.rotationStep hr)

theorem packing_attempt_state (trig : Trig) (s : Session) :
    (packing_attempt trig s).currentState = State.STATE_DONE ∨
      (packing_attempt trig s).currentState = s.currentState := by
  unfold packing_attempt
  split
  · exact Or.inl rfl
  · right
    obtain ⟨c, hc⟩ := advance_cursor_eq (angle_sweep trig (sweepFuel s.rotationStep) 0 s)
    rw [hc]
    rcases angle_sweep_spec trig (sweepFuel s.rotationStep) 0 s with ⟨ch, hsw⟩ |
      ⟨ch, a, _, _, hsw⟩
    · rw [hsw]
    · rw [hsw]
      rfl

theorem attempts_loop_reachable (trig : Trig) (n : Nat) (s : Session)
    (h : Reachable trig s) (hs : s.currentState = State.STATE_PACKING) :
    Reachable trig (attempts_loop trig n s) := by
  induction n generalizing s with
  | zero => exact h
  | succ n ih =>
    unfold attempts_loop
    have h1 : Reachable trig (packing_attempt trig s) := Reachable.attempt s h hs
    by_cases hd : (packing_attempt trig s).currentState = State.STATE_DONE
    · simp only [hd, if_true]
      exact h1
    · simp only [hd, if_false]
      rcases packing_attempt_state trig s with hst | hst
      · exact absurd hst hd
      · exact ih _ h1 (hst.trans hs)

theorem init_bounds_state (s : Session) : (init_bounds s).currentState = s.currentState := by
  obtain ⟨b, c, h⟩ := init_bounds_eq s
  rw [h]

theorem CLAMP_pos (x a b : ℚ) (ha : 0 < a) (hab : a ≤ b) : 0 < CLAMP x a b := by
  unfold CLAMP
  split
  · exact ha
  · split
    · exact lt_of_lt_of_le ha hab
    · rename_i h1 _
      exact lt_of_lt_of_le ha (not_lt.mp h1)

theorem gui_slider_pos (inp : Input) (bounds : Rectangle) (value a b : ℚ) (hv : 0 < value)
    (ha : 0 < a) (hab : a ≤ b) : 0 < gui_slider inp bounds value a b := by
  unfold gui_slider
  split
  · exact CLAMP_pos _ a b ha hab
  · exact hv

/-- One frame of `main` leads from a reachable session to a reachable session. -/
theorem frame_reachable (trig : Trig) (inp : Input) (s : Session) (h : Reachable trig s) :
    Reachable trig (frame trig inp s) := by
  have hsw : Reachable trig (state_switch trig inp s) := by
    unfold state_switch
    split
    · rename_i hs
      exact Reachable.drawContainer s inp h hs
    · rename_i hs
      exact Reachable.drawInner s inp h hs
    · rename_i hs
      exact attempts_loop_reachable trig _ _ (Reachable.boundsInit s h hs)
        ((init_bounds_state s).trans hs)
    · rename_i hs
      exact Reachable.done s inp h hs
  have hpos := (reachable_inv trig _ hsw).stepsPos
  exact Reachable.steps _ _ _
    (gui_slider_pos inp _ _ _ _ hpos.1 (by norm_num) (by norm_num))
    (gui_slider_pos inp _ _ _ _ hpos.2 (by norm_num) (by norm_num)) hsw

/-! ## Concrete sessions are reachable -/

theorem drawnContainer_reachable (trig : Trig) (p r : ℚ) (hp : 0 < p) (hr : 0 < r)
    (c0 c1 c2 c3 : Vector2)
    (h1 : (handle_drawing (clickAt c0) PolyRef.container State.STATE_DRAW_INNER
      { initialSession with posStep := p, rotationStep := r }).currentState =
        State.STATE_DRAW_CONTAINER)
    (h2 : (handle_drawing (clickAt c1) PolyRef.container State.STATE_DRAW_INNER
      (handle_drawing (clickAt c0) PolyRef.container State.STATE_DRAW_INNER
      { initialSession with posStep := p, rotationStep := r })).currentState =
        State.STATE_DRAW_CONTAINER)
    (h3 : (handle_drawing (clickAt c2) PolyRef.container State.STATE_DRAW_INNER
      (handle_drawing (clickAt c1) PolyRef.container State.STATE_DRAW_INNER
      (handle_drawing (clickAt c0) PolyRef.container State.STATE_DRAW_INNER
      { initialSession with posStep := p, rotationStep := r }))).currentState =
        State.STATE_DRAW_CONTAINER)
    (h4 : (handle_drawing (clickAt c3) PolyRef.container State.STATE_DRAW_INNER
      (handle_drawing (clickAt c2) PolyRef.container State.STATE_DRAW_INNER
      (handle_drawing (clickAt c1) PolyRef.container State.STATE_DRAW_INNER
      (handle_drawing (clickAt c0) PolyRef.container State.STATE_DRAW_INNER
      { initialSession with posStep := p, rotationStep := r })))).currentState =
        State.STATE_DRAW_CONTAINER) :
    Reachable trig (drawnContainer p r c0 c1 c2 c3) :=
  Reachable.drawContainer _ _ (Reachable.drawContainer _ _ (Reachable.drawContainer _ _
    (Reachable.drawContainer _ _ (Reachable.drawContainer _ _
      (Reachable.steps _ p r hp hr Reachable.init) rfl) h1) h2) h3) h4

theorem drawnInner_reachable (trig : Trig) (s : Session) (hs : Reachable trig s)
    (u0 u1 u2 u3 : Vector2) (h0 : s.currentState = State.STATE_DRAW_INNER)
    (h1 : (handle_drawing (clickAt u0) PolyRef.inner State.STATE_PACKING s).currentState =
        State.STATE_DRAW_INNER)
    (h2 : (handle_drawing (clickAt u1) PolyRef.inner State.STATE_PACKING
      (handle_drawing (clickAt u0) PolyRef.inner State.STATE_PACKING s)).currentState =
        State.STATE_DRAW_INNER)
    (h3 : (handle_drawing (clickAt u2) PolyRef.inner State.STATE_PACKING
      (handle_drawing (clickAt u1) PolyRef.inner State.STATE_PACKING
      (handle_drawing (clickAt u0) PolyRef.inner State.STATE_PACKING s))).currentState =
        State.STATE_DRAW_INNER)
    (h4 : (handle_drawing (clickAt u3) PolyRef.inner State.STATE_PACKING
      (handle_drawing (clickAt u2) PolyRef.inner State.STATE_PACKING
      (handle_drawing (clickAt u1) PolyRef.inner State.STATE_PACKING
      (handle_drawing (clickAt u0) PolyRef.inner State.STATE_PACKING s)))).currentState =
        State.STATE_DRAW_INNER) :
    Reachable trig (drawnInner s u0 u1 u2 u3) :=
  Reachable.drawInner _ _ (Reachable.drawInner _ _ (Reachable.drawInner _ _
    (Reachable.drawInner _ _ (Reachable.drawInner _ _ hs h0) h1) h2) h3) h4

set_option maxRecDepth 100000 in
theorem demoDrawn_reachable : Reachable quarterTrig demoDrawn :=
  drawnInner_reachable quarterTrig _
    (drawnContainer_reachable quarterTrig 10 90 (by norm_num) (by norm_num) _ _ _ _
      (by decide!) (by decide!) (by decide!) (by decide!))
    _ _ _ _ (by decide!) (by decide!) (by decide!) (by decide!) (by decide!)

set_option maxRecDepth 100000 in
theorem demoRun_reachable (n : Nat) : Reachable quarterTrig (demoRun n) :=
  attempts_loop_reachable quarterTrig n _
    (Reachable.boundsInit _ demoDrawn_reachable (by decide!))
    ((init_bounds_state demoDrawn).trans (by decide!))

set_option maxRecDepth 100000 in
theorem belowDrawn_reachable : Reachable quarterTrig belowDrawn :=
  drawnInner_reachable quarterTrig _
    (drawnContainer_reachable quarterTrig 3 90 (by norm_num) (by norm_num) _ _ _ _
      (by decide!) (by decide!) (by decide!) (by decide!))
    _ _ _ _ (by decide!) (by decide!) (by decide!) (by decide!) (by decide!)

set_option maxRecDepth 100000 in
theorem belowRun_reachable (n : Nat) : Reachable quarterTrig (belowRun n) :=
  attempts_loop_reachable quarterTrig n _
    (Reachable.boundsInit _ belowDrawn_reachable (by decide!))
    ((init_bounds_state belowDrawn).trans (by decide!))

/-! ## The packing invariants -/

theorem axisSeparates_comm (axis : Vector2) (p1 p2 : Polygon) :
    axisSeparates axis p1 p2 = axisSeparates axis p2 p1 := by
  unfold axisSeparates
  exact Bool.or_comm _ _

theorem check_poly_collisions_comm (p1 p2 : Polygon) :
    check_poly_collisions p1 p2 = check_poly_collisions p2 p1 := by
  unfold check_poly_collisions
  rw [Bool.and_comm]
  simp only [axisSeparates_comm _ p1 p2]

theorem CheckCollisionRecs_comm (r1 r2 : Rectangle) :
    CheckCollisionRecs r1 r2 = CheckCollisionRecs r2 r1 := by
  unfold CheckCollisionRecs
  rw [Bool.eq_iff_iff]
  simp only [Bool.and_eq_true, decide_eq_true_eq, gt_iff_lt]
  tauto

theorem narrowPhase_comm (p1 p2 : Polygon) : narrowPhase p1 p2 = narrowPhase p2 p1 := by
  unfold narrowPhase
  rw [CheckCollisionRecs_comm, check_poly_collisions_comm]

theorem narrowPhase_false_iff (p1 p2 : Polygon) :
    narrowPhase p1 p2 = false ↔
      CheckCollisionRecs (get_poly_bounds p1) (get_poly_bounds p2) = false ∨
        check_poly_collisions p1 p2 = false := by
  unfold narrowPhase
  exact Bool.and_eq_false_iff

/-- C1 (amended). No-overlap invariant of the packing loop: at every point of
a packing run, two distinct accepted placements whose bounding boxes reach into
the area covered by the grid either have bounding boxes that do not collide
(they are apart or only touch) or are separated by `check_poly_collisions`. -/
theorem no_overlap_within_grid (trig : Trig) (s : Session) (h : Reachable trig s)
    (i j : Nat) (hij : i ≠ j) (hi : i < s.packedShapes.length)
    (hj : j < s.packedShapes.length)
    (hri : reachesGrid (get_poly_bounds (s.packedShapes.getD i [])))
    (hrj : reachesGrid (get_poly_bounds (s.packedShapes.getD j []))) :
    CheckCollisionRecs (get_poly_bounds (s.packedShapes.getD i []))
        (get_poly_bounds (s.packedShapes.getD j [])) = false ∨
      check_poly_collisions (s.packedShapes.getD i []) (s.packedShapes.getD j []) = false := by
  rw [← narrowPhase_false_iff]
  have hn := (reachable_inv trig s h).noOverlap
  rcases Nat.lt_or_gt_of_ne hij with hlt | hgt
  · rw [narrowPhase_comm]
    exact hn i j hlt hj hri hrj
  · exact hn j i hgt hi hrj hri

set_option maxRecDepth 100000 in
theorem no_overlap_within_grid_witness :
    (demoRun 9).packedShapes.length = 4 ∧
      (CheckCollisionRecs (get_poly_bounds ((demoRun 9).packedShapes.getD 0 []))
          (get_poly_bounds ((demoRun 9).packedShapes.getD 3 [])) = false ∨
        check_poly_collisions ((demoRun 9).packedShapes.getD 0 [])
          ((demoRun 9).packedShapes.getD 3 []) = false) :=
  ⟨by decide!, no_overlap_within_grid quarterTrig (demoRun 9) (demoRun_reachable 9) 0 3
    (by decide) (by decide!) (by decide!) (by decide!) (by decide!)⟩

set_option maxRecDepth 100000 in
/-- C1 (counterexample). With the container (0,0)-(30,30), a unit square of
side 10, position step 10 and rotation step 90, the first two placements are
the squares (5,5)-(15,15) and (15,5)-(25,15): they share an edge, the strict
bounding-box test lets the second one through, and `check_poly_collisions`
reports overlap for the pair. -/
theorem no_overlap_counterexample :
    Reachable quarterTrig (demoRun 6) ∧
      (demoRun 6).packedShapes =
        [[(5, 15), (15, 15), (15, 5), (5, 5)], [(15, 15), (25, 15), (25, 5), (15, 5)]] ∧
      check_poly_collisions [(5, 15), (15, 15), (15, 5), (5, 5)]
        [(15, 15), (25, 15), (25, 5), (15, 5)] = true ∧
      check_poly_collisions [(15, 15), (25, 15), (25, 5), (15, 5)]
        [(5, 15), (15, 15), (15, 5), (5, 5)] = true :=
  ⟨demoRun_reachable 6, by decide!, by decide!, by decide!⟩

set_option maxRecDepth 100000 in
/-- Outside the area covered by the grid the query finds nothing: in the
container (0,900)-(30,930) the first two placements are the squares
(1,901)-(11,911) and (4,901)-(14,911), whose bounding boxes collide and which
`check_poly_collisions` reports as overlapping. -/
theorem overlap_outside_grid :
    Reachable quarterTrig (belowRun 24) ∧
      (belowRun 24).packedShapes =
        [[(1, 911), (11, 911), (11, 901), (1, 901)], [(4, 911), (14, 911), (14, 901), (4, 901)]] ∧
      narrowPhase [(1, 911), (11, 911), (11, 901), (1, 901)]
        [(4, 911), (14, 911), (14, 901), (4, 901)] = true :=
  ⟨belowRun_reachable 24, by decide!, by decide!⟩

theorem is_shape_inside_container_iff (shape container : Polygon) :
    is_shape_inside_container shape container = true ↔
      (∀ i, i < shape.length → CheckCollisionPointPoly (vtx shape i) container = true) ∧
        (∀ i, i < shape.length → ∀ j, j < container.length →
          do_lines_intersect (vtx shape i) (vtx shape ((i + 1) % shape.length))
            (vtx container j) (vtx container ((j + 1) % container.length)) = false) := by
  unfold is_shape_inside_container
  simp only [Bool.and_eq_true, List.all_eq_true, List.mem_range, Bool.not_eq_true']

/-- C2. Full-containment invariant: at every point of a packing run every
placed shape passes `is_shape_inside_container` against the container, that is
all its vertices pass the point-in-polygon test and none of its edges
intersects a container edge according to `do_lines_intersect`. -/
theorem placements_inside_container (trig : Trig) (s : Session) (h : Reachable trig s)
    (p : Polygon) (hp : p ∈ s.packedShapes) :
    is_shape_inside_container p s.containerPoly = true ∧
      (∀ i, i < p.length → CheckCollisionPointPoly (vtx p i) s.containerPoly = true) ∧
      (∀ i, i < p.length → ∀ j, j < s.containerPoly.length →
        do_lines_intersect (vtx p i) (vtx p ((i + 1) % p.length))
          (vtx s.containerPoly j)
          (vtx s.containerPoly ((j + 1) % s.containerPoly.length)) = false) := by
  have hin := (reachable_inv trig s h).inside p hp
  exact ⟨hin, (is_shape_inside_container_iff p s.containerPoly).mp hin⟩

set_option maxRecDepth 100000 in
theorem placements_inside_container_witness :
    [(15, 25), (25, 25), (25, 15), (15, 15)] ∈ (demoRun 9).packedShapes ∧
      is_shape_inside_container [(15, 25), (25, 25), (25, 15), (15, 15)]
        (demoRun 9).containerPoly = true :=
  ⟨by decide!, (placements_inside_container quarterTrig (demoRun 9) (demoRun_reachable 9)
    [(15, 25), (25, 25), (25, 15), (15, 15)] (by decide!)).1⟩

/-- C8. Efficiency formula: when the packing run has completed with `n`
placements the reported efficiency is `n * a / A * 100` for a container area
`A > 0` and `0` for `A = 0`, where `a` and `A` are the absolute shoelace areas
of the unit shape and of the container. -/
theorem efficiency_formula (trig : Trig) (s : Session) (h : Reachable trig s)
    (hd : s.currentState = State.STATE_DONE) :
    (0 < |poly_area s.containerPoly| →
        s.packingEfficiency =
          (s.packedShapes.length : ℚ) * |poly_area s.innerPoly| /
            |poly_area s.containerPoly| * 100) ∧
      (|poly_area s.containerPoly| = 0 → s.packingEfficiency = 0) := by
  have hf := (reachable_inv trig s h).finished hd
  unfold efficiencyFormula at hf
  constructor
  · intro hpos
    rw [hf, if_pos hpos]
  · intro hzero
    rw [hf, if_neg (by rw [hzero]; exact lt_irrefl 0)]

set_option maxRecDepth 100000 in
theorem efficiency_formula_witness :
    (demoRun 10).currentState = State.STATE_DONE ∧ (demoRun 10).packedShapes.length = 4 ∧
      (demoRun 10).packingEfficiency = 400 / 9 ∧
      (0 < |poly_area (demoRun 10).containerPoly| →
        (demoRun 10).packingEfficiency =
          ((demoRun 10).packedShapes.length : ℚ) * |poly_area (demoRun 10).innerPoly| /
            |poly_area (demoRun 10).containerPoly| * 100) :=
  ⟨by decide!, by decide!, by decide!,
    (efficiency_formula quarterTrig (demoRun 10) (demoRun_reachable 10) (by decide!)).1⟩

/-! ## Capacity guard -/

theorem angle_sweep_guard (trig : Trig) (fuel : Nat) (angle : ℚ) (s : Session)
    (hfull : s.packedShapes.length > MAX_PACKABLE_SHAPES) :
    (angle_sweep trig fuel angle s).packedShapes = s.packedShapes := by
  rcases angle_sweep_spec trig fuel angle s with ⟨ch, hsw⟩ | ⟨ch, a, _, h2, _⟩
  · rw [hsw]
  · rw [does_shape_overlap_packed_guard _ ch _ _ _ hfull] at h2
    exact Bool.noConfusion h2

theorem packing_attempt_guard (trig : Trig) (s : Session)
    (hfull : s.packedShapes.length > MAX_PACKABLE_SHAPES) :
    (packing_attempt trig s).packedShapes = s.packedShapes := by
  unfold packing_attempt
  split
  · rfl
  · obtain ⟨c, hc⟩ := advance_cursor_eq (angle_sweep trig (sweepFuel s.rotationStep) 0 s)
    rw [hc]
    exact angle_sweep_guard trig _ 0 s hfull

/-- C9 (amended). Capacity guard: once the number of placed shapes exceeds
`MAX_PACKABLE_SHAPES` (20000), every call of `does_shape_overlap_packed`
reports overlap whatever the grid and the shape are, a packing attempt accepts
no placement, and at every point of a run the number of placements is at most
`MAX_PACKABLE_SHAPES + 1`. -/
theorem capacity_guard (trig : Trig) (s : Session) (h : Reachable trig s) :
    (∀ (grid : Grid) (checkedInds : Nat → Bool) (shape : Polygon) (packedShapes : List Polygon)
        (packedCount : Nat), packedCount > MAX_PACKABLE_SHAPES →
        (does_shape_overlap_packed grid checkedInds shape packedShapes packedCount).1 = true) ∧
      (s.packedShapes.length > MAX_PACKABLE_SHAPES →
        (packing_attempt trig s).packedShapes = s.packedShapes) ∧
      s.packedShapes.length ≤ MAX_PACKABLE_SHAPES + 1 := by
  refine ⟨?_, packing_attempt_guard trig s, (reachable_inv trig s h).count⟩
  intro grid ch shape packed n hn
  rw [does_shape_overlap_packed_guard grid ch shape packed n hn]

set_option maxRecDepth 100000 in
theorem capacity_guard_witness :
    (demoRun 9).packedShapes.length = 4 ∧
      (demoRun 9).packedShapes.length ≤ MAX_PACKABLE_SHAPES + 1 :=
  ⟨by decide!, (capacity_guard quarterTrig (demoRun 9) (demoRun_reachable 9)).2.2⟩

theorem square_bounds (cx cy : ℚ) :
    get_poly_bounds [(cx - 1 / 20, cy + 1 / 20), (cx + 1 / 20, cy + 1 / 20),
      (cx + 1 / 20, cy - 1 / 20), (cx - 1 / 20, cy - 1 / 20)] =
      ⟨cx - 1 / 20, cy - 1 / 20, 1 / 10, 1 / 10⟩ := by
  have e1 : min (cx - 1 / 20) (cx + 1 / 20) = cx - 1 / 20 := min_eq_left (by linarith)
  have e2 : max (cx - 1 / 20) (cx + 1 / 20) = cx + 1 / 20 := max_eq_right (by linarith)
  have e3 : min (cy + 1 / 20) (cy - 1 / 20) = cy - 1 / 20 := min_eq_right (by linarith)
  have e4 : max (cy + 1 / 20) (cy - 1 / 20) = cy + 1 / 20 := max_eq_left (by linarith)
  have e5 : max (cx + 1 / 20) (cx - 1 / 20) = cx + 1 / 20 := max_eq_left (by linarith)
  simp only [get_poly_bounds, vtx, List.length_cons, List.length_nil, List.getD_cons_zero,
    List.drop_succ_cons, List.drop_zero, List.foldl_cons, List.foldl_nil, e1, e2, e3, e4, e5,
    min_self, max_self]
  norm_num

theorem tinyShape_cells (i : Nat) (hi : i < MAX_PACKABLE_SHAPES) (c : Int × Int)
    (hc : c ∈ cellRange (get_poly_bounds (tinyShape i))) : c = (0, 0) := by
  obtain ⟨y, x⟩ := c
  have hb := cellRange_bounds _ y x hc
  rw [mem_cellRange] at hc
  unfold tinyShape at hc
  simp only [square_bounds] at hc
  obtain ⟨⟨_, hy⟩, _, hx⟩ := hc
  have hmod : i % 199 + 1 ≤ 199 := by omega
  have hdiv : i / 199 + 1 ≤ 101 := by
    unfold MAX_PACKABLE_SHAPES at hi
    omega
  have hmodq : ((i % 199 : Nat) : ℚ) + 1 ≤ 199 := by exact_mod_cast hmod
  have hdivq : ((i / 199 : Nat) : ℚ) + 1 ≤ 101 := by exact_mod_cast hdiv
  have hx0 : ⌊(((i % 199 + 1 : Nat) : ℚ) / 5 - 1 / 20 + 1 / 10) / (GRID_CELL_SIZE : ℚ)⌋ ≤ 0 := by
    have : ⌊(((i % 199 + 1 : Nat) : ℚ) / 5 - 1 / 20 + 1 / 10) / (GRID_CELL_SIZE : ℚ)⌋ < 1 := by
      rw [Int.floor_lt]
      norm_num [GRID_CELL_SIZE]
      linarith
    omega
  have hy0 : ⌊(((i / 199 + 1 : Nat) : ℚ) / 5 - 1 / 20 + 1 / 10) / (GRID_CELL_SIZE : ℚ)⌋ ≤ 0 := by
    have : ⌊(((i / 199 + 1 : Nat) : ℚ) / 5 - 1 / 20 + 1 / 10) / (GRID_CELL_SIZE : ℚ)⌋ < 1 := by
      rw [Int.floor_lt]
      norm_num [GRID_CELL_SIZE]
      linarith
    omega
  have hx1 := le_trans hx (min_le_right _ _)
  have hy1 := le_trans hy (min_le_right _ _)
  have hxe : x = 0 := by omega
  have hye : y = 0 := by omega
  rw [hxe, hye]

/-- The session `fullSession` satisfies the bookkeeping invariant of the grid. -/
theorem fullSession_gridInv : GridInv fullSession.spatialGrid fullSession.packedShapes := by
  have hshapes : fullSession.packedShapes = fullShapes := by
    simp only [fullSession]
  have hgrid : fullSession.spatialGrid =
      fun y x => if y = 0 ∧ x = 0 then List.range MAX_PACKABLE_SHAPES else [] := by
    simp only [fullSession]
  rw [hshapes, hgrid]
  have hlen : fullShapes.length = MAX_PACKABLE_SHAPES := by
    unfold fullShapes
    rw [List.length_map, List.length_range]
  constructor
  · intro y x i hi
    rw [hlen]
    by_cases hyx : y = 0 ∧ x = 0
    · simp only [hyx, and_self, if_true] at hi
      exact List.mem_range.mp hi
    · simp only [hyx, if_false] at hi
      exact absurd hi (List.not_mem_nil _)
  · intro i hi c hc
    rw [hlen] at hi
    have hget : fullShapes.getD i [] = tinyShape i := by
      unfold fullShapes
      rw [List.getD_eq_getElem _ _ (by rw [List.length_map, List.length_range]; exact hi),
        List.getElem_map, List.getElem_range]
    rw [hget] at hc
    rw [tinyShape_cells i hi c hc]
    simp only [and_self, if_true]
    exact List.mem_range.mpr hi

theorem fullSession_length : fullSession.packedShapes.length = MAX_PACKABLE_SHAPES := by
  have hshapes : fullSession.packedShapes = fullShapes := by
    simp only [fullSession]
  rw [hshapes]
  unfold fullShapes
  rw [List.length_map, List.length_range]

set_option maxRecDepth 100000 in
theorem fullSession_query :
    (does_shape_overlap_packed fullSession.spatialGrid fullSession.checkedInds
      (candidateShape quarterTrig fullSession 0) fullSession.packedShapes
      fullSession.packedShapes.length).1 = false := by
  rw [fullSession_length]
  decide!

set_option maxRecDepth 100000 in
theorem fullSession_not_complete :
    ¬ (fullSession.packingCursor.2 ≥
      fullSession.containerBounds.y + fullSession.containerBounds.height) := by
  decide!

set_option maxRecDepth 100000 in
theorem fullSession_fuel : sweepFuel fullSession.rotationStep = 3 + 1 := by
  decide!

set_option maxRecDepth 100000 in
theorem fullSession_inside :
    is_shape_inside_container (candidateShape quarterTrig fullSession 0)
      fullSession.containerPoly = true := by
  decide!

theorem packing_attempt_accepts (trig : Trig) (s : Session) (fuel : Nat)
    (hy : ¬ (s.packingCursor.2 ≥ s.containerBounds.y + s.containerBounds.height))
    (hfuel : sweepFuel s.rotationStep = fuel + 1)
    (hin : is_shape_inside_container (candidateShape trig s 0) s.containerPoly = true)
    (hq : (does_shape_overlap_packed s.spatialGrid s.checkedInds (candidateShape trig s 0)
      s.packedShapes s.packedShapes.length).1 = false) :
    (packing_attempt trig s).packedShapes = s.packedShapes ++ [candidateShape trig s 0] := by
  unfold packing_attempt
  rw [if_neg hy, hfuel]
  obtain ⟨c, hc⟩ := advance_cursor_eq (angle_sweep trig (fuel + 1) 0 s)
  rw [hc]
  simp only []
  rw [angle_sweep_succ, if_pos (by norm_num), if_pos hin, hq, if_pos (by rfl)]
  simp only [acceptShape]

theorem fullSession_attempt :
    (packing_attempt quarterTrig fullSession).packedShapes.length =
      MAX_PACKABLE_SHAPES + 1 := by
  rw [packing_attempt_accepts quarterTrig fullSession 3 fullSession_not_complete
    fullSession_fuel fullSession_inside fullSession_query, List.length_append,
    fullSession_length, List.length_singleton]

/-- C9 (counterexample). With exactly `MAX_PACKABLE_SHAPES` placements the
guard `packedCount > MAX_PACKABLE_SHAPES` does not fire: the query runs, finds
the cells of the candidate at the cursor (20,100) empty and reports no overlap,
and the attempt accepts placement number 20001.  The session is `fullSession`,
whose grid lists each of its 20000 placements in the cell that contains it. -/
theorem capacity_counterexample :
    fullSession.packedShapes.length = MAX_PACKABLE_SHAPES ∧
      GridInv fullSession.spatialGrid fullSession.packedShapes ∧
      (does_shape_overlap_packed fullSession.spatialGrid fullSession.checkedInds
        (candidateShape quarterTrig fullSession 0) fullSession.packedShapes
        fullSession.packedShapes.length).1 = false ∧
      (packing_attempt quarterTrig fullSession).packedShapes.length =
        MAX_PACKABLE_SHAPES + 1 :=
  ⟨fullSession_length, fullSession_gridInv, fullSession_query, fullSession_attempt⟩

/-! ## Grid insertion outside the covered area -/

/-- A shape whose bounding box reaches into the area covered by the grid is
recorded in at least one cell, the one-sided clamps moving the part that lies
outside to the edge cells. -/
theorem grid_add_shape_reaches (g : Grid) (k : Nat) (poly : Polygon)
    (h : reachesGrid (get_poly_bounds poly)) :
    ∃ c, c ∈ cellRange (get_poly_bounds poly) ∧ k ∈ (grid_add_shape g k poly) c.1 c.2 := by
  obtain ⟨hw, hh⟩ := get_poly_bounds_nonneg poly
  obtain ⟨⟨r1, r2⟩, r3, r4⟩ := h
  obtain ⟨x, hx, _⟩ := floor_cell_common GRID_COLS (by decide) (get_poly_bounds poly).x
    ((get_poly_bounds poly).x + (get_poly_bounds poly).width) (get_poly_bounds poly).x
    ((get_poly_bounds poly).x + (get_poly_bounds poly).width) (by linarith) (by linarith)
    (by linarith) (by linarith) r1 r1 r2 r2
  obtain ⟨y, hy, _⟩ := floor_cell_common GRID_ROWS (by decide) (get_poly_bounds poly).y
    ((get_poly_bounds poly).y + (get_poly_bounds poly).height) (get_poly_bounds poly).y
    ((get_poly_bounds poly).y + (get_poly_bounds poly).height) (by linarith) (by linarith)
    (by linarith) (by linarith) r3 r3 r4 r4
  have hc : (y, x) ∈ cellRange (get_poly_bounds poly) := (mem_cellRange _ y x).mpr ⟨hy, hx⟩
  exact ⟨(y, x), hc, (mem_grid_add_shape g k poly y x k).mpr (Or.inr ⟨rfl, hc⟩)⟩

/-- C10. A square that lies wholly below the area covered by the grid: the
lower cell bound is clamped only from below and the upper one only from above,
so the cell range is empty, `grid_add_shape` records the index in no cell, and a
query for the same shape at the same place meets no cell and reports no overlap
although both tests of the narrow phase hold for the pair. -/
theorem grid_add_shape_outside :
    cellLo (get_poly_bounds belowShape).y = 22 ∧
      cellHi GRID_ROWS ((get_poly_bounds belowShape).y + (get_poly_bounds belowShape).height) =
        20 ∧
      cellRange (get_poly_bounds belowShape) = [] ∧
      (∀ y x, grid_add_shape grid_init 0 belowShape y x = []) ∧
      (does_shape_overlap_packed (grid_add_shape grid_init 0 belowShape) (fun _ => false)
        belowShape [belowShape] 1).1 = false ∧
      narrowPhase belowShape belowShape = true := by
  have hrange : cellRange (get_poly_bounds belowShape) = [] := by decide!
  refine ⟨by decide!, by decide!, hrange, ?_, by decide!, by decide!⟩
  intro y x
  unfold grid_add_shape
  rw [hrange]
  rfl

/-! ## Reset transitions -/

theorem frame_done (trig : Trig) (inp : Input) (s : Session)
    (hd : s.currentState = State.STATE_DONE) :
    frame trig inp s = draw_ui_panel inp (done_frame inp s) := by
  unfold frame state_switch
  rw [hd]

/-- C12 (amended). Reset transitions of the session: from `STATE_DONE` a frame
with key R moves to `STATE_DRAW_CONTAINER` with the container discarded, and a
frame with key A without R also moves to `STATE_DRAW_CONTAINER`, with the
container polygon retained; in both cases the unit shape, the placement list,
the cursor and the spatial grid are cleared.  Without either key the session
stays in `STATE_DONE` with its placements. -/
theorem done_reset_transitions (trig : Trig) (inp : Input) (s : Session)
    (hd : s.currentState = State.STATE_DONE) :
    (inp.keyR = true →
        (frame trig inp s).currentState = State.STATE_DRAW_CONTAINER ∧
        (frame trig inp s).containerPoly = []) ∧
      (inp.keyA = true → inp.keyR = false →
        (frame trig inp s).currentState = State.STATE_DRAW_CONTAINER ∧
        (frame trig inp s).containerPoly = s.containerPoly) ∧
      (inp.keyA = true ∨ inp.keyR = true →
        (frame trig inp s).innerPoly = [] ∧ (frame trig inp s).packedShapes = [] ∧
        (frame trig inp s).packingCursor = (0, 0) ∧
        (frame trig inp s).containerBounds = ⟨0, 0, 0, 0⟩ ∧
        (frame trig inp s).spatialGrid = grid_init) ∧
      (inp.keyA = false → inp.keyR = false →
        (frame trig inp s).currentState = State.STATE_DONE ∧
        (frame trig inp s).packedShapes = s.packedShapes ∧
        (frame trig inp s).containerPoly = s.containerPoly) := by
  rw [frame_done trig inp s hd]
  unfold draw_ui_panel done_frame
  refine ⟨?_, ?_, ?_, ?_⟩
  · intro hr
    simp only [hr, Bool.or_true, if_true, and_self]
  · intro ha hr
    simp only [ha, hr, Bool.or_false, if_true, Bool.false_eq_true, if_false, and_self]
  · intro h
    have hk : (inp.keyA || inp.keyR) = true := by
      rcases h with h | h <;> simp [h]
    simp only [hk, if_true, and_self]
  · intro ha hr
    simp only [ha, hr, Bool.or_false, Bool.false_eq_true, if_false, hd, and_self]

set_option maxRecDepth 100000 in
theorem done_reset_transitions_witness :
    (demoRun 10).currentState = State.STATE_DONE ∧
      (frame quarterTrig pressA (demoRun 10)).currentState = State.STATE_DRAW_CONTAINER ∧
      (frame quarterTrig pressA (demoRun 10)).containerPoly = (demoRun 10).containerPoly :=
  ⟨by decide!, (done_reset_transitions quarterTrig pressA (demoRun 10) (by decide!)).2.1
    rfl rfl⟩

set_option maxRecDepth 100000 in
/-- C12 (counterexample). The completed session `demoRun 10` is in
`STATE_DONE`; the frame in which key A (and not R) is pressed leaves it in
`STATE_DRAW_CONTAINER`, not in `STATE_DRAW_INNER`, with the container
(0,0)-(30,30) retained. -/
theorem keep_container_counterexample :
    (demoRun 10).currentState = State.STATE_DONE ∧
      pressA.keyA = true ∧ pressA.keyR = false ∧
      (frame quarterTrig pressA (demoRun 10)).currentState = State.STATE_DRAW_CONTAINER ∧
      (frame quarterTrig pressA (demoRun 10)).currentState ≠ State.STATE_DRAW_INNER ∧
      (frame quarterTrig pressA (demoRun 10)).containerPoly =
        [(0, 30), (30, 30), (30, 0), (0, 0)] :=
  ⟨by decide!, rfl, rfl, by decide!, by decide!, by decide!⟩

/-! ## Raster cursor -/

theorem angle_sweep_cursor (trig : Trig) (fuel : Nat) (angle : ℚ) (s : Session) :
    (angle_sweep trig fuel angle s).packingCursor = s.packingCursor ∧
      (angle_sweep trig fuel angle s).containerBounds = s.containerBounds ∧
      (angle_sweep trig fuel angle s).posStep = s.posStep ∧
      (angle_sweep trig fuel angle s).currentState = s.currentState := by
  rcases angle_sweep_spec trig fuel angle s with ⟨ch, hsw⟩ | ⟨ch, a, _, _, hsw⟩
  · rw [hsw]
    exact ⟨rfl, rfl, rfl, rfl⟩
  · rw [hsw]
    exact ⟨rfl, rfl, rfl, rfl⟩

theorem advance_cursor_fields (s : Session) :
    (advance_cursor s).currentState = s.currentState ∧
      (advance_cursor s).packingCursor =
        (if s.packingCursor.1 + s.posStep ≥ s.containerBounds.x + s.containerBounds.width then
          (s.containerBounds.x, s.packingCursor.2 + s.posStep)
        else (s.packingCursor.1 + s.posStep, s.packingCursor.2)) := by
  unfold advance_cursor
  by_cases h : s.packingCursor.1 + s.posStep ≥ s.containerBounds.x + s.containerBounds.width
  · simp only [h, if_true, and_self]
  · simp only [h, if_false, and_self]

/-- C13 (amended). Raster cursor rule: an attempt whose cursor has
`y >= bounds.y + bounds.height` is the completion (the state becomes
`STATE_DONE` and the cursor stays); any other attempt leaves the state alone
and adds `posStep` to the cursor's x, and when the new x is `>=` the right edge
`bounds.x + bounds.width` it resets x to the left edge and adds `posStep` to y.
A cursor lying exactly on the right or on the bottom edge is therefore not
tried. -/
theorem raster_cursor_rule (trig : Trig) (s : Session) :
    (s.packingCursor.2 ≥ s.containerBounds.y + s.containerBounds.height →
        (packing_attempt trig s).currentState = State.STATE_DONE ∧
        (packing_attempt trig s).packingCursor = s.packingCursor ∧
        (packing_attempt trig s).packedShapes = s.packedShapes) ∧
      (s.packingCursor.2 < s.containerBounds.y + s.containerBounds.height →
        (packing_attempt trig s).currentState = s.currentState ∧
        (packing_attempt trig s).packingCursor =
          (if s.packingCursor.1 + s.posStep ≥ s.containerBounds.x + s.containerBounds.width
            then (s.containerBounds.x, s.packingCursor.2 + s.posStep)
            else (s.packingCursor.1 + s.posStep, s.packingCursor.2))) := by
  constructor
  · intro h
    unfold packing_attempt
    rw [if_pos h]
    exact ⟨rfl, rfl, rfl⟩
  · intro h
    unfold packing_attempt
    rw [if_neg (not_le.mpr h)]
    obtain ⟨c1, c2, c3, c4⟩ := angle_sweep_cursor trig (sweepFuel s.rotationStep) 0 s
    obtain ⟨a1, a2⟩ := advance_cursor_fields (angle_sweep trig (sweepFuel s.rotationStep) 0 s)
    rw [a1, a2, c1, c2, c3, c4]
    exact ⟨rfl, rfl⟩

set_option maxRecDepth 100000 in
theorem raster_cursor_rule_witness :
    (demoRun 2).packingCursor = (20, 0) ∧
      (packing_attempt quarterTrig (demoRun 2)).packingCursor = (0, 10) :=
  ⟨by decide!, by
    have h := ((raster_cursor_rule quarterTrig (demoRun 2)).2 (by decide!)).2
    rw [h]
    decide!⟩

set_option maxRecDepth 100000 in
/-- C13 (counterexample). In the container (0,0)-(30,30) with position step 10
the cursor (20,0) is followed by (0,10): the position (30,0), which lies exactly
on the right edge and does not exceed it, is not tried.  With the cursor at
(0,30), exactly on the bottom edge, the next attempt is the completion. -/
theorem raster_cursor_counterexample :
    (demoRun 2).containerBounds = ⟨0, 0, 30, 30⟩ ∧ (demoRun 2).posStep = 10 ∧
      (demoRun 2).packingCursor = (20, 0) ∧ (demoRun 2).currentState = State.STATE_PACKING ∧
      (packing_attempt quarterTrig (demoRun 2)).packingCursor = (0, 10) ∧
      (demoRun 9).packingCursor = (0, 30) ∧ (demoRun 9).currentState = State.STATE_PACKING ∧
      (demoRun 9).packedShapes.length = 4 ∧
      (packing_attempt quarterTrig (demoRun 9)).currentState = State.STATE_DONE ∧
      (packing_attempt quarterTrig (demoRun 9)).packedShapes.length = 4 :=
  ⟨by decide!, by decide!, by decide!, by decide!, by decide!, by decide!, by decide!,
    by decide!, by decide!, by decide!⟩

/-! ## Re-centering of the unit shape -/

theorem sum_cyclic (g : Nat → ℚ) (n : Nat) :
    ∑ i in Finset.range n, g ((i + 1) % n) = ∑ i in Finset.range n, g i := by
  cases n with
  | zero => simp
  | succ m =>
    rw [Finset.sum_range_succ, Finset.sum_range_succ', Nat.mod_self]
    congr 1
    apply Finset.sum_congr rfl
    intro i hi
    rw [Nat.mod_eq_of_lt (by have := Finset.mem_range.mp hi; omega)]

theorem vtx_map_sub (poly : Polygon) (c : Vector2) (i : Nat) (hi : i < poly.length) :
    vtx (poly.map (fun v => Vector2Subtract v c)) i = Vector2Subtract (vtx poly i) c := by
  unfold vtx
  rw [List.getD_eq_getElem _ _ (by rw [List.length_map]; exact hi), List.getD_eq_getElem _ _ hi,
    List.getElem_map]

theorem poly_area_translate (poly : Polygon) (c : Vector2) :
    poly_area (poly.map (fun v => Vector2Subtract v c)) = poly_area poly := by
  rw [poly_area_eq_sum, poly_area_eq_sum, List.length_map]
  rcases Nat.eq_zero_or_pos poly.length with h0 | hpos
  · simp [h0]
  have hterm : ∀ i ∈ Finset.range poly.length,
      shoelaceTerm (poly.map (fun v => Vector2Subtract v c)) i =
        shoelaceTerm poly i - c.2 * ((vtx poly i).1 - (vtx poly ((i + 1) % poly.length)).1) -
          c.1 * ((vtx poly ((i + 1) % poly.length)).2 - (vtx poly i).2) := by
    intro i hi
    have hi' : i < poly.length := Finset.mem_range.mp hi
    unfold shoelaceTerm
    rw [List.length_map, vtx_map_sub poly c i hi',
      vtx_map_sub poly c _ (Nat.mod_lt _ hpos)]
    simp only [Vector2Subtract]
    ring
  rw [Finset.sum_congr rfl hterm, Finset.sum_sub_distrib, Finset.sum_sub_distrib,
    ← Finset.mul_sum, ← Finset.mul_sum, Finset.sum_sub_distrib, Finset.sum_sub_distrib,
    sum_cyclic (fun i => (vtx poly i).1) poly.length,
    sum_cyclic (fun i => (vtx poly i).2) poly.length]
  ring

theorem boundsFold_translate (l : List Vector2) (c : Vector2) (mm : Vector2 × Vector2) :
    (l.map (fun v => Vector2Subtract v c)).foldl
      (fun (mm : Vector2 × Vector2) v =>
        ((min mm.1.1 v.1, min mm.1.2 v.2), (max mm.2.1 v.1, max mm.2.2 v.2)))
      (Vector2Subtract mm.1 c, Vector2Subtract mm.2 c) =
    (Vector2Subtract (l.foldl
      (fun (mm : Vector2 × Vector2) v =>
        ((min mm.1.1 v.1, min mm.1.2 v.2), (max mm.2.1 v.1, max mm.2.2 v.2))) mm).1 c,
     Vector2Subtract (l.foldl
      (fun (mm : Vector2 × Vector2) v =>
        ((min mm.1.1 v.1, min mm.1.2 v.2), (max mm.2.1 v.1, max mm.2.2 v.2))) mm).2 c) := by
  induction l generalizing mm with
  | nil => rfl
  | cons v rest ih =>
    simp only [List.map_cons, List.foldl_cons]
    have hstep : ((min (Vector2Subtract mm.1 c).1 (Vector2Subtract v c).1,
          min (Vector2Subtract mm.1 c).2 (Vector2Subtract v c).2),
        (max (Vector2Subtract mm.2 c).1 (Vector2Subtract v c).1,
          max (Vector2Subtract mm.2 c).2 (Vector2Subtract v c).2)) =
        (Vector2Subtract (min mm.1.1 v.1, min mm.1.2 v.2) c,
          Vector2Subtract (max mm.2.1 v.1, max mm.2.2 v.2) c) := by
      simp only [Vector2Subtract, min_sub_sub_right, max_sub_sub_right]
    rw [hstep]
    exact ih ((min mm.1.1 v.1, min mm.1.2 v.2), (max mm.2.1 v.1, max mm.2.2 v.2))

theorem get_poly_bounds_translate (poly : Polygon) (c : Vector2) (hne : poly.length ≠ 0) :
    get_poly_bounds (poly.map (fun v => Vector2Subtract v c)) =
      ⟨(get_poly_bounds poly).x - c.1, (get_poly_bounds poly).y - c.2,
        (get_poly_bounds poly).width, (get_poly_bounds poly).height⟩ := by
  unfold get_poly_bounds
  have hne' : (poly.map (fun v => Vector2Subtract v c)).length ≠ 0 := by
    rw [List.length_map]; exact hne
  rw [if_neg hne, if_neg hne']
  have h0 : vtx (poly.map (fun v => Vector2Subtract v c)) 0 = Vector2Subtract (vtx poly 0) c :=
    vtx_map_sub poly c 0 (Nat.pos_of_ne_zero hne)
  have hdrop : (poly.map (fun v => Vector2Subtract v c)).drop 1 =
      (poly.drop 1).map (fun v => Vector2Subtract v c) := by
    rw [List.map_drop]
  simp only [h0, hdrop]
  have hfold := boundsFold_translate (poly.drop 1) c (vtx poly 0, vtx poly 0)
  simp only at hfold
  rw [hfold]
  simp only [Vector2Subtract, Rectangle.mk.injEq, true_and]
  refine ⟨?_, ?_⟩ <;> ring

/-- The re-centered polygon has its bounding-box center at the origin, a
bounding box symmetric about the origin and the signed area of the input. -/
theorem recenter_spec (poly : Polygon) (hne : poly.length ≠ 0) :
    get_poly_center (recenter poly) = (0, 0) ∧
      (get_poly_bounds (recenter poly)).x =
        -((get_poly_bounds (recenter poly)).x + (get_poly_bounds (recenter poly)).width) ∧
      (get_poly_bounds (recenter poly)).y =
        -((get_poly_bounds (recenter poly)).y + (get_poly_bounds (recenter poly)).height) ∧
      poly_area (recenter poly) = poly_area poly := by
  have hb : get_poly_bounds (recenter poly) =
      ⟨(get_poly_bounds poly).x - (get_poly_center poly).1,
        (get_poly_bounds poly).y - (get_poly_center poly).2,
        (get_poly_bounds poly).width, (get_poly_bounds poly).height⟩ :=
    get_poly_bounds_translate poly (get_poly_center poly) hne
  have hc : get_poly_center poly =
      ((get_poly_bounds poly).x + (get_poly_bounds poly).width / 2,
        (get_poly_bounds poly).y + (get_poly_bounds poly).height / 2) := by
    unfold get_poly_center
    rw [if_neg hne]
  have hlen : (recenter poly).length ≠ 0 := by
    unfold recenter
    rw [List.length_map]
    exact hne
  refine ⟨?_, ?_, ?_, poly_area_translate poly _⟩
  · unfold get_poly_center
    rw [if_neg hlen]
    simp only [hb, hc, Prod.mk.injEq]
    constructor <;> ring
  · rw [hb, hc]
    simp only
    ring
  · rw [hb, hc]
    simp only
    ring

theorem ensure_winding_length (poly : Polygon) :
    (ensure_winding poly).length = poly.length := by
  rw [ensure_winding_eq]
  split
  · rfl
  · exact List.length_reverse poly

theorem poly_area_ensure_winding (poly : Polygon) : poly_area (ensure_winding poly) ≤ 0 := by
  rw [ensure_winding_eq]
  by_cases h : poly_area poly < 0
  · rw [if_pos h]
    exact le_of_lt h
  · rw [if_neg h, poly_area_reverse]
    linarith [not_lt.mp h]

theorem packing_attempt_innerPoly (trig : Trig) (s : Session) :
    (packing_attempt trig s).innerPoly = s.innerPoly := by
  unfold packing_attempt
  split
  · rfl
  · obtain ⟨c, hc⟩ := advance_cursor_eq (angle_sweep trig (sweepFuel s.rotationStep) 0 s)
    rw [hc]
    rcases angle_sweep_spec trig (sweepFuel s.rotationStep) 0 s with ⟨ch, hsw⟩ |
      ⟨ch, a, _, _, hsw⟩
    · rw [hsw]
    · rw [hsw]
      rfl

/-- Every reachable session satisfies the invariant of the unit shape. -/
theorem reachable_unit (trig : Trig) (s : Session) (h : Reachable trig s) : UnitInv s := by
  induction h with
  | init =>
    intro hs
    rcases hs with hs | hs <;> exact absurd hs (by decide)
  | steps s p r _ _ _ ih => exact ih
  | drawContainer s inp _ hs _ =>
    intro hst
    rcases handle_drawing_container_spec inp s hs with ⟨p, dv, dp, heq⟩ | ⟨p, dv, dp, _, heq⟩
    · rw [heq] at hst
      have hst' : s.currentState = State.STATE_PACKING ∨ s.currentState = State.STATE_DONE := hst
      rw [hs] at hst'
      rcases hst' with h | h <;> exact absurd h (by decide)
    · rw [heq] at hst
      have hst' : State.STATE_DRAW_INNER = State.STATE_PACKING ∨
          State.STATE_DRAW_INNER = State.STATE_DONE := hst
      rcases hst' with h | h <;> exact absurd h (by decide)
  | drawInner s inp _ hs _ =>
    intro hst
    rcases handle_drawing_inner_spec inp s hs with ⟨p, dv, dp, heq⟩ | ⟨p, dv, dp, hlen, heq⟩
    · rw [heq] at hst
      have hst' : s.currentState = State.STATE_PACKING ∨ s.currentState = State.STATE_DONE := hst
      rw [hs] at hst'
      rcases hst' with h | h <;> exact absurd h (by decide)
    · rw [heq]
      exact ⟨p, hlen, rfl⟩
  | boundsInit s _ hs ih =>
    intro _
    obtain ⟨b, c, heq⟩ := init_bounds_eq s
    rw [heq]
    exact ih (Or.inl hs)
  | attempt s _ hs ih =>
    intro _
    rw [packing_attempt_innerPoly]
    exact ih (Or.inl hs)
  | done s inp _ hs ih =>
    intro hst
    unfold done_frame at hst ⊢
    split
    · rename_i hk
      rw [if_pos hk] at hst
      have hst' : State.STATE_DRAW_CONTAINER = State.STATE_PACKING ∨
          State.STATE_DRAW_CONTAINER = State.STATE_DONE := hst
      rcases hst' with h | h <;> exact absurd h (by decide)
    · exact ih (Or.inr hs)

/-- Exact arithmetic: in every session of the exact model that is packing or
done the unit shape is the winding-normalized form of some polygon with at
least 3 vertices, translated by minus its bounding-box center; its exact
`get_poly_center` is (0,0), its bounding box is symmetric about the origin and
its exact signed area is `<= 0`. -/
theorem unit_shape_recentered (trig : Trig) (s : Session) (h : Reachable trig s)
    (hs : s.currentState = State.STATE_PACKING ∨ s.currentState = State.STATE_DONE) :
    (∃ p : Polygon, 3 ≤ p.length ∧
        s.innerPoly = (ensure_winding p).map
          (fun v => Vector2Subtract v (get_poly_center (ensure_winding p)))) ∧
      get_poly_center s.innerPoly = (0, 0) ∧
      (get_poly_bounds s.innerPoly).x =
        -((get_poly_bounds s.innerPoly).x + (get_poly_bounds s.innerPoly).width) ∧
      (get_poly_bounds s.innerPoly).y =
        -((get_poly_bounds s.innerPoly).y + (get_poly_bounds s.innerPoly).height) ∧
      poly_area s.innerPoly ≤ 0 := by
  obtain ⟨p, hlen, heq⟩ := reachable_unit trig s h hs
  have hne : (ensure_winding p).length ≠ 0 := by
    rw [ensure_winding_length]
    omega
  obtain ⟨r1, r2, r3, r4⟩ := recenter_spec (ensure_winding p) hne
  refine ⟨⟨p, hlen, heq⟩, ?_, ?_, ?_, ?_⟩
  · rw [heq]; exact r1
  · rw [heq]; exact r2
  · rw [heq]; exact r3
  · rw [heq, r4]; exact poly_area_ensure_winding p

set_option maxRecDepth 100000 in
theorem unit_shape_recentered_witness :
    (demoRun 0).currentState = State.STATE_PACKING ∧
      (demoRun 0).innerPoly = [(-5, 5), (5, 5), (5, -5), (-5, -5)] ∧
      get_poly_center (demoRun 0).innerPoly = (0, 0) ∧
      poly_area (demoRun 0).innerPoly ≤ 0 :=
  ⟨by decide!, by decide!,
    (unit_shape_recentered quarterTrig (demoRun 0) (demoRun_reachable 0)
      (Or.inl (by decide!))).2.1,
    (unit_shape_recentered quarterTrig (demoRun 0) (demoRun_reachable 0)
      (Or.inl (by decide!))).2.2.2.2⟩

/-! ## Index safety of the overlap query -/

theorem scanIndsReads_subset (shape : Polygon) (candidateBox : Rectangle)
    (packedShapes : List Polygon) (inds : List Nat) (checked : Nat → Bool) (i : Nat)
    (hi : i ∈ scanIndsReads shape candidateBox packedShapes inds checked) : i ∈ inds := by
  induction inds generalizing checked with
  | nil => exact absurd hi (List.not_mem_nil _)
  | cons k rest ih =>
    unfold scanIndsReads at hi
    rcases List.mem_cons.mp hi with rfl | hi
    · exact List.mem_cons_self _ _
    · apply List.mem_cons_of_mem
      split at hi
      · exact ih checked hi
      · split at hi
        · exact absurd hi (List.not_mem_nil _)
        · exact ih _ hi

theorem scanCellsReads_subset (grid : Grid) (shape : Polygon) (candidateBox : Rectangle)
    (packedShapes : List Polygon) (cells : List (Int × Int)) (checked : Nat → Bool) (i : Nat)
    (hi : i ∈ scanCellsReads grid shape candidateBox packedShapes cells checked) :
    ∃ c ∈ cells, i ∈ grid c.1 c.2 := by
  induction cells generalizing checked with
  | nil => exact absurd hi (List.not_mem_nil _)
  | cons c rest ih =>
    unfold scanCellsReads at hi
    rcases List.mem_append.mp hi with hi | hi
    · exact ⟨c, List.mem_cons_self _ _, scanIndsReads_subset _ _ _ _ _ i hi⟩
    · split at hi
      · exact absurd hi (List.not_mem_nil _)
      · obtain ⟨c', hc', hm⟩ := ih _ hi
        exact ⟨c', List.mem_cons_of_mem _ hc', hm⟩

theorem queryReads_subset (grid : Grid) (checkedInds : Nat → Bool) (shape : Polygon)
    (packedShapes : List Polygon) (packedCount : Nat) (i : Nat)
    (hi : i ∈ queryReads grid checkedInds shape packedShapes packedCount) :
    (0 < packedCount ∧ packedCount ≤ MAX_PACKABLE_SHAPES) ∧
      ∃ c ∈ cellRange (get_poly_bounds shape), i ∈ grid c.1 c.2 := by
  unfold queryReads at hi
  by_cases h0 : packedCount = 0
  · rw [if_pos h0] at hi
    exact absurd hi (List.not_mem_nil _)
  · rw [if_neg h0] at hi
    by_cases hmax : packedCount > MAX_PACKABLE_SHAPES
    · rw [if_pos hmax] at hi
      exact absurd hi (List.not_mem_nil _)
    · rw [if_neg hmax] at hi
      exact ⟨⟨Nat.pos_of_ne_zero h0, not_lt.mp hmax⟩, scanCellsReads_subset _ _ _ _ _ _ i hi⟩

/-- C16. Index safety of the overlap query: in every reachable session, every
shape index that `does_shape_overlap_packed` reads from a grid cell is below
`packedCount`, and `packedCount` is at most `MAX_PACKABLE_SHAPES` whenever an
index is read, so the lookups in `checkedInds` (of size `MAX_PACKABLE_SHAPES`)
and in `packedShapes` are in bounds; the cells visited are cells of the grid.
(Indices are natural numbers in the model, so they are not negative.) -/
theorem query_index_safety (trig : Trig) (s : Session) (h : Reachable trig s)
    (shape : Polygon) (i : Nat)
    (hi : i ∈ queryReads s.spatialGrid s.checkedInds shape s.packedShapes
      s.packedShapes.length) :
    i < s.packedShapes.length ∧ s.packedShapes.length ≤ MAX_PACKABLE_SHAPES ∧
      i < MAX_PACKABLE_SHAPES ∧
      ∀ c ∈ cellRange (get_poly_bounds shape),
        (0 ≤ c.1 ∧ c.1 < GRID_ROWS) ∧ (0 ≤ c.2 ∧ c.2 < GRID_COLS) := by
  obtain ⟨⟨_, hmax⟩, c, _, hmem⟩ := queryReads_subset _ _ _ _ _ i hi
  have hlt := (reachable_inv trig s h).grid.1 c.1 c.2 i hmem
  refine ⟨hlt, hmax, lt_of_lt_of_le hlt hmax, ?_⟩
  intro c' hc'
  exact cellRange_bounds _ c'.1 c'.2 hc'

set_option maxRecDepth 100000 in
theorem query_index_safety_witness :
    queryReads (demoRun 9).spatialGrid (demoRun 9).checkedInds
        [(30, 35), (35, 35), (35, 30), (30, 30)] (demoRun 9).packedShapes
        (demoRun 9).packedShapes.length = [0, 1, 2, 3] ∧
      (3 < (demoRun 9).packedShapes.length ∧
        (demoRun 9).packedShapes.length ≤ MAX_PACKABLE_SHAPES) :=
  ⟨by decide!,
    (query_index_safety quarterTrig (demoRun 9) (demoRun_reachable 9)
      [(30, 35), (35, 35), (35, 30), (30, 30)] 3 (by decide!)).1,
    (query_index_safety quarterTrig (demoRun 9) (demoRun_reachable 9)
      [(30, 35), (35, 35), (35, 30), (30, 30)] 3 (by decide!)).2.1⟩

/-! ## The grid query refines a linear scan -/

theorem scanInds_true (shape : Polygon) (candidateBox : Rectangle) (packedShapes : List Polygon)
    (inds : List Nat) (checked : Nat → Bool)
    (h : (scanInds shape candidateBox packedShapes inds checked).1 = true) :
    ∃ i ∈ inds,
      (CheckCollisionRecs candidateBox (get_poly_bounds (packedShapes.getD i [])) &&
        check_poly_collisions shape (packedShapes.getD i [])) = true := by
  induction inds generalizing checked with
  | nil => exact Bool.noConfusion h
  | cons k rest ih =>
    rw [scanInds_cons] at h
    by_cases hk : checked k = true
    · rw [if_pos hk] at h
      obtain ⟨i, hi, hb⟩ := ih checked h
      exact ⟨i, List.mem_cons_of_mem _ hi, hb⟩
    · rw [if_neg hk] at h
      by_cases hb : (CheckCollisionRecs candidateBox (get_poly_bounds (packedShapes.getD k [])) &&
          check_poly_collisions shape (packedShapes.getD k [])) = true
      · exact ⟨k, List.mem_cons_self _ _, hb⟩
      · rw [if_neg hb] at h
        obtain ⟨i, hi, hb'⟩ := ih _ h
        exact ⟨i, List.mem_cons_of_mem _ hi, hb'⟩

theorem scanCells_true (grid : Grid) (shape : Polygon) (candidateBox : Rectangle)
    (packedShapes : List Polygon) (cells : List (Int × Int)) (checked : Nat → Bool)
    (h : (scanCells grid shape candidateBox packedShapes cells checked).1 = true) :
    ∃ c ∈ cells, ∃ i ∈ grid c.1 c.2,
      (CheckCollisionRecs candidateBox (get_poly_bounds (packedShapes.getD i [])) &&
        check_poly_collisions shape (packedShapes.getD i [])) = true := by
  induction cells generalizing checked with
  | nil => exact Bool.noConfusion h
  | cons c rest ih =>
    rw [scanCells_cons] at h
    by_cases hr : (scanInds shape candidateBox packedShapes (grid c.1 c.2) checked).1 = true
    · obtain ⟨i, hi, hb⟩ := scanInds_true _ _ _ _ _ hr
      exact ⟨c, List.mem_cons_self _ _, i, hi, hb⟩
    · rw [if_neg hr] at h
      obtain ⟨c', hc', i, hi, hb⟩ := ih _ h
      exact ⟨c', List.mem_cons_of_mem _ hc', i, hi, hb⟩

theorem does_shape_overlap_packed_true (grid : Grid) (checkedInds : Nat → Bool)
    (shape : Polygon) (packedShapes : List Polygon) (packedCount : Nat)
    (hmax : packedCount ≤ MAX_PACKABLE_SHAPES)
    (h : (does_shape_overlap_packed grid checkedInds shape packedShapes packedCount).1 = true) :
    ∃ c ∈ cellRange (get_poly_bounds shape), ∃ i ∈ grid c.1 c.2,
      narrowPhase shape (packedShapes.getD i []) = true := by
  unfold does_shape_overlap_packed at h
  by_cases h0 : packedCount = 0
  · rw [if_pos h0] at h
    exact Bool.noConfusion h
  · rw [if_neg h0, if_neg (not_lt.mpr hmax)] at h
    exact scanCells_true _ _ _ _ _ _ h

/-- With the bookkeeping invariant of the grid, the query is a linear scan over
the placed shapes whose bounding boxes reach into the grid. -/
theorem grid_query_iff (grid : Grid) (checkedInds : Nat → Bool) (shape : Polygon)
    (packedShapes : List Polygon) (hg : GridInv grid packedShapes)
    (hmax : packedShapes.length ≤ MAX_PACKABLE_SHAPES)
    (hshape : reachesGrid (get_poly_bounds shape))
    (hplaced : ∀ i, i < packedShapes.length →
      reachesGrid (get_poly_bounds (packedShapes.getD i []))) :
    (does_shape_overlap_packed grid checkedInds shape packedShapes packedShapes.length).1 = true ↔
      ∃ i, i < packedShapes.length ∧ narrowPhase shape (packedShapes.getD i []) = true := by
  constructor
  · intro h
    obtain ⟨c, _, i, hi, hb⟩ := does_shape_overlap_packed_true _ _ _ _ _ hmax h
    exact ⟨i, hg.1 c.1 c.2 i hi, hb⟩
  · rintro ⟨i, hi, hb⟩
    by_contra hq
    have hq' := Bool.eq_false_iff.mpr hq
    have hbox : CheckCollisionRecs (get_poly_bounds shape)
        (get_poly_bounds (packedShapes.getD i [])) = true := by
      unfold narrowPhase at hb
      exact (Bool.and_eq_true _ _ ▸ hb).1
    obtain ⟨cell, hc1, hc2⟩ := cellRange_common _ _ (get_poly_bounds_nonneg shape)
      (get_poly_bounds_nonneg (packedShapes.getD i [])) hshape (hplaced i hi) hbox
    have hf := does_shape_overlap_packed_false grid checkedInds shape packedShapes
      packedShapes.length hq' i hi cell hc1 (hg.2 i hi cell hc2)
    rw [hf] at hb
    exact Bool.noConfusion hb

theorem mem_insertPrefix (packedShapes : List Polygon) (n : Nat) (y x : Int) (i : Nat) :
    i ∈ ((List.range n).foldl
        (fun g i => grid_add_shape g i (packedShapes.getD i [])) grid_init) y x ↔
      i < n ∧ (y, x) ∈ cellRange (get_poly_bounds (packedShapes.getD i [])) := by
  induction n with
  | zero =>
    simp only [List.range_zero, List.foldl_nil, grid_init, List.not_mem_nil, Nat.not_lt_zero,
      false_and]
  | succ n ih =>
    rw [List.range_succ, List.foldl_append, List.foldl_cons, List.foldl_nil, mem_grid_add_shape,
      ih]
    constructor
    · rintro (⟨h1, h2⟩ | ⟨h1, h2⟩)
      · exact ⟨Nat.lt_succ_of_lt h1, h2⟩
      · rw [h1]
        exact ⟨Nat.lt_succ_self n, h2⟩
    · rintro ⟨h1, h2⟩
      rcases Nat.lt_succ_iff_lt_or_eq.mp h1 with h | h
      · exact Or.inl ⟨h, h2⟩
      · right
        rw [h] at h2
        exact ⟨h, h2⟩

theorem GridInv_insertAll (packedShapes : List Polygon) :
    GridInv (insertAll packedShapes) packedShapes := by
  constructor
  · intro y x i hi
    exact ((mem_insertPrefix packedShapes _ y x i).mp hi).1
  · intro i hi c hc
    exact (mem_insertPrefix packedShapes _ c.1 c.2 i).mpr ⟨hi, hc⟩

theorem withinGrid_reachesGrid (poly : Polygon) (h : withinGrid (get_poly_bounds poly)) :
    reachesGrid (get_poly_bounds poly) := by
  obtain ⟨hw, hh⟩ := get_poly_bounds_nonneg poly
  obtain ⟨⟨a1, a2⟩, a3, a4⟩ := h
  exact ⟨⟨by linarith, by linarith⟩, by linarith, by linarith⟩

/-- C17. The grid-accelerated query refines a linear scan: when
`0 < packedCount <= MAX_PACKABLE_SHAPES`, every placed shape `i` was inserted
with `grid_add_shape(i, placed[i])` and the bounding boxes of the candidate and
of the placed shapes lie within the area covered by the grid,
`does_shape_overlap_packed` returns true exactly when some `i < packedCount`
has a bounding box that collides with the candidate's and
`check_poly_collisions(candidate, placed[i])` is true, whatever `checkedInds`
holds at the call.  (For `packedCount = 0` both sides are false, so that case
needs no hypothesis.) -/
theorem grid_query_refines_scan (checkedInds : Nat → Bool) (shape : Polygon)
    (packedShapes : List Polygon) (hmax : packedShapes.length ≤ MAX_PACKABLE_SHAPES)
    (hshape : withinGrid (get_poly_bounds shape))
    (hplaced : ∀ i, i < packedShapes.length →
      withinGrid (get_poly_bounds (packedShapes.getD i []))) :
    (does_shape_overlap_packed (insertAll packedShapes) checkedInds shape packedShapes
        packedShapes.length).1 = true ↔
      ∃ i, i < packedShapes.length ∧
        CheckCollisionRecs (get_poly_bounds shape)
          (get_poly_bounds (packedShapes.getD i [])) = true ∧
        check_poly_collisions shape (packedShapes.getD i []) = true := by
  rw [grid_query_iff (insertAll packedShapes) checkedInds shape packedShapes
    (GridInv_insertAll packedShapes) hmax (withinGrid_reachesGrid shape hshape)
    (fun i hi => withinGrid_reachesGrid _ (hplaced i hi))]
  simp only [narrowPhase, Bool.and_eq_true]

set_option maxRecDepth 100000 in
theorem grid_query_refines_scan_witness :
    (does_shape_overlap_packed
        (insertAll [[(5, 15), (15, 15), (15, 5), (5, 5)], [(15, 15), (25, 15), (25, 5), (15, 5)]])
        (fun _ => false) [(45, 18), (20, 18), (20, 8), (45, 8)]
        [[(5, 15), (15, 15), (15, 5), (5, 5)], [(15, 15), (25, 15), (25, 5), (15, 5)]] 2).1 =
          true ∧
      ∃ i, i < 2 ∧
        check_poly_collisions [(45, 18), (20, 18), (20, 8), (45, 8)]
          (([[(5, 15), (15, 15), (15, 5), (5, 5)],
            [(15, 15), (25, 15), (25, 5), (15, 5)]] : List Polygon).getD i []) = true :=
  ⟨by decide!, by
    obtain ⟨i, hi, _, hc⟩ := (grid_query_refines_scan (fun _ => false)
      [(45, 18), (20, 18), (20, 8), (45, 8)]
      [[(5, 15), (15, 15), (15, 5), (5, 5)], [(15, 15), (25, 15), (25, 5), (15, 5)]]
      (by decide) (by decide!) (by decide!)).mp (by decide!)
    exact ⟨i, hi, hc⟩⟩

/-- In every reachable session the query is a linear scan over the placements
whose bounding boxes reach into the grid. -/
theorem session_query_iff (trig : Trig) (s : Session) (h : Reachable trig s) (shape : Polygon)
    (hmax : s.packedShapes.length ≤ MAX_PACKABLE_SHAPES)
    (hshape : reachesGrid (get_poly_bounds shape))
    (hplaced : ∀ i, i < s.packedShapes.length →
      reachesGrid (get_poly_bounds (s.packedShapes.getD i []))) :
    (does_shape_overlap_packed s.spatialGrid s.checkedInds shape s.packedShapes
        s.packedShapes.length).1 = true ↔
      ∃ i, i < s.packedShapes.length ∧ narrowPhase shape (s.packedShapes.getD i []) = true :=
  grid_query_iff _ _ _ _ (reachable_inv trig s h).grid hmax hshape hplaced

/-! ## The cursor of a zero-width container -/

theorem packing_attempt_advance (trig : Trig) (s : Session)
    (h : s.packingCursor.2 < s.containerBounds.y + s.containerBounds.height) :
    (packing_attempt trig s).currentState = s.currentState ∧
      (packing_attempt trig s).containerPoly = s.containerPoly ∧
      (packing_attempt trig s).containerBounds = s.containerBounds ∧
      (packing_attempt trig s).posStep = s.posStep ∧
      (packing_attempt trig s).packingCursor =
        (if s.packingCursor.1 + s.posStep ≥ s.containerBounds.x + s.containerBounds.width
          then (s.containerBounds.x, s.packingCursor.2 + s.posStep)
          else (s.packingCursor.1 + s.posStep, s.packingCursor.2)) := by
  unfold packing_attempt
  rw [if_neg (not_le.mpr h)]
  obtain ⟨c1, c2, c3, c4⟩ := angle_sweep_cursor trig (sweepFuel s.rotationStep) 0 s
  obtain ⟨a1, a2⟩ := advance_cursor_fields (angle_sweep trig (sweepFuel s.rotationStep) 0 s)
  obtain ⟨c, hc⟩ := advance_cursor_eq (angle_sweep trig (sweepFuel s.rotationStep) 0 s)
  refine ⟨by rw [a1, c4], ?_, ?_, ?_, by rw [a2, c1, c2, c3]⟩
  · rw [hc]
    rcases angle_sweep_spec trig (sweepFuel s.rotationStep) 0 s with ⟨ch, hsw⟩ |
      ⟨ch, a, _, _, hsw⟩
    · rw [hsw]
    · rw [hsw]
      rfl
  · rw [hc]
    exact c2
  · rw [hc]
    exact c3

/-- With a container of zero width every attempt that is not the completion
moves the cursor one step down along the left edge. -/
theorem attempts_loop_zero_width (trig : Trig) (n : Nat) (s : Session)
    (hs : s.currentState = State.STATE_PACKING) (hw : s.containerBounds.width = 0)
    (hx : s.packingCursor.1 = s.containerBounds.x) (hp : 0 < s.posStep)
    (hh : s.packingCursor.2 + (n : ℚ) * s.posStep ≤
      s.containerBounds.y + s.containerBounds.height) :
    (attempts_loop trig n s).currentState = State.STATE_PACKING ∧
      (attempts_loop trig n s).containerPoly = s.containerPoly ∧
      (attempts_loop trig n s).containerBounds = s.containerBounds ∧
      (attempts_loop trig n s).posStep = s.posStep ∧
      (attempts_loop trig n s).packingCursor =
        (s.containerBounds.x, s.packingCursor.2 + (n : ℚ) * s.posStep) := by
  induction n generalizing s with
  | zero =>
    refine ⟨hs, rfl, rfl, rfl, ?_⟩
    show s.packingCursor = _
    rw [Nat.cast_zero, zero_mul, add_zero, ← hx]
  | succ n ih =>
    have hcast : ((n + 1 : Nat) : ℚ) = (n : ℚ) + 1 := by push_cast; ring
    rw [hcast] at hh ⊢
    have hn : 0 ≤ (n : ℚ) * s.posStep := mul_nonneg (Nat.cast_nonneg n) (le_of_lt hp)
    have hlt : s.packingCursor.2 < s.containerBounds.y + s.containerBounds.height := by
      nlinarith
    obtain ⟨a1, a2, a3, a4, a5⟩ := packing_attempt_advance trig s hlt
    have hge : s.packingCursor.1 + s.posStep ≥ s.containerBounds.x + s.containerBounds.width := by
      rw [hw, hx]
      linarith
    rw [if_pos hge] at a5
    have hstate : (packing_attempt trig s).currentState = State.STATE_PACKING := a1.trans hs
    have hnd : ¬ ((packing_attempt trig s).currentState = State.STATE_DONE) := by
      rw [hstate]
      decide
    unfold attempts_loop
    simp only [hnd, if_false]
    obtain ⟨b1, b2, b3, b4, b5⟩ := ih (packing_attempt trig s) hstate (by rw [a3]; exact hw)
      (by rw [a5, a3]) (by rw [a4]; exact hp)
      (by rw [a5, a3, a4]; simp only; linarith)
    refine ⟨b1, b2.trans a2, b3.trans a3, b4.trans a4, ?_⟩
    rw [b5, a3, a5, a4]
    simp only [Prod.mk.injEq, true_and]
    ring

/-- A packing frame on a container whose bounding box has zero width and is
at least `attemptsPerFrame` steps high: the frame starts again from the top-left
corner, whatever the cursor was, and ends `attemptsPerFrame` steps below it,
still in `STATE_PACKING`. -/
theorem packing_frame_zero_width (trig : Trig) (s : Session)
    (hs : s.currentState = State.STATE_PACKING) (hw : s.containerBounds.width = 0)
    (hbw : (get_poly_bounds s.containerPoly).width = 0) (hp : 0 < s.posStep)
    (hh : (attemptsPerFrame : ℚ) * s.posStep ≤ (get_poly_bounds s.containerPoly).height) :
    (init_bounds s).packingCursor =
        ((get_poly_bounds s.containerPoly).x, (get_poly_bounds s.containerPoly).y) ∧
      (packing_frame trig s).currentState = State.STATE_PACKING ∧
      (packing_frame trig s).containerPoly = s.containerPoly ∧
      (packing_frame trig s).containerBounds = get_poly_bounds s.containerPoly ∧
      (packing_frame trig s).posStep = s.posStep ∧
      (packing_frame trig s).packingCursor =
        ((get_poly_bounds s.containerPoly).x,
          (get_poly_bounds s.containerPoly).y + (attemptsPerFrame : ℚ) * s.posStep) := by
  have hinit : init_bounds s = { s with
      containerBounds := get_poly_bounds s.containerPoly,
      packingCursor := ((get_poly_bounds s.containerPoly).x,
        (get_poly_bounds s.containerPoly).y) } := by
    unfold init_bounds
    rw [if_pos hw]
  unfold packing_frame
  rw [hinit]
  obtain ⟨b1, b2, b3, b4, b5⟩ := attempts_loop_zero_width trig attemptsPerFrame
    { s with
      containerBounds := get_poly_bounds s.containerPoly,
      packingCursor := ((get_poly_bounds s.containerPoly).x,
        (get_poly_bounds s.containerPoly).y) }
    hs hbw rfl hp (by simp only; linarith)
  exact ⟨rfl, b1, b2, b3, b4, b5⟩

/-- With a container whose bounding box has a non-zero width the
initialisation runs once: afterwards `init_bounds` changes nothing and a frame
continues from the cursor where the previous one stopped. -/
theorem init_bounds_once (trig : Trig) (s : Session) (hw : s.containerBounds.width ≠ 0) :
    init_bounds s = s ∧ packing_frame trig s = attempts_loop trig attemptsPerFrame s := by
  have h : init_bounds s = s := by
    unfold init_bounds
    rw [if_neg hw]
  exact ⟨h, by unfold packing_frame; rw [h]⟩

set_option maxRecDepth 100000 in
theorem zeroDrawn_facts :
    zeroDrawn.currentState = State.STATE_PACKING ∧
      zeroDrawn.containerPoly = [(5, 700), (5, 400), (5, 200), (5, 0)] ∧
      zeroDrawn.containerBounds.width = 0 ∧ zeroDrawn.posStep = 3 :=
  ⟨by decide!, by decide!, by decide!, by decide!⟩

set_option maxRecDepth 100000 in
theorem zeroContainer_bounds :
    get_poly_bounds [(5, 700), (5, 400), (5, 200), (5, 0)] = ⟨5, 0, 0, 700⟩ := by
  decide!

theorem zero_width_frames (trig : Trig) (n : Nat) :
    ((packing_frame trig)^[n] zeroDrawn).currentState = State.STATE_PACKING ∧
      ((packing_frame trig)^[n] zeroDrawn).containerPoly =
        [(5, 700), (5, 400), (5, 200), (5, 0)] ∧
      ((packing_frame trig)^[n] zeroDrawn).containerBounds.width = 0 ∧
      ((packing_frame trig)^[n] zeroDrawn).posStep = 3 := by
  induction n with
  | zero => exact zeroDrawn_facts
  | succ n ih =>
    obtain ⟨i1, i2, i3, i4⟩ := ih
    rw [Function.iterate_succ_apply']
    have hbw : (get_poly_bounds ((packing_frame trig)^[n] zeroDrawn).containerPoly).width = 0 := by
      rw [i2, zeroContainer_bounds]
    obtain ⟨_, f1, f2, f3, f4, _⟩ := packing_frame_zero_width trig
      ((packing_frame trig)^[n] zeroDrawn) i1 i3 hbw (by rw [i4]; norm_num)
      (by rw [i2, zeroContainer_bounds, i4]; norm_num [attemptsPerFrame])
    exact ⟨f1, f2.trans i2, by rw [f3, i2, zeroContainer_bounds], f4.trans i4⟩

/-- C15. The container with the vertices (5,0), (5,200), (5,400), (5,700) has
a bounding box of zero width, which `case STATE_PACKING` takes for "not yet
initialised": after any number of packing frames the session is still in
`STATE_PACKING`, the next frame starts again at the top-left corner (5,0), and
it ends at (5,600), so the cursor at the start of a frame is not the cursor at
the end of the previous one and the bottom edge 700 is never reached. -/
theorem zero_width_restarts (trig : Trig) (n : Nat) :
    ((packing_frame trig)^[n] zeroDrawn).currentState = State.STATE_PACKING ∧
      (init_bounds ((packing_frame trig)^[n] zeroDrawn)).packingCursor = (5, 0) ∧
      (packing_frame trig ((packing_frame trig)^[n] zeroDrawn)).packingCursor = (5, 600) ∧
      (packing_frame trig ((packing_frame trig)^[n] zeroDrawn)).currentState =
        State.STATE_PACKING := by
  obtain ⟨i1, i2, i3, i4⟩ := zero_width_frames trig n
  have hbw : (get_poly_bounds ((packing_frame trig)^[n] zeroDrawn).containerPoly).width = 0 := by
    rw [i2, zeroContainer_bounds]
  obtain ⟨f0, f1, _, _, _, f5⟩ := packing_frame_zero_width trig
    ((packing_frame trig)^[n] zeroDrawn) i1 i3 hbw (by rw [i4]; norm_num)
    (by rw [i2, zeroContainer_bounds, i4]; norm_num [attemptsPerFrame])
  refine ⟨i1, ?_, ?_, f1⟩
  · rw [f0, i2, zeroContainer_bounds]
  · rw [f5, i2, zeroContainer_bounds, i4]
    norm_num [attemptsPerFrame]

set_option maxRecDepth 100000 in
theorem zeroDrawn_reachable (trig : Trig) : Reachable trig zeroDrawn :=
  drawnInner_reachable trig _
    (drawnContainer_reachable trig 3 5 (by norm_num) (by norm_num) _ _ _ _
      (by decide!) (by decide!) (by decide!) (by decide!))
    _ _ _ _ (by decide!) (by decide!) (by decide!) (by decide!) (by decide!)

/-! ## Independence of the previous contents of `checkedInds` -/

theorem scanInds_agree (shape : Polygon) (candidateBox : Rectangle) (packedShapes : List Polygon)
    (n : Nat) (inds : List Nat) (hin : ∀ i ∈ inds, i < n) (c c2 : Nat → Bool)
    (h : ∀ i, i < n → c i = c2 i) :
    (scanInds shape candidateBox packedShapes inds c).1 =
        (scanInds shape candidateBox packedShapes inds c2).1 ∧
      ∀ i, i < n → (scanInds shape candidateBox packedShapes inds c).2 i =
        (scanInds shape candidateBox packedShapes inds c2).2 i := by
  induction inds generalizing c c2 with
  | nil => exact ⟨rfl, h⟩
  | cons k rest ih =>
    have hk : k < n := hin k (List.mem_cons_self _ _)
    have hrest : ∀ i ∈ rest, i < n := fun i hi => hin i (List.mem_cons_of_mem _ hi)
    have hmark : ∀ i, i < n → markChecked c k i = markChecked c2 k i := by
      intro i hi
      unfold markChecked
      by_cases hik : i = k
      · rw [if_pos hik, if_pos hik]
      · rw [if_neg hik, if_neg hik]
        exact h i hi
    rw [scanInds_cons, scanInds_cons, ← h k hk]
    by_cases hc : c k = true
    · rw [if_pos hc, if_pos hc]
      exact ih hrest c c2 h
    · rw [if_neg hc, if_neg hc]
      by_cases hn : (CheckCollisionRecs candidateBox (get_poly_bounds (packedShapes.getD k [])) &&
          check_poly_collisions shape (packedShapes.getD k [])) = true
      · rw [if_pos hn, if_pos hn]
        exact ⟨rfl, hmark⟩
      · rw [if_neg hn, if_neg hn]
        exact ih hrest _ _ hmark

theorem scanCells_agree (grid : Grid) (shape : Polygon) (candidateBox : Rectangle)
    (packedShapes : List Polygon) (n : Nat) (hg : ∀ y x i, i ∈ grid y x → i < n)
    (cells : List (Int × Int)) (c c2 : Nat → Bool) (h : ∀ i, i < n → c i = c2 i) :
    (scanCells grid shape candidateBox packedShapes cells c).1 =
        (scanCells grid shape candidateBox packedShapes cells c2).1 ∧
      ∀ i, i < n → (scanCells grid shape candidateBox packedShapes cells c).2 i =
        (scanCells grid shape candidateBox packedShapes cells c2).2 i := by
  induction cells generalizing c c2 with
  | nil => exact ⟨rfl, h⟩
  | cons cell rest ih =>
    obtain ⟨h1, h2⟩ := scanInds_agree shape candidateBox packedShapes n (grid cell.1 cell.2)
      (fun i hi => hg _ _ i hi) c c2 h
    rw [scanCells_cons, scanCells_cons, ← h1]
    by_cases hr : (scanInds shape candidateBox packedShapes (grid cell.1 cell.2) c).1 = true
    · rw [if_pos hr, if_pos hr]
      exact ⟨h1, h2⟩
    · rw [if_neg hr, if_neg hr]
      exact ih _ _ h2

/-- The result of the query does not depend on what `checkedInds` held before
the call: the entries below `packedCount` are cleared first and, by the grid
invariant, no other entry is read. -/
theorem query_agree (grid : Grid) (shape : Polygon) (packedShapes : List Polygon)
    (hg : GridInv grid packedShapes) (c c2 : Nat → Bool) :
    (does_shape_overlap_packed grid c shape packedShapes packedShapes.length).1 =
      (does_shape_overlap_packed grid c2 shape packedShapes packedShapes.length).1 := by
  unfold does_shape_overlap_packed
  by_cases h0 : packedShapes.length = 0
  · rw [if_pos h0, if_pos h0]
  · rw [if_neg h0, if_neg h0]
    by_cases hm : packedShapes.length > MAX_PACKABLE_SHAPES
    · rw [if_pos hm, if_pos hm]
    · rw [if_neg hm, if_neg hm]
      refine (scanCells_agree grid shape _ packedShapes packedShapes.length hg.1 _ _ _ ?_).1
      intro i hi
      unfold clearChecked
      rw [if_pos hi, if_pos hi]




theorem insertPrefix_congr (l l2 : List Polygon) (n : Nat)
    (h : ∀ i, i < n → l.getD i [] = l2.getD i []) :
    (List.range n).foldl (fun g i => grid_add_shape g i (l.getD i [])) grid_init =
      (List.range n).foldl (fun g i => grid_add_shape g i (l2.getD i [])) grid_init := by
  induction n with
  | zero => rfl
  | succ n ih =>
    rw [List.range_succ, List.foldl_append, List.foldl_append,
      ih (fun i hi => h i (Nat.lt_succ_of_lt hi))]
    simp only [List.foldl_cons, List.foldl_nil]
    rw [h n (Nat.lt_succ_self n)]

theorem insertAll_append (l : List Polygon) (c : Polygon) :
    insertAll (l ++ [c]) = grid_add_shape (insertAll l) l.length c := by
  unfold insertAll
  rw [List.length_append, List.length_singleton, List.range_succ, List.foldl_append]
  simp only [List.foldl_cons, List.foldl_nil]
  rw [getD_append_length,
    insertPrefix_congr (l ++ [c]) l l.length (fun i hi => getD_append_left l c i hi)]

theorem GridEq_accept (s : Session) (c : Polygon) (h : GridEq s) : GridEq (acceptShape s c) := by
  unfold GridEq acceptShape at *
  simp only
  rw [insertAll_append, h]

theorem GridEq_gridInv (s : Session) (h : GridEq s) : GridInv s.spatialGrid s.packedShapes := by
  unfold GridEq at h
  rw [h]
  exact GridInv_insertAll s.packedShapes

theorem GridEq_sweep (trig : Trig) (fuel : Nat) (angle : ℚ) (s : Session) (h : GridEq s) :
    GridEq (angle_sweep trig fuel angle s) := by
  rcases angle_sweep_spec trig fuel angle s with ⟨ch, hsw⟩ | ⟨ch, a, _, _, hsw⟩
  · rw [hsw]
    exact h
  · rw [hsw]
    exact GridEq_accept _ _ h

theorem GridEq_attempt (trig : Trig) (s : Session) (h : GridEq s) :
    GridEq (packing_attempt trig s) := by
  unfold packing_attempt
  split
  · exact h
  · obtain ⟨c, hc⟩ := advance_cursor_eq (angle_sweep trig (sweepFuel s.rotationStep) 0 s)
    rw [hc]
    exact GridEq_sweep trig _ 0 s h

theorem GridEq_loop (trig : Trig) (n : Nat) (s : Session) (h : GridEq s) :
    GridEq (attempts_loop trig n s) := by
  induction n generalizing s with
  | zero => exact h
  | succ n ih =>
    unfold attempts_loop
    simp only
    split
    · exact GridEq_attempt trig s h
    · exact ih _ (GridEq_attempt trig s h)

theorem packing_attempt_eq (trig : Trig) (s : Session) :
    packing_attempt trig s =
      if s.packingCursor.2 ≥ s.containerBounds.y + s.containerBounds.height then
        complete_packing s
      else advance_cursor (angle_sweep trig (sweepFuel s.rotationStep) 0 s) := rfl

theorem attempts_loop_succ (trig : Trig) (n : Nat) (s : Session) :
    attempts_loop trig (n + 1) s =
      if (packing_attempt trig s).currentState = State.STATE_DONE then packing_attempt trig s
      else attempts_loop trig n (packing_attempt trig s) := rfl

theorem angle_sweep_checked (trig : Trig) (fuel : Nat) (angle : ℚ) (s : Session)
    (h : GridEq s) (f : Nat → Bool) :
    ∃ g, angle_sweep trig fuel angle { s with checkedInds := f } =
      { angle_sweep trig fuel angle s with checkedInds := g } := by
  induction fuel generalizing angle s f with
  | zero => exact ⟨f, rfl⟩
  | succ fuel ih =>
    rw [angle_sweep_succ, angle_sweep_succ trig fuel angle s]
    have hcand : candidateShape trig { s with checkedInds := f } angle =
        candidateShape trig s angle := rfl
    rw [hcand]
    dsimp only
    by_cases hang : angle < 360
    · rw [if_pos hang, if_pos hang]
      by_cases hin : is_shape_inside_container (candidateShape trig s angle) s.containerPoly = true
      · rw [if_pos hin, if_pos hin]
        rw [query_agree s.spatialGrid (candidateShape trig s angle) s.packedShapes
          (GridEq_gridInv s h) f s.checkedInds]
        by_cases hr : (!(does_shape_overlap_packed s.spatialGrid s.checkedInds
            (candidateShape trig s angle) s.packedShapes s.packedShapes.length).1) = true
        · rw [if_pos hr, if_pos hr]
          exact ⟨_, rfl⟩
        · rw [if_neg hr, if_neg hr]
          exact ih (angle + s.rotationStep)
            { s with checkedInds := (does_shape_overlap_packed s.spatialGrid s.checkedInds
              (candidateShape trig s angle) s.packedShapes s.packedShapes.length).2 } h
            (does_shape_overlap_packed s.spatialGrid f
              (candidateShape trig s angle) s.packedShapes s.packedShapes.length).2
      · rw [if_neg hin, if_neg hin]
        exact ih (angle + s.rotationStep) s h f
    · rw [if_neg hang, if_neg hang]
      exact ⟨f, rfl⟩

theorem advance_cursor_checked (s : Session) (g : Nat → Bool) :
    advance_cursor { s with checkedInds := g } = { advance_cursor s with checkedInds := g } := by
  unfold advance_cursor
  dsimp only
  by_cases hc : s.packingCursor.1 + s.posStep ≥ s.containerBounds.x + s.containerBounds.width
  · rw [if_pos hc, if_pos hc]
  · rw [if_neg hc, if_neg hc]

theorem packing_attempt_checked (trig : Trig) (s : Session) (h : GridEq s) (f : Nat → Bool) :
    ∃ g, packing_attempt trig { s with checkedInds := f } =
      { packing_attempt trig s with checkedInds := g } := by
  rw [packing_attempt_eq, packing_attempt_eq trig s]
  dsimp only
  by_cases hy : s.packingCursor.2 ≥ s.containerBounds.y + s.containerBounds.height
  · rw [if_pos hy, if_pos hy]
    exact ⟨f, rfl⟩
  · rw [if_neg hy, if_neg hy]
    obtain ⟨g, hg⟩ := angle_sweep_checked trig (sweepFuel s.rotationStep) 0 s h f
    exact ⟨g, by rw [hg, advance_cursor_checked]⟩

theorem attempts_loop_checked (trig : Trig) (n : Nat) (s : Session) (h : GridEq s)
    (f : Nat → Bool) :
    ∃ g, attempts_loop trig n { s with checkedInds := f } =
      { attempts_loop trig n s with checkedInds := g } := by
  induction n generalizing s f with
  | zero => exact ⟨f, rfl⟩
  | succ n ih =>
    obtain ⟨g, hg⟩ := packing_attempt_checked trig s h f
    rw [attempts_loop_succ, attempts_loop_succ trig n s, hg]
    dsimp only
    by_cases hd : (packing_attempt trig s).currentState = State.STATE_DONE
    · rw [if_pos hd, if_pos hd]
      exact ⟨g, rfl⟩
    · rw [if_neg hd, if_neg hd]
      exact ih _ (GridEq_attempt trig s h) g

theorem attempts_loop_add (trig : Trig) (n m : Nat) (s : Session)
    (h : (attempts_loop trig n s).currentState ≠ State.STATE_DONE) :
    attempts_loop trig (n + m) s = attempts_loop trig m (attempts_loop trig n s) := by
  induction n generalizing s with
  | zero => rw [Nat.zero_add]; rfl
  | succ n ih =>
    rw [Nat.add_right_comm, attempts_loop_succ, attempts_loop_succ trig n s]
    rw [attempts_loop_succ] at h
    by_cases hd : (packing_attempt trig s).currentState = State.STATE_DONE
    · rw [if_pos hd] at h
      exact absurd hd h
    · rw [if_neg hd] at h
      rw [if_neg hd, if_neg hd]
      exact ih _ h

theorem session_eq_of_coreEq (s t : Session) (h : coreEq s t)
    (hg : s.spatialGrid = t.spatialGrid) :
    s = { t with checkedInds := s.checkedInds } := by
  obtain ⟨h1, h2, h3, h4, h5, h6, h7, h8, h9, h10, h11, h12, h13⟩ := h
  cases s
  cases t
  simp only at h1 h2 h3 h4 h5 h6 h7 h8 h9 h10 h11 h12 h13 hg
  subst h1 h2 h3 h4 h5 h6 h7 h8 h9 h10 h11 h12 h13 hg
  rfl

/-! ## The reference scenario -/

set_option maxRecDepth 100000 in
theorem scenDrawn_reachable : Reachable quarterTrig scenDrawn :=
  drawnInner_reachable quarterTrig _
    (drawnContainer_reachable quarterTrig 10 90 (by norm_num) (by norm_num) _ _ _ _
      (by decide!) (by decide!) (by decide!) (by decide!))
    _ _ _ _ (by decide!) (by decide!) (by decide!) (by decide!) (by decide!)

set_option maxRecDepth 100000 in
theorem scenStart_reachable : Reachable quarterTrig (init_bounds scenDrawn) :=
  Reachable.boundsInit _ scenDrawn_reachable (by decide!)

set_option maxRecDepth 100000 in
theorem scenRun_reachable (n : Nat) : Reachable quarterTrig (scenRun n) :=
  attempts_loop_reachable quarterTrig n _ scenStart_reachable
    ((init_bounds_state scenDrawn).trans (by decide!))

set_option maxRecDepth 100000 in
theorem scenDrawn_facts :
    scenDrawn.containerPoly = [(0, 100), (100, 100), (100, 0), (0, 0)] ∧
      scenDrawn.innerPoly = [(-5, 5), (5, 5), (5, -5), (-5, -5)] ∧
      scenDrawn.posStep = 10 ∧ scenDrawn.rotationStep = 90 ∧
      scenDrawn.currentState = State.STATE_PACKING :=
  ⟨by decide!, by decide!, by decide!, by decide!, by decide!⟩

theorem grid_of_nil (g : Grid) (h : GridInv g []) : g = grid_init := by
  funext y x
  unfold grid_init
  exact List.eq_nil_iff_forall_not_mem.mpr (fun i hi => absurd (h.1 y x i hi) (Nat.not_lt_zero _))

theorem scenCheckpoint_gridEq (n : Nat) : GridEq (scenCheckpoint n) := rfl

theorem scenCheckpoint_state (n : Nat) (f : Nat → Bool) :
    ({ scenCheckpoint n with checkedInds := f } : Session).currentState =
      State.STATE_PACKING := rfl

set_option maxRecDepth 100000 in
theorem scenStart_core : coreEq (init_bounds scenDrawn) (scenCheckpoint 0) := by
  decide!

/-- The session at the start of the packing run is the checkpoint 0. -/
theorem scenRun_base : ∃ f, scenRun 0 = { scenCheckpoint 0 with checkedInds := f } := by
  have hc := scenStart_core
  have hnil : (init_bounds scenDrawn).packedShapes = [] := by
    unfold coreEq at hc
    rw [hc.2.2.2.1]
    rfl
  have hg : GridInv (init_bounds scenDrawn).spatialGrid [] := by
    rw [← hnil]
    exact (reachable_inv quarterTrig _ scenStart_reachable).grid
  exact ⟨_, session_eq_of_coreEq _ _ hc (grid_of_nil _ hg)⟩

/-- One stretch of the run: if the run has reached the checkpoint `a`, and `m`
attempts from the checkpoint `a` give the fields of the checkpoint `a + m`, the
run reaches the checkpoint `a + m`. -/
theorem scenRun_step (a m : Nat)
    (ha : ∃ f, scenRun a = { scenCheckpoint a with checkedInds := f })
    (hc : coreEq (attempts_loop quarterTrig m (scenCheckpoint a)) (scenCheckpoint (a + m))) :
    ∃ f, scenRun (a + m) = { scenCheckpoint (a + m) with checkedInds := f } := by
  obtain ⟨f, hf⟩ := ha
  have hstate : (attempts_loop quarterTrig a (init_bounds scenDrawn)).currentState ≠
      State.STATE_DONE := by
    change (scenRun a).currentState ≠ State.STATE_DONE
    rw [hf, scenCheckpoint_state]
    decide
  have hadd : scenRun (a + m) = attempts_loop quarterTrig m (scenRun a) :=
    attempts_loop_add quarterTrig a m _ hstate
  obtain ⟨g, hg⟩ := attempts_loop_checked quarterTrig m (scenCheckpoint a)
    (scenCheckpoint_gridEq a) f
  have hgrid : (attempts_loop quarterTrig m (scenCheckpoint a)).spatialGrid =
      (scenCheckpoint (a + m)).spatialGrid := by
    have h1 := GridEq_loop quarterTrig m (scenCheckpoint a) (scenCheckpoint_gridEq a)
    have h2 : (attempts_loop quarterTrig m (scenCheckpoint a)).packedShapes =
        (scenCheckpoint (a + m)).packedShapes := by
      unfold coreEq at hc
      exact hc.2.2.2.1
    unfold GridEq at h1
    rw [h1, h2]
    exact (scenCheckpoint_gridEq (a + m)).symm
  have heq := session_eq_of_coreEq _ _ hc hgrid
  refine ⟨g, ?_⟩
  rw [hadd, hf, hg]
  exact congrArg (fun x : Session => { x with checkedInds := g }) heq

set_option maxRecDepth 1000000 in
theorem scenChunk_0 :
    coreEq (attempts_loop quarterTrig 10 (scenCheckpoint 0)) (scenCheckpoint (0 + 10)) := by
  decide!

set_option maxRecDepth 1000000 in
theorem scenChunk_10 :
    coreEq (attempts_loop quarterTrig 10 (scenCheckpoint 10)) (scenCheckpoint (10 + 10)) := by
  decide!

set_option maxRecDepth 1000000 in
theorem scenChunk_20 :
    coreEq (attempts_loop quarterTrig 10 (scenCheckpoint 20)) (scenCheckpoint (20 + 10)) := by
  decide!

set_option maxRecDepth 1000000 in
theorem scenChunk_30 :
    coreEq (attempts_loop quarterTrig 10 (scenCheckpoint 30)) (scenCheckpoint (30 + 10)) := by
  decide!

set_option maxRecDepth 1000000 in
theorem scenChunk_40 :
    coreEq (attempts_loop quarterTrig 10 (scenCheckpoint 40)) (scenCheckpoint (40 + 10)) := by
  decide!

set_option maxRecDepth 1000000 in
theorem scenChunk_50 :
    coreEq (attempts_loop quarterTrig 5 (scenCheckpoint 50)) (scenCheckpoint (50 + 5)) := by
  decide!

set_option maxRecDepth 1000000 in
theorem scenChunk_55 :
    coreEq (attempts_loop quarterTrig 5 (scenCheckpoint 55)) (scenCheckpoint (55 + 5)) := by
  decide!

set_option maxRecDepth 1000000 in
theorem scenChunk_60 :
    coreEq (attempts_loop quarterTrig 5 (scenCheckpoint 60)) (scenCheckpoint (60 + 5)) := by
  decide!

set_option maxRecDepth 1000000 in
theorem scenChunk_65 :
    coreEq (attempts_loop quarterTrig 5 (scenCheckpoint 65)) (scenCheckpoint (65 + 5)) := by
  decide!

set_option maxRecDepth 1000000 in
theorem scenChunk_70 :
    coreEq (attempts_loop quarterTrig 5 (scenCheckpoint 70)) (scenCheckpoint (70 + 5)) := by
  decide!

set_option maxRecDepth 1000000 in
theorem scenChunk_75 :
    coreEq (attempts_loop quarterTrig 5 (scenCheckpoint 75)) (scenCheckpoint (75 + 5)) := by
  decide!

set_option maxRecDepth 1000000 in
theorem scenChunk_80 :
    coreEq (attempts_loop quarterTrig 5 (scenCheckpoint 80)) (scenCheckpoint (80 + 5)) := by
  decide!

set_option maxRecDepth 1000000 in
theorem scenChunk_85 :
    coreEq (attempts_loop quarterTrig 5 (scenCheckpoint 85)) (scenCheckpoint (85 + 5)) := by
  decide!

set_option maxRecDepth 1000000 in
theorem scenChunk_90 :
    coreEq (attempts_loop quarterTrig 5 (scenCheckpoint 90)) (scenCheckpoint (90 + 5)) := by
  decide!

set_option maxRecDepth 1000000 in
theorem scenChunk_95 :
    coreEq (attempts_loop quarterTrig 5 (scenCheckpoint 95)) (scenCheckpoint (95 + 5)) := by
  decide!

theorem scenRun_chain_0 :
    ∃ f, scenRun 10 = { scenCheckpoint 10 with checkedInds := f } :=
  scenRun_step 0 10 scenRun_base scenChunk_0

theorem scenRun_chain_1 :
    ∃ f, scenRun 20 = { scenCheckpoint 20 with checkedInds := f } :=
  scenRun_step 10 10 scenRun_chain_0 scenChunk_10

theorem scenRun_chain_2 :
    ∃ f, scenRun 30 = { scenCheckpoint 30 with checkedInds := f } :=
  scenRun_step 20 10 scenRun_chain_1 scenChunk_20

theorem scenRun_chain_3 :
    ∃ f, scenRun 40 = { scenCheckpoint 40 with checkedInds := f } :=
  scenRun_step 30 10 scenRun_chain_2 scenChunk_30

theorem scenRun_chain_4 :
    ∃ f, scenRun 50 = { scenCheckpoint 50 with checkedInds := f } :=
  scenRun_step 40 10 scenRun_chain_3 scenChunk_40

theorem scenRun_chain_5 :
    ∃ f, scenRun 55 = { scenCheckpoint 55 with checkedInds := f } :=
  scenRun_step 50 5 scenRun_chain_4 scenChunk_50

theorem scenRun_chain_6 :
    ∃ f, scenRun 60 = { scenCheckpoint 60 with checkedInds := f } :=
  scenRun_step 55 5 scenRun_chain_5 scenChunk_55

theorem scenRun_chain_7 :
    ∃ f, scenRun 65 = { scenCheckpoint 65 with checkedInds := f } :=
  scenRun_step 60 5 scenRun_chain_6 scenChunk_60

theorem scenRun_chain_8 :
    ∃ f, scenRun 70 = { scenCheckpoint 70 with checkedInds := f } :=
  scenRun_step 65 5 scenRun_chain_7 scenChunk_65

theorem scenRun_chain_9 :
    ∃ f, scenRun 75 = { scenCheckpoint 75 with checkedInds := f } :=
  scenRun_step 70 5 scenRun_chain_8 scenChunk_70

theorem scenRun_chain_10 :
    ∃ f, scenRun 80 = { scenCheckpoint 80 with checkedInds := f } :=
  scenRun_step 75 5 scenRun_chain_9 scenChunk_75

theorem scenRun_chain_11 :
    ∃ f, scenRun 85 = { scenCheckpoint 85 with checkedInds := f } :=
  scenRun_step 80 5 scenRun_chain_10 scenChunk_80

theorem scenRun_chain_12 :
    ∃ f, scenRun 90 = { scenCheckpoint 90 with checkedInds := f } :=
  scenRun_step 85 5 scenRun_chain_11 scenChunk_85

theorem scenRun_chain_13 :
    ∃ f, scenRun 95 = { scenCheckpoint 95 with checkedInds := f } :=
  scenRun_step 90 5 scenRun_chain_12 scenChunk_90

theorem scenRun_chain_14 :
    ∃ f, scenRun 100 = { scenCheckpoint 100 with checkedInds := f } :=
  scenRun_step 95 5 scenRun_chain_13 scenChunk_95

/-- After 100 attempts the run of the reference scenario is at the checkpoint
100: 81 squares placed and the cursor at (0, 100). -/
theorem scenRun_checkpoint :
    ∃ f, scenRun 100 = { scenCheckpoint 100 with checkedInds := f } :=
  scenRun_chain_14

set_option maxRecDepth 1000000 in
theorem scenLast :
    (attempts_loop quarterTrig 1 (scenCheckpoint 100)).currentState = State.STATE_DONE ∧
      (attempts_loop quarterTrig 1 (scenCheckpoint 100)).packedShapes =
        (List.range 81).map scenSquare ∧
      (attempts_loop quarterTrig 1 (scenCheckpoint 100)).packingEfficiency = 81 := by
  decide!

theorem scenRun_result :
    (scenRun 100).currentState = State.STATE_PACKING ∧
      (scenRun 101).currentState = State.STATE_DONE ∧
      (scenRun 101).packedShapes = (List.range 81).map scenSquare ∧
      (scenRun 101).packingEfficiency = 81 := by
  obtain ⟨f, hf⟩ := scenRun_checkpoint
  have h100 : (scenRun 100).currentState = State.STATE_PACKING := by
    rw [hf, scenCheckpoint_state]
  have hadd : scenRun (100 + 1) = attempts_loop quarterTrig 1 (scenRun 100) :=
    attempts_loop_add quarterTrig 100 1 _ (by
      change (scenRun 100).currentState ≠ State.STATE_DONE
      rw [h100]
      decide)
  obtain ⟨g, hg⟩ := attempts_loop_checked quarterTrig 1 (scenCheckpoint 100)
    (scenCheckpoint_gridEq 100) f
  have h101 : scenRun 101 =
      { attempts_loop quarterTrig 1 (scenCheckpoint 100) with checkedInds := g } := by
    rw [← hg, ← hf]
    exact hadd
  refine ⟨h100, ?_⟩
  rw [h101]
  exact scenLast

set_option maxRecDepth 1000000 in
theorem scenSquare_bounds : ∀ i, i < 81 →
    get_poly_bounds (scenSquare i) =
      ⟨10 * ((i % 9 + 1 : Nat) : ℚ) - 5, 10 * ((i / 9 + 1 : Nat) : ℚ) - 5, 10, 10⟩ := by
  decide!

theorem scenSquare_boxes (i j : Nat) (hi : i < 81) (hj : j < 81) (hij : i ≠ j) :
    CheckCollisionRecs (get_poly_bounds (scenSquare i)) (get_poly_bounds (scenSquare j)) =
      false := by
  rw [scenSquare_bounds i hi, scenSquare_bounds j hj]
  unfold CheckCollisionRecs
  have hne : i % 9 ≠ j % 9 ∨ i / 9 ≠ j / 9 := by omega
  rcases hne with h | h
  · rcases Nat.lt_or_gt_of_ne h with h | h
    · have hq : ((i % 9 + 1 : Nat) : ℚ) + 1 ≤ ((j % 9 + 1 : Nat) : ℚ) := by
        exact_mod_cast Nat.succ_le_succ h
      have : ¬ ((10 * ((i % 9 + 1 : Nat) : ℚ) - 5) + 10 > 10 * ((j % 9 + 1 : Nat) : ℚ) - 5) := by
        linarith
      simp only [this, decide_False, Bool.and_false, Bool.false_and]
    · have hq : ((j % 9 + 1 : Nat) : ℚ) + 1 ≤ ((i % 9 + 1 : Nat) : ℚ) := by
        exact_mod_cast Nat.succ_le_succ h
      have : ¬ (10 * ((i % 9 + 1 : Nat) : ℚ) - 5 < 10 * ((j % 9 + 1 : Nat) : ℚ) - 5 + 10) := by
        linarith
      simp only [this, decide_False, Bool.and_false, Bool.false_and]
  · rcases Nat.lt_or_gt_of_ne h with h | h
    · have hq : ((i / 9 + 1 : Nat) : ℚ) + 1 ≤ ((j / 9 + 1 : Nat) : ℚ) := by
        exact_mod_cast Nat.succ_le_succ h
      have : ¬ ((10 * ((i / 9 + 1 : Nat) : ℚ) - 5) + 10 > 10 * ((j / 9 + 1 : Nat) : ℚ) - 5) := by
        linarith
      simp only [this, decide_False, Bool.and_false, Bool.false_and]
    · have hq : ((j / 9 + 1 : Nat) : ℚ) + 1 ≤ ((i / 9 + 1 : Nat) : ℚ) := by
        exact_mod_cast Nat.succ_le_succ h
      have : ¬ (10 * ((i / 9 + 1 : Nat) : ℚ) - 5 < 10 * ((j / 9 + 1 : Nat) : ℚ) - 5 + 10) := by
        linarith
      simp only [this, decide_False, Bool.and_false, Bool.false_and]

theorem scenSquares_getD (i : Nat) (hi : i < 81) :
    ((List.range 81).map scenSquare).getD i [] = scenSquare i := by
  rw [List.getD_eq_getElem _ _ (by rw [List.length_map, List.length_range]; exact hi),
    List.getElem_map, List.getElem_range]

/-- C11 (amended). Reference scenario: with the container (0,0)-(100,100), the
unit square of side 10 centered on its bounding-box center, position step 10
and rotation step 90 degrees, the run is still packing after 100 attempts and
completes at attempt 101 with 81 placements, the 9x9 grid of squares centered
at (10i, 10j) for 1 <= i, j <= 9, and efficiency 81, which does not exceed 100;
the bounding boxes of any two distinct placements do not collide (neighbours
only touch), so no pair passes the two tests of the overlap query. -/
theorem reference_scenario :
    (scenDrawn.containerPoly = [(0, 100), (100, 100), (100, 0), (0, 0)] ∧
        scenDrawn.innerPoly = [(-5, 5), (5, 5), (5, -5), (-5, -5)] ∧
        scenDrawn.posStep = 10 ∧ scenDrawn.rotationStep = 90) ∧
      Reachable quarterTrig (scenRun 101) ∧
      (scenRun 100).currentState = State.STATE_PACKING ∧
      (scenRun 101).currentState = State.STATE_DONE ∧
      (scenRun 101).packedShapes = (List.range 81).map scenSquare ∧
      (scenRun 101).packedShapes.length = 81 ∧
      ((scenRun 101).packingEfficiency = 81 ∧ (scenRun 101).packingEfficiency ≤ 100) ∧
      ∀ i j, i < 81 → j < 81 → i ≠ j →
        narrowPhase ((scenRun 101).packedShapes.getD i [])
          ((scenRun 101).packedShapes.getD j []) = false ∧
        CheckCollisionRecs (get_poly_bounds ((scenRun 101).packedShapes.getD i []))
          (get_poly_bounds ((scenRun 101).packedShapes.getD j [])) = false := by
  obtain ⟨f1, f2, f3, f4, _⟩ := scenDrawn_facts
  obtain ⟨r0, r1, r2, r3⟩ := scenRun_result
  refine ⟨⟨f1, f2, f3, f4⟩, scenRun_reachable 101, r0, r1, r2, ?_, ⟨r3, ?_⟩, ?_⟩
  · rw [r2, List.length_map, List.length_range]
  · rw [r3]
    norm_num
  · intro i j hi hj hij
    rw [r2, scenSquares_getD i hi, scenSquares_getD j hj]
    have hbox := scenSquare_boxes i j hi hj hij
    refine ⟨?_, hbox⟩
    unfold narrowPhase
    rw [hbox, Bool.false_and]

set_option maxRecDepth 100000 in
/-- C11 (counterexample). In the completed reference run the first two
placements are the squares (5,5)-(15,15) and (15,5)-(25,15), which share the
edge x = 15; `check_poly_collisions` is true for this pair of distinct
placements, and the run has 81 placements, a 9x9 grid. -/
theorem reference_scenario_counterexample :
    (scenRun 101).currentState = State.STATE_DONE ∧
      (scenRun 101).packedShapes.length = 81 ∧
      (scenRun 101).packedShapes.getD 0 [] = [(5, 15), (15, 15), (15, 5), (5, 5)] ∧
      (scenRun 101).packedShapes.getD 1 [] = [(15, 15), (25, 15), (25, 5), (15, 5)] ∧
      check_poly_collisions ((scenRun 101).packedShapes.getD 0 [])
        ((scenRun 101).packedShapes.getD 1 []) = true := by
  obtain ⟨_, r1, r2, _⟩ := scenRun_result
  refine ⟨r1, ?_, ?_, ?_, ?_⟩
  · rw [r2, List.length_map, List.length_range]
  · rw [r2]
    decide!
  · rw [r2]
    decide!
  · rw [r2]
    decide!

/-! # Single precision

The properties of the geometry primitives as the program evaluates them, in
binary32.  The theorems above about `poly_area`, `ensure_winding`,
`do_lines_intersect` and `check_poly_collisions` are their exact-arithmetic
counterparts; they carry over whenever no operation rounds. -/

/-! ## The segment test in single precision -/

theorem fdiv32_zero_geZero_leOne (n : ℚ) :
    ((fdiv32 n 0).geZero && (fdiv32 n 0).leOne) = false := by
  unfold fdiv32
  rw [if_pos rfl]
  by_cases hn : n = 0
  · rw [if_pos hn]
    rfl
  · rw [if_neg hn]
    by_cases hneg : n < 0
    · simp [FloatDiv.geZero, FloatDiv.leOne, hneg]
    · simp [FloatDiv.geZero, FloatDiv.leOne, hneg]

/-- C4 (amended). Whenever the determinant `-s2x*s1y + s1x*s2y` that the
program computes in single precision is zero, the quotient `s` is infinite or
NaN, its comparisons with `[0,1]` fail and `do_lines_intersect` returns 0. -/
theorem do_lines_intersect_f32_zero_det (a b c d : Vector2)
    (hdet : lineDet_f32 a b c d = 0) :
    (coefS_f32 a b c d = FloatDiv.nan ∨ ∃ sign, coefS_f32 a b c d = FloatDiv.inf sign) ∧
      do_lines_intersect_f32 a b c d = false := by
  constructor
  · unfold coefS_f32
    simp only [hdet]
    unfold fdiv32
    rw [if_pos rfl]
    split
    · exact Or.inl rfl
    · exact Or.inr ⟨_, rfl⟩
  · unfold do_lines_intersect_f32 coefS_f32
    simp only [hdet]
    rw [fdiv32_zero_geZero_leOne]
    rfl

set_option maxRecDepth 100000 in
theorem do_lines_intersect_f32_zero_det_witness :
    lineDet_f32 (0, 0) (10, 10) (0, 5) (20, 25) = 0 ∧
      do_lines_intersect_f32 (0, 0) (10, 10) (0, 5) (20, 25) = false :=
  ⟨by decide!, (do_lines_intersect_f32_zero_det (0, 0) (10, 10) (0, 5) (20, 25) (by decide!)).2⟩

set_option maxRecDepth 100000 in
/-- C4 (counterexample). The four points (3/8192, 7/16384), (900, 1050),
(3/8192, 7/16384), (3/4096, 7/8192) are binary32 values on the line
`7x = 6y`, the second segment is a part of the first, and the exact determinant
is zero.  The difference `900 - 3/8192` is rounded, the determinant computed in
single precision is `2^-25`, both quotients are `0/2^-25 = 0`, and
`do_lines_intersect` returns 1. -/
theorem collinear_counterexample :
    (f32 (3 / 8192) = 3 / 8192 ∧ f32 (7 / 16384) = 7 / 16384 ∧ f32 (3 / 4096) = 3 / 4096 ∧
        f32 (7 / 8192) = 7 / 8192) ∧
      lineDet (3 / 8192, 7 / 16384) (900, 1050) (3 / 8192, 7 / 16384) (3 / 4096, 7 / 8192) = 0 ∧
      ((3 / 4096, 7 / 8192) : Vector2) =
        (3 / 8192 + 1 / 2457599 * (900 - 3 / 8192),
          7 / 16384 + 1 / 2457599 * (1050 - 7 / 16384)) ∧
      lineDet_f32 (3 / 8192, 7 / 16384) (900, 1050) (3 / 8192, 7 / 16384) (3 / 4096, 7 / 8192) =
        1 / 33554432 ∧
      coefS_f32 (3 / 8192, 7 / 16384) (900, 1050) (3 / 8192, 7 / 16384) (3 / 4096, 7 / 8192) =
        FloatDiv.fin 0 ∧
      coefT_f32 (3 / 8192, 7 / 16384) (900, 1050) (3 / 8192, 7 / 16384) (3 / 4096, 7 / 8192) =
        FloatDiv.fin 0 ∧
      do_lines_intersect_f32 (3 / 8192, 7 / 16384) (900, 1050) (3 / 8192, 7 / 16384)
        (3 / 4096, 7 / 8192) = true := by
  decide!

theorem floatDiv_unit_iff (v : FloatDiv) :
    (v.geZero && v.leOne) = true ↔ ∃ q, v = FloatDiv.fin q ∧ 0 ≤ q ∧ q ≤ 1 := by
  cases v with
  | fin q =>
    simp only [FloatDiv.geZero, FloatDiv.leOne, Bool.and_eq_true, decide_eq_true_eq,
      FloatDiv.fin.injEq]
    constructor
    · intro h
      exact ⟨q, rfl, h.1, h.2⟩
    · rintro ⟨q2, rfl, h1, h2⟩
      exact ⟨h1, h2⟩
  | inf negative =>
    cases negative <;> simp [FloatDiv.geZero, FloatDiv.leOne]
  | nan => simp [FloatDiv.geZero, FloatDiv.leOne]

/-- C5 (amended). `do_lines_intersect` returns true exactly when the two
coefficients that it computes in single precision are finite and lie in the
closed interval `[0,1]`.  When the two computed coefficients are the exact ones
(no rounding error in `s` and `t`) and the exact determinant is not zero, that
is exactly when the closed segments `AB` and `CD` share a point. -/
theorem do_lines_intersect_f32_correct (a b c d : Vector2) :
    (do_lines_intersect_f32 a b c d = true ↔
        ∃ s t, coefS_f32 a b c d = FloatDiv.fin s ∧ coefT_f32 a b c d = FloatDiv.fin t ∧
          (0 ≤ s ∧ s ≤ 1) ∧ (0 ≤ t ∧ t ≤ 1)) ∧
      (coefS_f32 a b c d = coefS a b c d → coefT_f32 a b c d = coefT a b c d →
        lineDet a b c d ≠ 0 →
        (do_lines_intersect_f32 a b c d = true ↔
          ∃ p, p ∈ segment ℚ a b ∧ p ∈ segment ℚ c d)) := by
  constructor
  · unfold do_lines_intersect_f32
    simp only [Bool.and_assoc]
    rw [← Bool.and_assoc, Bool.and_eq_true, floatDiv_unit_iff, floatDiv_unit_iff]
    constructor
    · rintro ⟨⟨s, hs, hs0, hs1⟩, t, ht, ht0, ht1⟩
      exact ⟨s, t, hs, ht, ⟨hs0, hs1⟩, ht0, ht1⟩
    · rintro ⟨s, t, hs, ht, ⟨hs0, hs1⟩, ht0, ht1⟩
      exact ⟨⟨s, hs, hs0, hs1⟩, t, ht, ht0, ht1⟩
  · intro hs ht hdet
    have heq : do_lines_intersect_f32 a b c d = do_lines_intersect a b c d := by
      unfold do_lines_intersect_f32 do_lines_intersect
      rw [hs, ht]
    rw [heq]
    exact (do_lines_intersect_correct a b c d hdet).2.2.2

set_option maxRecDepth 100000 in
theorem do_lines_intersect_f32_correct_witness :
    do_lines_intersect_f32 (0, 0) (8, 8) (0, 8) (8, 0) = true ∧
      ∃ p, p ∈ segment ℚ ((0, 0) : Vector2) (8, 8) ∧ p ∈ segment ℚ ((0, 8) : Vector2) (8, 0) := by
  have h := (do_lines_intersect_f32_correct (0, 0) (8, 8) (0, 8) (8, 0)).2
    (by decide!) (by decide!) (by decide!)
  have ht : do_lines_intersect_f32 (0, 0) (8, 8) (0, 8) (8, 0) = true := by decide!
  exact ⟨ht, h.mp ht⟩

set_option maxRecDepth 100000 in
/-- C5 (counterexample). The segments from (47/2, 5169/4) to (1/4, 265) and
from (4421/4, 211/4) to (1/4, 265) end in the same point and are not parallel
(the exact determinant is not zero).  In single precision the coefficient `s`
comes out as `1 + 2^-23`, the test `s <= 1` fails and `do_lines_intersect`
returns 0 for segments that touch. -/
theorem touching_segments_counterexample :
    lineDet (47 / 2, 5169 / 4) (1 / 4, 265) (4421 / 4, 211 / 4) (1 / 4, 265) ≠ 0 ∧
      (∃ p, p ∈ segment ℚ ((47 / 2, 5169 / 4) : Vector2) (1 / 4, 265) ∧
        p ∈ segment ℚ ((4421 / 4, 211 / 4) : Vector2) (1 / 4, 265)) ∧
      (f32 (47 / 2) = 47 / 2 ∧ f32 (5169 / 4) = 5169 / 4 ∧ f32 (1 / 4) = 1 / 4 ∧
        f32 (4421 / 4) = 4421 / 4 ∧ f32 (211 / 4) = 211 / 4) ∧
      coefS_f32 (47 / 2, 5169 / 4) (1 / 4, 265) (4421 / 4, 211 / 4) (1 / 4, 265) =
        FloatDiv.fin (8388609 / 8388608) ∧
      do_lines_intersect_f32 (47 / 2, 5169 / 4) (1 / 4, 265) (4421 / 4, 211 / 4) (1 / 4, 265) =
        false :=
  ⟨by decide!, ⟨(1 / 4, 265), right_mem_segment ℚ _ _, right_mem_segment ℚ _ _⟩, by decide!,
    by decide!, by decide!⟩

/-! ## Winding normalization in single precision -/

theorem ensure_winding_f32_eq (poly : Polygon) :
    (poly_area_f32 poly < 0 → ensure_winding_f32 poly = poly) ∧
      (¬ poly_area_f32 poly < 0 → ensure_winding_f32 poly = poly.reverse) := by
  constructor
  · intro h
    unfold ensure_winding_f32
    rw [if_pos h]
  · intro h
    unfold ensure_winding_f32
    rw [if_neg h]
    exact swapLoop_eq_reverse poly

/-- C6 (amended). `ensure_winding` leaves the polygon unchanged when the signed
area that it computes in single precision is negative and reverses the vertex
order otherwise.  The computed signed area of the result is `<= 0` whenever the
computed areas of the polygon and of its reversal are the exact shoelace values
(no rounding error), reversal negating the exact area. -/
theorem ensure_winding_f32_area (poly : Polygon) :
    (poly_area_f32 poly < 0 → ensure_winding_f32 poly = poly) ∧
      (¬ poly_area_f32 poly < 0 → ensure_winding_f32 poly = poly.reverse) ∧
      (poly_area_f32 poly = poly_area poly →
        poly_area_f32 poly.reverse = poly_area poly.reverse →
        poly_area_f32 (ensure_winding_f32 poly) ≤ 0) := by
  obtain ⟨h1, h2⟩ := ensure_winding_f32_eq poly
  refine ⟨h1, h2, ?_⟩
  intro he hr
  by_cases hneg : poly_area_f32 poly < 0
  · rw [h1 hneg]
    exact le_of_lt hneg
  · rw [h2 hneg, hr, poly_area_reverse]
    rw [he] at hneg
    linarith

set_option maxRecDepth 100000 in
theorem ensure_winding_f32_area_witness :
    poly_area_f32 [(0, 0), (10, 0), (10, 10), (0, 10)] = 100 ∧
      ensure_winding_f32 [(0, 0), (10, 0), (10, 10), (0, 10)] =
        [(0, 10), (10, 10), (10, 0), (0, 0)] ∧
      poly_area_f32 (ensure_winding_f32 [(0, 0), (10, 0), (10, 10), (0, 10)]) ≤ 0 :=
  ⟨by decide!, by decide!,
    (ensure_winding_f32_area [(0, 0), (10, 0), (10, 10), (0, 10)]).2.2 (by decide!) (by decide!)⟩

set_option maxRecDepth 100000 in
/-- C6 (counterexample). The thin parallelogram `thinQuad` (binary32 vertices,
exact signed area `-3/1024`) has the computed signed area 0, so
`ensure_winding` reverses it; the computed signed area of the result is
`1/512 > 0`. -/
theorem winding_sign_counterexample :
    4 = thinQuad.length ∧ (∀ v ∈ thinQuad, f32 v.1 = v.1 ∧ f32 v.2 = v.2) ∧
      poly_area thinQuad = -3 / 1024 ∧ poly_area_f32 thinQuad = 0 ∧
      ensure_winding_f32 thinQuad = thinQuad.reverse ∧
      poly_area_f32 (ensure_winding_f32 thinQuad) = 1 / 512 ∧
      ¬ poly_area_f32 (ensure_winding_f32 thinQuad) ≤ 0 := by
  decide!

/-- C7 (amended). A second `ensure_winding` changes nothing exactly when the
signed area of the normalized polygon, as computed in single precision, is
negative (or the normalized vertex list reads the same in both directions).
That is the case whenever the computed areas of the polygon and of its reversal
are the exact shoelace values and the exact area is not zero. -/
theorem ensure_winding_f32_idempotent (poly : Polygon) :
    (ensure_winding_f32 (ensure_winding_f32 poly) = ensure_winding_f32 poly ↔
        poly_area_f32 (ensure_winding_f32 poly) < 0 ∨
          (ensure_winding_f32 poly).reverse = ensure_winding_f32 poly) ∧
      (poly_area_f32 poly = poly_area poly →
        poly_area_f32 poly.reverse = poly_area poly.reverse → poly_area poly ≠ 0 →
        ensure_winding_f32 (ensure_winding_f32 poly) = ensure_winding_f32 poly) := by
  have hiff : ensure_winding_f32 (ensure_winding_f32 poly) = ensure_winding_f32 poly ↔
      poly_area_f32 (ensure_winding_f32 poly) < 0 ∨
        (ensure_winding_f32 poly).reverse = ensure_winding_f32 poly := by
    obtain ⟨h1, h2⟩ := ensure_winding_f32_eq (ensure_winding_f32 poly)
    by_cases hneg : poly_area_f32 (ensure_winding_f32 poly) < 0
    · exact ⟨fun _ => Or.inl hneg, fun _ => h1 hneg⟩
    · rw [h2 hneg]
      exact ⟨fun h => Or.inr h, fun h => h.resolve_left hneg⟩
  refine ⟨hiff, ?_⟩
  intro he hr hne
  rw [hiff]
  left
  obtain ⟨h1, h2⟩ := ensure_winding_f32_eq poly
  by_cases hneg : poly_area_f32 poly < 0
  · rw [h1 hneg]
    exact hneg
  · rw [h2 hneg, hr, poly_area_reverse]
    rw [he] at hneg
    have hpos : 0 < poly_area poly := lt_of_le_of_ne (not_lt.mp hneg) (Ne.symm hne)
    linarith

set_option maxRecDepth 100000 in
theorem ensure_winding_f32_idempotent_witness :
    ensure_winding_f32 [(0, 0), (10, 0), (10, 10), (0, 10)] =
        [(0, 10), (10, 10), (10, 0), (0, 0)] ∧
      ensure_winding_f32 (ensure_winding_f32 [(0, 0), (10, 0), (10, 10), (0, 10)]) =
        ensure_winding_f32 [(0, 0), (10, 0), (10, 10), (0, 10)] :=
  ⟨by decide!,
    (ensure_winding_f32_idempotent [(0, 0), (10, 0), (10, 10), (0, 10)]).2 (by decide!)
      (by decide!) (by decide!)⟩

set_option maxRecDepth 100000 in
/-- C7 (counterexample). The thin triangle `thinTriangle` (binary32 vertices,
exact signed area `-3/64`, so a simple polygon) has the computed signed area 0
in both vertex orders: the first `ensure_winding` reverses it and the second
reverses it back, so applying it twice does not give the result of applying it
once. -/
theorem winding_idempotence_counterexample :
    3 = thinTriangle.length ∧ (∀ v ∈ thinTriangle, f32 v.1 = v.1 ∧ f32 v.2 = v.2) ∧
      poly_area thinTriangle = -3 / 64 ∧ poly_area_f32 thinTriangle = 0 ∧
      poly_area_f32 thinTriangle.reverse = 0 ∧
      ensure_winding_f32 thinTriangle = thinTriangle.reverse ∧
      ensure_winding_f32 (ensure_winding_f32 thinTriangle) = thinTriangle ∧
      ensure_winding_f32 (ensure_winding_f32 thinTriangle) ≠ ensure_winding_f32 thinTriangle := by
  decide!

/-! ## The separating-axis test in single precision -/

theorem check_poly_collisions_f32_exact (p1 p2 : Polygon) (h : SatExact p1 p2) :
    check_poly_collisions_f32 p1 p2 = check_poly_collisions p1 p2 := by
  have hax : ∀ p ∈ [p1, p2], ∀ i, i < p.length →
      axisSeparates_f32 (edgeAxis_f32 p i) p1 p2 = axisSeparates (edgeAxis p i) p1 p2 := by
    intro p hp i hi
    obtain ⟨e1, e2, e3⟩ := h p hp i hi
    unfold axisSeparates_f32 axisSeparates
    rw [e1, e2, e3]
  have hall : ∀ p ∈ [p1, p2],
      (List.range p.length).all (fun i => !axisSeparates_f32 (edgeAxis_f32 p i) p1 p2) =
        (List.range p.length).all (fun i => !axisSeparates (edgeAxis p i) p1 p2) := by
    intro p hp
    rw [Bool.eq_iff_iff, List.all_eq_true, List.all_eq_true]
    constructor
    · intro hx i hi
      rw [← hax p hp i (List.mem_range.mp hi)]
      exact hx i hi
    · intro hx i hi
      rw [hax p hp i (List.mem_range.mp hi)]
      exact hx i hi
  unfold check_poly_collisions_f32 check_poly_collisions
  rw [hall p1 (List.mem_cons_self _ _),
    hall p2 (List.mem_cons_of_mem _ (List.mem_cons_self _ _))]

/-- C3 (amended). When `check_poly_collisions` reports no overlap, some edge
normal separates the projection intervals that the program computes in single
precision.  When no operation of the test rounds (`SatExact`: the computed edge
normals and projection bounds are the exact ones), that normal strictly
separates the convex hulls of the two vertex sets, so the polygons share no
point. -/
theorem check_poly_collisions_f32_sound (p1 p2 : Polygon)
    (h : check_poly_collisions_f32 p1 p2 = false) :
    ((∃ i, i < p1.length ∧ axisSeparates_f32 (edgeAxis_f32 p1 i) p1 p2 = true) ∨
        (∃ i, i < p2.length ∧ axisSeparates_f32 (edgeAxis_f32 p2 i) p1 p2 = true)) ∧
      (SatExact p1 p2 →
        Disjoint (convexHull ℚ {v | v ∈ p1}) (convexHull ℚ {v | v ∈ p2})) := by
  constructor
  · unfold check_poly_collisions_f32 at h
    rw [Bool.and_eq_false_iff] at h
    rcases h with h | h
    · left
      rw [← Bool.not_eq_true, List.all_eq_true] at h
      push_neg at h
      obtain ⟨i, hi, hsep⟩ := h
      refine ⟨i, List.mem_range.mp hi, ?_⟩
      simpa using hsep
    · right
      rw [← Bool.not_eq_true, List.all_eq_true] at h
      push_neg at h
      obtain ⟨i, hi, hsep⟩ := h
      refine ⟨i, List.mem_range.mp hi, ?_⟩
      simpa using hsep
  · intro hex
    rw [check_poly_collisions_f32_exact p1 p2 hex] at h
    exact (check_poly_collisions_sound p1 p2 h).2

set_option maxRecDepth 100000 in
theorem check_poly_collisions_f32_sound_witness :
    check_poly_collisions_f32 [(0, 0), (10, 0), (0, 10)] [(20, 20), (30, 20), (20, 30)] = false ∧
      Disjoint (convexHull ℚ {v | v ∈ ([(0, 0), (10, 0), (0, 10)] : Polygon)})
        (convexHull ℚ {v | v ∈ ([(20, 20), (30, 20), (20, 30)] : Polygon)}) :=
  ⟨by decide!,
    (check_poly_collisions_f32_sound [(0, 0), (10, 0), (0, 10)] [(20, 20), (30, 20), (20, 30)]
      (by decide!)).2 (by decide!)⟩

set_option maxRecDepth 100000 in
theorem touch_facts :
    check_poly_collisions_f32 touchA touchB = false ∧
      axisSeparates_f32 (edgeAxis_f32 touchA 0) touchA touchB = true ∧
      (∀ v ∈ touchA ++ touchB, f32 v.1 = v.1 ∧ f32 v.2 = v.2) ∧
      ((6779 / 8, 4991 / 8) : Vector2) =
        ((1 / 2 : ℚ) * (1705 / 4) + (1 / 2 : ℚ) * (2537 / 2),
          (1 / 2 : ℚ) * 558 + (1 / 2 : ℚ) * (2759 / 4)) := by
  decide!

/-- C3 (counterexample). The triangles `touchA` and `touchB` (binary32
vertices) share the point (6779/8, 4991/8): it is a vertex of `touchB` and the
midpoint of the first edge of `touchA`.  On the normal of that edge the
projections computed in single precision come out separated, and
`check_poly_collisions` returns 0 for two polygons that have a point in
common. -/
theorem touching_triangles_counterexample :
    3 ≤ touchA.length ∧ 3 ≤ touchB.length ∧
      check_poly_collisions_f32 touchA touchB = false ∧
      (6779 / 8, 4991 / 8) ∈ convexHull ℚ {v | v ∈ touchA} ∧
      (6779 / 8, 4991 / 8) ∈ convexHull ℚ {v | v ∈ touchB} ∧
      ¬ Disjoint (convexHull ℚ {v | v ∈ touchA}) (convexHull ℚ {v | v ∈ touchB}) := by
  obtain ⟨hc, _, _, hmid⟩ := touch_facts
  have hB : ((6779 / 8, 4991 / 8) : Vector2) ∈ convexHull ℚ {v | v ∈ touchB} :=
    subset_convexHull ℚ _ (by
      show ((6779 / 8, 4991 / 8) : Vector2) ∈ touchB
      unfold touchB
      exact List.mem_cons_self _ _)
  have hA : ((6779 / 8, 4991 / 8) : Vector2) ∈ convexHull ℚ {v | v ∈ touchA} := by
    have h1 : ((1705 / 4, 558) : Vector2) ∈ convexHull ℚ {v | v ∈ touchA} :=
      subset_convexHull ℚ _ (by
        show ((1705 / 4, 558) : Vector2) ∈ touchA
        unfold touchA
        exact List.mem_cons_self _ _)
    have h2 : ((2537 / 2, 2759 / 4) : Vector2) ∈ convexHull ℚ {v | v ∈ touchA} :=
      subset_convexHull ℚ _ (by
        show ((2537 / 2, 2759 / 4) : Vector2) ∈ touchA
        unfold touchA
        exact List.mem_cons_of_mem _ (List.mem_cons_self _ _))
    have hmem := (convex_convexHull ℚ {v | v ∈ touchA}) h1 h2
      (by norm_num : (0 : ℚ) ≤ 1 / 2) (by norm_num : (0 : ℚ) ≤ 1 / 2) (by norm_num)
    rw [hmid]
    simpa [Prod.smul_mk, smul_eq_mul] using hmem
  refine ⟨by decide, by decide, hc, hA, hB, ?_⟩
  rw [Set.not_disjoint_iff]
  exact ⟨_, hA, hB⟩

/-! ## Re-centering of the unit shape in single precision -/

/-- C14 (amended). Finishing the drawn polygon `p` of the unit shape (SPACE in
`STATE_DRAW_INNER`, at least 3 vertices) stores the winding-normalized polygon
with its computed bounding-box center subtracted from every vertex, all in
single precision.  When the stored vertices, their bounding-box center and
their signed area carry no rounding error, `get_poly_center` of the stored
shape is (0,0) and its signed area is `<= 0`. -/
theorem unit_shape_f32_recentered (inp : Input) (nextState : State) (s : Session)
    (hs : s.currentState = State.STATE_DRAW_INNER) (hk : inp.keySpace = true)
    (hlen : 3 ≤ s.innerPoly.length) :
    (finish_shape_f32 inp PolyRef.inner nextState s).innerPoly =
        (ensure_winding_f32 s.innerPoly).map
          (fun v => Vector2Subtract_f32 v (get_poly_center_f32 (ensure_winding_f32 s.innerPoly))) ∧
      (finish_shape_f32 inp PolyRef.inner nextState s).currentState = nextState ∧
      ((finish_shape_f32 inp PolyRef.inner nextState s).innerPoly =
          recenter (ensure_winding s.innerPoly) →
        get_poly_center_f32 (recenter (ensure_winding s.innerPoly)) =
          get_poly_center (recenter (ensure_winding s.innerPoly)) →
        poly_area_f32 (recenter (ensure_winding s.innerPoly)) =
          poly_area (recenter (ensure_winding s.innerPoly)) →
        get_poly_center_f32 (finish_shape_f32 inp PolyRef.inner nextState s).innerPoly = (0, 0) ∧
          poly_area_f32 (finish_shape_f32 inp PolyRef.inner nextState s).innerPoly ≤ 0) := by
  have hfin : finish_shape_f32 inp PolyRef.inner nextState s =
      { s with
        innerPoly := (ensure_winding_f32 s.innerPoly).map
          (fun v => Vector2Subtract_f32 v (get_poly_center_f32 (ensure_winding_f32 s.innerPoly)))
        currentState := nextState } := by
    unfold finish_shape_f32
    have hc : (inp.keySpace && decide ((getPoly s PolyRef.inner).length ≥ 3)) = true := by
      rw [hk, Bool.true_and, decide_eq_true_eq]
      exact hlen
    rw [if_pos hc]
    simp only [getPoly, setPoly, hs, if_true]
  rw [hfin]
  refine ⟨rfl, rfl, ?_⟩
  intro hst hcen harea
  simp only at hst ⊢
  rw [hst, hcen, harea]
  have hne : (ensure_winding s.innerPoly).length ≠ 0 := by
    rw [ensure_winding_length]
    omega
  obtain ⟨c1, _, _, c4⟩ := recenter_spec (ensure_winding s.innerPoly) hne
  exact ⟨c1, by rw [c4]; exact poly_area_ensure_winding s.innerPoly⟩

set_option maxRecDepth 100000 in
theorem unit_shape_f32_recentered_witness :
    (unitClicked [(200, 200), (211, 200), (211, 211), (200, 211)]).innerPoly =
        [(200, 200), (211, 200), (211, 211), (200, 211)] ∧
      (finish_shape_f32 pressSpace PolyRef.inner State.STATE_PACKING
        (unitClicked [(200, 200), (211, 200), (211, 211), (200, 211)])).innerPoly =
        [(-11 / 2, 11 / 2), (11 / 2, 11 / 2), (11 / 2, -11 / 2), (-11 / 2, -11 / 2)] ∧
      get_poly_center_f32 (finish_shape_f32 pressSpace PolyRef.inner State.STATE_PACKING
        (unitClicked [(200, 200), (211, 200), (211, 211), (200, 211)])).innerPoly = (0, 0) ∧
      poly_area_f32 (finish_shape_f32 pressSpace PolyRef.inner State.STATE_PACKING
        (unitClicked [(200, 200), (211, 200), (211, 211), (200, 211)])).innerPoly ≤ 0 := by
  have h := unit_shape_f32_recentered pressSpace State.STATE_PACKING
    (unitClicked [(200, 200), (211, 200), (211, 211), (200, 211)])
    (by decide!) (by decide!) (by decide!)
  have h3 := h.2.2 (by decide!) (by decide!) (by decide!)
  exact ⟨by decide!, by decide!, h3.1, h3.2⟩

set_option maxRecDepth 100000 in
/-- C14 (counterexample). Two unit shapes drawn with three clicks and finished
with SPACE.  For `offTriangle` the computed bounding-box center is (256, 256)
(the exact one, `256 + 2^-16`, is no binary32 value), the stored leftmost
vertex is rounded, and `get_poly_center` of the stored shape is `(2^-16, 0)`,
not (0,0).  For `thinDrawn`, of exact signed area `-1/64`, the computed area is
0, so `ensure_winding` reverses the triangle, and the signed area of the stored
shape is `1/64 > 0`. -/
theorem unit_shape_counterexample :
    ((unitClicked offTriangle).currentState = State.STATE_DRAW_INNER ∧
        (unitClicked offTriangle).innerPoly = offTriangle ∧
        (finish_shape_f32 pressSpace PolyRef.inner State.STATE_PACKING
          (unitClicked offTriangle)).innerPoly =
          [(256, 256), (256, -256), (-8388607 / 32768, -256)] ∧
        get_poly_center_f32 (finish_shape_f32 pressSpace PolyRef.inner State.STATE_PACKING
          (unitClicked offTriangle)).innerPoly = (1 / 65536, 0)) ∧
      ((unitClicked thinDrawn).currentState = State.STATE_DRAW_INNER ∧
        (unitClicked thinDrawn).innerPoly = thinDrawn ∧
        poly_area thinDrawn = -1 / 64 ∧ poly_area_f32 thinDrawn = 0 ∧
        (finish_shape_f32 pressSpace PolyRef.inner State.STATE_PACKING
          (unitClicked thinDrawn)).innerPoly =
          [(-133, 2127 / 16), (-1063 / 4, 2125 / 8), (1063 / 4, -2125 / 8)] ∧
        poly_area_f32 (finish_shape_f32 pressSpace PolyRef.inner State.STATE_PACKING
          (unitClicked thinDrawn)).innerPoly = 1 / 64) := by
  decide!

end Packer
